import Mathlib

/-!
# Card-matching game: rule evaluator, game state and undo history

A shallow embedding of the C++ sources under `Classes/` together with the
properties proved about them.

Modelling conventions

* `int` fields are `Int`; the arithmetic the sources perform on them stays far
  below the 32-bit range on the inputs considered, and signed overflow
  (undefined behaviour in C++) lies outside the model.
* `float` values (`Vec2` coordinates, `_gameTime`, `_timestamp`) are carried as
  `Int`; the sources only store, copy and compare them.
* A `CardModel*` is an index into `GameModel._allCards` (the arena that owns the
  cards, in `_allCards` order); `none` is the null pointer.  The three area
  vectors hold such indices, so aliasing between `_allCards` and the areas is
  kept.
* Methods become functions that take the object state and return the new state
  next to the C++ return value.
-/

namespace CardGame

/-! ## Data model -/

/-- Point of the scene graph (`cocos2d::Vec2`). -/
structure Vec2 where
  x : Int
  y : Int
deriving DecidableEq, Repr

/-- The origin, `Vec2::ZERO`. -/
def Vec2.ZERO : Vec2 := ⟨0, 0⟩

/-- Card entity, `CardModel` (CardModel.h).  `_suit` and `_rank` hold the
integer value of the enum (`CLUBS = 0 .. SPADES = 3`, `ACE = 0 .. KING = 12`). -/
structure CardModel where
  _cardId : Int
  _suit : Int
  _rank : Int
  _isFaceUp : Bool
  _isSelected : Bool
  _isMovable : Bool
  _isVisible : Bool
  _position : Vec2
  _zOrder : Int
  _value : Int
  _cardName : String
  _cardArea : String
  _areaIndex : Int
deriving DecidableEq, Repr

/-- Pointer to a card: an index into `_allCards`. -/
abbrev CardPtr := Nat

/-- Lifecycle of a game, `GameModel::GameState`. -/
inductive GameState where
  | GAME_STATE_NONE
  | GAME_STATE_PLAYING
  | GAME_STATE_PAUSED
  | GAME_STATE_FINISHED
  | GAME_STATE_GAME_OVER
deriving DecidableEq, Repr

/-- Game aggregate, `GameModel` (GameModel.h).  The private blackjack vectors
(`_playerHand`, `_dealerHand`, `_deck`, `_discardPile`) and `_completedActions`
are never written by the modelled code and are left out. -/
structure GameModel where
  _levelId : Int
  _gameId : Int
  _gameState : GameState
  _gameTime : Int
  _score : Int
  _targetScore : Int
  _allCards : List CardModel
  _playfieldCards : List CardPtr
  _stackCards : List CardPtr
  _handCards : List CardPtr
  _maxUndoCount : Int
  _currentUndoCount : Int
  _allowHint : Bool
  _allowUndo : Bool
  _timeLimit : Int
  _playerTurn : Bool
  _playerScore : Int
  _dealerScore : Int
  _playerBusted : Bool
  _dealerBusted : Bool
  _movesCount : Int
  _hintsUsed : Int
deriving DecidableEq, Repr

namespace GameModel

/-- Index of the first card of `cards` whose id is `cardId` (the loop of
`GameModel::getCardById`), counted from `base`. -/
def findCardFrom (cardId : Int) : List CardModel → Nat → Option CardPtr
  | [], _ => none
  | card :: rest, base =>
    if card._cardId = cardId then some base else findCardFrom cardId rest (base + 1)

/-- `GameModel::getCardById`: the first card of `_allCards` with the given id,
or the null pointer. -/
def getCardById (g : GameModel) (cardId : Int) : Option CardPtr :=
  findCardFrom cardId g._allCards 0

/-- Dereference a card pointer. -/
def card? (g : GameModel) (p : CardPtr) : Option CardModel :=
  g._allCards[p]?

/-- Replace the card stored at index `p` by its image under `f`. -/
def updateCard (cards : List CardModel) (p : CardPtr) (f : CardModel → CardModel) :
    List CardModel :=
  match cards[p]? with
  | some c => cards.set p (f c)
  | none => cards

/-- Write through a card pointer: `p->field = ...`. -/
def modifyCard (g : GameModel) (p : CardPtr) (f : CardModel → CardModel) : GameModel :=
  { g with _allCards := updateCard g._allCards p f }

/-- `GameModel::getTopHandCard`: `_handCards.back()` or null. -/
def getTopHandCard (g : GameModel) : Option CardPtr :=
  g._handCards.getLast?

/-- Whether the card behind pointer `q` has id `cardId` (the lambda passed to
`std::find_if` in `removeCardFromArea`). -/
def hasId (g : GameModel) (cardId : Int) (q : CardPtr) : Bool :=
  match g.card? q with
  | some c => c._cardId == cardId
  | none => false

/-- `GameModel::removeCardFromArea`: erase the first entry of the named area
vector whose card has the given id. -/
def removeCardFromArea (g : GameModel) (cardId : Int) (area : String) : Bool × GameModel :=
  if area = "playfield" then
    if g._playfieldCards.any (g.hasId cardId) then
      (true, { g with _playfieldCards := g._playfieldCards.eraseP (g.hasId cardId) })
    else (false, g)
  else if area = "stack" then
    if g._stackCards.any (g.hasId cardId) then
      (true, { g with _stackCards := g._stackCards.eraseP (g.hasId cardId) })
    else (false, g)
  else if area = "hand" then
    if g._handCards.any (g.hasId cardId) then
      (true, { g with _handCards := g._handCards.eraseP (g.hasId cardId) })
    else (false, g)
  else (false, g)

/-- Insertion rule shared by the three branches of `addCardToArea`:
`insert(begin() + index, card)` when `0 <= index <= size()`, else `push_back`. -/
def insertOrPush (v : List CardPtr) (card : CardPtr) (index : Int) : List CardPtr :=
  if 0 ≤ index ∧ index.toNat ≤ v.length then v.insertIdx index.toNat card
  else v ++ [card]

/-- `GameModel::addCardToArea`. -/
def addCardToArea (g : GameModel) (card : Option CardPtr) (area : String) (index : Int) :
    Bool × GameModel :=
  match card with
  | none => (false, g)
  | some c =>
    if area = "playfield" then
      (true, { g with _playfieldCards := insertOrPush g._playfieldCards c index })
    else if area = "stack" then
      (true, { g with _stackCards := insertOrPush g._stackCards c index })
    else if area = "hand" then
      (true, { g with _handCards := insertOrPush g._handCards c index })
    else (false, g)

/-- The area tag read through a card pointer, `card->_cardArea`. -/
def areaOf (g : GameModel) (p : CardPtr) : String :=
  match g.card? p with
  | some c => c._cardArea
  | none => ""

/-- `GameModel::moveCardToArea` (`targetIndex` defaults to `-1` in the header). -/
def moveCardToArea (g : GameModel) (cardId : Int) (targetArea : String)
    (targetIndex : Int) : Bool × GameModel :=
  match g.getCardById cardId with
  | none => (false, g)
  | some card =>
    let g1 := (g.removeCardFromArea cardId (g.areaOf card)).2
    let g2 := g1.modifyCard card (fun c => { c with _cardArea := targetArea })
    let g3 := if 0 ≤ targetIndex then
        g2.modifyCard card (fun c => { c with _areaIndex := targetIndex })
      else g2
    g3.addCardToArea (some card) targetArea targetIndex

/-- `GameModel::startGame`. -/
def startGame (g : GameModel) : GameModel :=
  { g with _gameState := GameState.GAME_STATE_PLAYING, _gameTime := 0 }

/-- `GameModel::pauseGame`. -/
def pauseGame (g : GameModel) : GameModel :=
  if g._gameState = GameState.GAME_STATE_PLAYING then
    { g with _gameState := GameState.GAME_STATE_PAUSED }
  else g

/-- `GameModel::resumeGame`. -/
def resumeGame (g : GameModel) : GameModel :=
  if g._gameState = GameState.GAME_STATE_PAUSED then
    { g with _gameState := GameState.GAME_STATE_PLAYING }
  else g

/-- `GameModel::endGame`. -/
def endGame (g : GameModel) : GameModel :=
  { g with _gameState := GameState.GAME_STATE_FINISHED }

/-- `GameModel::isGameFinished`. -/
def isGameFinished (g : GameModel) : Bool :=
  g._gameState == GameState.GAME_STATE_FINISHED ||
    g._gameState == GameState.GAME_STATE_GAME_OVER

/-- `GameModel::isGameWon`. -/
def isGameWon (g : GameModel) : Bool :=
  (g._gameState == GameState.GAME_STATE_FINISHED ||
    g._gameState == GameState.GAME_STATE_GAME_OVER) && decide (g._targetScore ≤ g._score)

/-- `GameModel::isGameLost`. -/
def isGameLost (g : GameModel) : Bool :=
  (g._gameState == GameState.GAME_STATE_GAME_OVER ||
    g._gameState == GameState.GAME_STATE_FINISHED) && decide (g._score < g._targetScore)

/-- `GameModel::canUndo`. -/
def canUndo (g : GameModel) : Bool :=
  g._allowUndo && decide (g._currentUndoCount < g._maxUndoCount)

/-- `GameModel::canHint`. -/
def canHint (g : GameModel) : Bool := g._allowHint

/-- `GameModel::calculateStars`. -/
def calculateStars (g : GameModel) : Int :=
  if 1800 ≤ g._score then 3
  else if 1400 < g._score then 2
  else if 1000 ≤ g._score then 1
  else 0

/-- `GameModel::isValid`. -/
def isValid (g : GameModel) : Bool :=
  decide (0 < g._levelId) && decide (0 < g._gameId) && decide (0 < g._targetScore) &&
    decide (0 ≤ g._maxUndoCount)

end GameModel

namespace CardModel

/-- `CardModel::flipCard`. -/
def flipCard (c : CardModel) : CardModel := { c with _isFaceUp := !c._isFaceUp }

/-- `CardModel::setSelected`. -/
def setSelected (c : CardModel) (selected : Bool) : CardModel :=
  { c with _isSelected := selected }

/-- `CardModel::setPosition`. -/
def setPosition (c : CardModel) (position : Vec2) : CardModel :=
  { c with _position := position }

/-- `CardModel::setZOrder`. -/
def setZOrder (c : CardModel) (zOrder : Int) : CardModel := { c with _zOrder := zOrder }

/-- `CardModel::isValid`, with `HEARTS = 2`, `SPADES = 3`, `ACE = 0`, `KING = 12`. -/
def isValid (c : CardModel) : Bool :=
  decide (0 < c._cardId) && decide (2 ≤ c._suit) && decide (c._suit ≤ 3) &&
    decide (0 ≤ c._rank) && decide (c._rank ≤ 12)

/-- `CardModel::reset`. -/
def reset (c : CardModel) : CardModel :=
  { c with _isFaceUp := false, _isSelected := false, _isMovable := true,
           _isVisible := true, _position := Vec2.ZERO, _zOrder := 0 }

end CardModel

/-! ## Rule evaluator (GameRulesService.cpp) -/

namespace GameRulesService

/-- The C library `abs` on `int`. -/
def abs (x : Int) : Int := if x < 0 then -x else x

/-- `GameRulesService::canCardsMatch`. -/
def canCardsMatch (card1 card2 : Option CardModel) : Bool :=
  match card1, card2 with
  | some c1, some c2 =>
    let rank1 := c1._rank
    let rank2 := c2._rank
    let diff := abs (rank1 - rank2)
    diff == 1
  | _, _ => false

/-- `GameRulesService::executeCardMatch` on a non-null game model: the C++
return value and the game model after the call. -/
def executeCardMatch (gameModel : GameModel) (playfieldCardId handCardId : Int) :
    Bool × GameModel :=
  match gameModel.getCardById playfieldCardId, gameModel.getCardById handCardId with
  | some playfieldCard, some handCard =>
    if !canCardsMatch (gameModel.card? playfieldCard) (gameModel.card? handCard) then
      (false, gameModel)
    else
      let g1 := { gameModel with
        _playfieldCards := gameModel._playfieldCards.erase playfieldCard }
      let g2 := g1.modifyCard playfieldCard
        (fun c => { c with _cardArea := "hand", _isFaceUp := true })
      let g3 := { g2 with _handCards := g2._handCards ++ [playfieldCard] }
      let g4 := { g3 with _movesCount := g3._movesCount + 1 }
      (true, { g4 with _score := g4._score + 100 })
  | _, _ => (false, gameModel)

/-- `GameRulesService::flipStackCardToHand`. -/
def flipStackCardToHand (gameModel : GameModel) : Bool × GameModel :=
  match gameModel._stackCards.getLast? with
  | none => (false, gameModel)
  | some topStackCard =>
    let g1 := { gameModel with _stackCards := gameModel._stackCards.dropLast }
    let g2 := g1.modifyCard topStackCard
      (fun c => { c with _cardArea := "hand", _isFaceUp := true })
    (true, { g2 with _handCards := g2._handCards ++ [topStackCard] })

/-- `GameRulesService::checkGameWon`. -/
def checkGameWon (gameModel : GameModel) : Bool :=
  gameModel._playfieldCards.isEmpty

/-- The test of the loop body of `hasAvailableMoves`:
`playfieldCard->_isFaceUp && canCardsMatch(playfieldCard, handCard)`. -/
def matchesHand (gameModel : GameModel) (handCard playfieldCard : CardPtr) : Bool :=
  match gameModel.card? playfieldCard with
  | some c => c._isFaceUp && canCardsMatch (some c) (gameModel.card? handCard)
  | none => false

/-- `GameRulesService::hasAvailableMoves`. -/
def hasAvailableMoves (gameModel : GameModel) : Bool :=
  match gameModel._handCards.getLast? with
  | none => false
  | some handCard =>
    if gameModel._playfieldCards.any (matchesHand gameModel handCard) then true
    else !gameModel._stackCards.isEmpty

/-- `GameRulesService::checkGameLost`. -/
def checkGameLost (gameModel : GameModel) : Bool :=
  if !gameModel._stackCards.isEmpty then false
  else !hasAvailableMoves gameModel

end GameRulesService

/-! ## History entries (UndoModel.cpp) -/

/-- Kind of a recorded action, `UndoModel::ActionType`. -/
inductive ActionType where
  | ACTION_NONE
  | ACTION_MOVE_CARD
  | ACTION_FLIP_CARD
  | ACTION_DEAL_CARD
  | ACTION_SHUFFLE
  | ACTION_SELECT_CARD
  | ACTION_DESELECT_CARD
deriving DecidableEq, Repr

/-- History entry, `UndoModel` (UndoModel.h).  The deep copies
`_cardBeforeState` / `_cardAfterState` are `none` for the null pointer; the
`_metadata` map is never written by the modelled code and is left out. -/
structure UndoModel where
  _actionType : ActionType
  _cardId : Int
  _fromPosition : String
  _toPosition : String
  _timestamp : Int
  _moveIndex : Int
  _cardBeforeState : Option CardModel
  _positionBefore : Vec2
  _faceUpBefore : Bool
  _selectedBefore : Bool
  _cardAfterState : Option CardModel
  _positionAfter : Vec2
  _faceUpAfter : Bool
  _selectedAfter : Bool
  _extraData : String
deriving DecidableEq, Repr

namespace UndoModel

/-- The four-argument constructor `UndoModel::UndoModel(actionType, cardId,
fromPosition, toPosition)`. -/
def mk4 (actionType : ActionType) (cardId : Int) (fromPosition toPosition : String) :
    UndoModel :=
  { _actionType := actionType, _cardId := cardId, _fromPosition := fromPosition,
    _toPosition := toPosition, _timestamp := 0, _moveIndex := 0,
    _cardBeforeState := none, _positionBefore := Vec2.ZERO, _faceUpBefore := false,
    _selectedBefore := false, _cardAfterState := none, _positionAfter := Vec2.ZERO,
    _faceUpAfter := false, _selectedAfter := false, _extraData := "" }

/-- `UndoModel::canUndo`. -/
def canUndo (u : UndoModel) : Bool :=
  u._actionType != ActionType.ACTION_NONE && decide (0 < u._cardId)

/-- `UndoModel::isValid`. -/
def isValid (u : UndoModel) : Bool :=
  u._actionType != ActionType.ACTION_NONE && decide (0 < u._cardId)

/-- `UndoModel::executeUndo` on a non-null game model. -/
def executeUndo (u : UndoModel) (gameModel : GameModel) : Bool × GameModel :=
  if !u.canUndo then (false, gameModel)
  else
    match gameModel.getCardById u._cardId with
    | none => (false, gameModel)
    | some card =>
      match u._actionType with
      | ActionType.ACTION_MOVE_CARD =>
        let r := gameModel.moveCardToArea u._cardId u._fromPosition (-1)
        if r.1 then
          (true, r.2.modifyCard card (fun c =>
            { c with _position := u._positionBefore, _isFaceUp := u._faceUpBefore,
                     _isSelected := u._selectedBefore }))
        else (false, r.2)
      | ActionType.ACTION_FLIP_CARD => (true, gameModel.modifyCard card CardModel.flipCard)
      | ActionType.ACTION_SELECT_CARD =>
        (true, gameModel.modifyCard card (fun c => c.setSelected false))
      | ActionType.ACTION_DESELECT_CARD =>
        (true, gameModel.modifyCard card (fun c => c.setSelected true))
      | _ => (false, gameModel)

/-- `UndoModel::executeRedo` on a non-null game model. -/
def executeRedo (u : UndoModel) (gameModel : GameModel) : Bool × GameModel :=
  if !u.canUndo then (false, gameModel)
  else
    match gameModel.getCardById u._cardId with
    | none => (false, gameModel)
    | some card =>
      match u._actionType with
      | ActionType.ACTION_MOVE_CARD => gameModel.moveCardToArea u._cardId u._toPosition (-1)
      | ActionType.ACTION_FLIP_CARD => (true, gameModel.modifyCard card CardModel.flipCard)
      | ActionType.ACTION_SELECT_CARD =>
        (true, gameModel.modifyCard card (fun c => c.setSelected true))
      | ActionType.ACTION_DESELECT_CARD =>
        (true, gameModel.modifyCard card (fun c => c.setSelected false))
      | _ => (false, gameModel)

end UndoModel

/-! ## History manager (UndoManager.cpp) -/

/-- History manager, `UndoManager`.  `_gameModel` records whether the pointer
is non-null; the game model it points to is the one owned by the caller and is
passed to the operations explicitly. -/
structure UndoManager where
  _gameModel : Bool
  _maxUndoCount : Int
  _isInitialized : Bool
  _undoHistory : List UndoModel
  _redoHistory : List UndoModel
deriving DecidableEq, Repr

namespace UndoManager

/-- The constructor `UndoManager::UndoManager`. -/
def new : UndoManager :=
  { _gameModel := false, _maxUndoCount := 50, _isInitialized := false,
    _undoHistory := [], _redoHistory := [] }

/-- `static_cast<size_t>(_maxUndoCount)` for a 64-bit `size_t`. -/
def toSize (n : Int) : Nat :=
  if 0 ≤ n then n.toNat else 2 ^ 64 - n.natAbs

/-- The loop `while (v.size() > max) v.erase(v.begin())` of the two overflow
handlers. -/
def evictOldest (max : Nat) : List UndoModel → List UndoModel
  | [] => []
  | e :: rest => if max < (e :: rest).length then evictOldest max rest else e :: rest

/-- `UndoManager::validateManagerState`. -/
def validateManagerState (m : UndoManager) : Bool :=
  m._gameModel && decide (0 < m._maxUndoCount)

/-- `UndoManager::init`; `gameModel` tells whether the pointer passed is
non-null. -/
def init (m : UndoManager) (gameModel : Bool) (maxUndoCount : Int) : Bool × UndoManager :=
  if m._isInitialized then (false, m)
  else
    let m1 := { m with _gameModel := gameModel, _maxUndoCount := maxUndoCount }
    if !m1.validateManagerState then (false, m1)
    else (true, { m1 with _isInitialized := true })

/-- `UndoManager::handleUndoHistoryOverflow`. -/
def handleUndoHistoryOverflow (m : UndoManager) : UndoManager :=
  { m with _undoHistory := evictOldest (toSize m._maxUndoCount) m._undoHistory }

/-- `UndoManager::handleRedoHistoryOverflow`. -/
def handleRedoHistoryOverflow (m : UndoManager) : UndoManager :=
  { m with _redoHistory := evictOldest (toSize m._maxUndoCount) m._redoHistory }

/-- `UndoManager::clearUndoHistory`. -/
def clearUndoHistory (m : UndoManager) : UndoManager := { m with _undoHistory := [] }

/-- `UndoManager::clearRedoHistory`. -/
def clearRedoHistory (m : UndoManager) : UndoManager := { m with _redoHistory := [] }

/-- `UndoManager::validateUndoAction` on a non-null entry. -/
def validateUndoAction (undoModel : UndoModel) : Bool := undoModel.isValid

/-- `UndoManager::addUndoAction` on a non-null entry; `now` is the value of
`getCurrentTimestamp()`. -/
def addUndoAction (m : UndoManager) (undoModel : UndoModel) (now : Int) :
    Bool × UndoManager :=
  if !m._isInitialized then (false, m)
  else if !validateUndoAction undoModel then (false, m)
  else
    let stamped := { undoModel with _timestamp := now }
    let m1 := { m with _undoHistory := m._undoHistory ++ [stamped] }
    let m2 := m1.clearRedoHistory
    (true, m2.handleUndoHistoryOverflow)

/-- `UndoManager::canUndo`. -/
def canUndo (m : UndoManager) : Bool := m._isInitialized && !m._undoHistory.isEmpty

/-- `UndoManager::canRedo`. -/
def canRedo (m : UndoManager) : Bool := m._isInitialized && !m._redoHistory.isEmpty

/-- `UndoManager::getLastUndoAction`. -/
def getLastUndoAction (m : UndoManager) : Option UndoModel := m._undoHistory.getLast?

/-- `UndoManager::executeUndoAction` on a non-null entry. -/
def executeUndoAction (m : UndoManager) (undoModel : UndoModel) (g : GameModel) :
    Bool × GameModel :=
  if !m._gameModel then (false, g) else undoModel.executeUndo g

/-- `UndoManager::executeRedoAction` on a non-null entry. -/
def executeRedoAction (m : UndoManager) (undoModel : UndoModel) (g : GameModel) :
    Bool × GameModel :=
  if !m._gameModel then (false, g) else undoModel.executeRedo g

/-- `UndoManager::undo`: the return value, the manager and the game model
after the call. -/
def undo (m : UndoManager) (g : GameModel) : Bool × UndoManager × GameModel :=
  if !m.canUndo then (false, m, g)
  else
    match m._undoHistory.getLast? with
    | none => (false, m, g)
    | some undoModel =>
      let m1 := { m with _undoHistory := m._undoHistory.dropLast }
      let r := m1.executeUndoAction undoModel g
      if r.1 then
        let m2 := { m1 with _redoHistory := m1._redoHistory ++ [undoModel] }
        (true, m2.handleRedoHistoryOverflow, r.2)
      else
        (false, { m1 with _undoHistory := m1._undoHistory ++ [undoModel] }, r.2)

/-- `UndoManager::redo`. -/
def redo (m : UndoManager) (g : GameModel) : Bool × UndoManager × GameModel :=
  if !m.canRedo then (false, m, g)
  else
    match m._redoHistory.getLast? with
    | none => (false, m, g)
    | some undoModel =>
      let m1 := { m with _redoHistory := m._redoHistory.dropLast }
      let r := m1.executeRedoAction undoModel g
      if r.1 then
        let m2 := { m1 with _undoHistory := m1._undoHistory ++ [undoModel] }
        (true, m2.handleUndoHistoryOverflow, r.2)
      else
        (false, { m1 with _redoHistory := m1._redoHistory ++ [undoModel] }, r.2)

/-- `UndoManager::setMaxUndoCount`. -/
def setMaxUndoCount (m : UndoManager) (maxCount : Int) : UndoManager :=
  ({ m with _maxUndoCount := maxCount }).handleUndoHistoryOverflow.handleRedoHistoryOverflow

end UndoManager

/-! ## Level configuration (LevelConfig.cpp) and model generator (GameModelGenerator.cpp) -/

/-- Tableau placement, `LevelConfig::PlayfieldCard`. -/
structure PlayfieldCard where
  cardFace : Int
  cardSuit : Int
  position : Vec2
  isFaceUp : Bool
deriving DecidableEq, Repr

/-- Stock placement, `LevelConfig::StackCard`. -/
structure StackCard where
  cardFace : Int
  cardSuit : Int
  position : Vec2
deriving DecidableEq, Repr

/-- Level descriptor, `LevelConfig` (LevelConfig.h). -/
structure LevelConfig where
  _levelId : Int
  _levelName : String
  _levelDescription : String
  _difficulty : Int
  _targetScore : Int
  _timeLimit : Int
  _initialCardCount : Int
  _maxUndoCount : Int
  _allowHint : Bool
  _allowUndo : Bool
  _star1Score : Int
  _star2Score : Int
  _star3Score : Int
  _requiredLevelId : Int
  _requiredStars : Int
  _playfieldCards : List PlayfieldCard
  _stackCards : List StackCard
deriving DecidableEq, Repr

/-- `LevelConfig::isValid`. -/
def LevelConfig.isValid (c : LevelConfig) : Bool :=
  decide (0 < c._levelId) && !c._levelName.isEmpty && decide (1 ≤ c._difficulty) &&
    decide (c._difficulty ≤ 5) && decide (0 < c._targetScore) &&
    decide (0 < c._initialCardCount) && decide (0 ≤ c._maxUndoCount)

namespace CardModel

/-- `CardModel::getValue` as a function of the rank. -/
def getValue (rank : Int) : Int :=
  if rank = 0 then 11
  else if rank = 10 ∨ rank = 11 ∨ rank = 12 then 10
  else rank

/-- `CardModel::getSuitName` as a function of the suit. -/
def getSuitName (suit : Int) : String :=
  if suit = 2 then "Hearts"
  else if suit = 1 then "Diamonds"
  else if suit = 0 then "Clubs"
  else if suit = 3 then "Spades"
  else "Unknown"

/-- `CardModel::getRankName` as a function of the rank. -/
def getRankName (rank : Int) : String :=
  if rank = 0 then "Ace"
  else if rank = 1 then "Two"
  else if rank = 2 then "Three"
  else if rank = 3 then "Four"
  else if rank = 4 then "Five"
  else if rank = 5 then "Six"
  else if rank = 6 then "Seven"
  else if rank = 7 then "Eight"
  else if rank = 8 then "Nine"
  else if rank = 9 then "Ten"
  else if rank = 10 then "Jack"
  else if rank = 11 then "Queen"
  else if rank = 12 then "King"
  else "Unknown"

/-- The constructor `CardModel::CardModel(suit, rank, cardId)`.  `_cardArea` is
default-constructed (empty); `_areaIndex` is left uninitialised by the source
and is carried as `0`. -/
def mk3 (suit rank cardId : Int) : CardModel :=
  { _cardId := cardId, _suit := suit, _rank := rank, _isFaceUp := false,
    _isSelected := false, _isMovable := true, _isVisible := true,
    _position := Vec2.ZERO, _zOrder := 0, _value := getValue rank,
    _cardName := getRankName rank ++ " of " ++ getSuitName suit,
    _cardArea := "", _areaIndex := 0 }

end CardModel

/-- The constructor `GameModel::GameModel`. -/
def GameModel.new : GameModel :=
  { _levelId := 0, _gameId := 0, _gameState := GameState.GAME_STATE_NONE, _gameTime := 0,
    _score := 0, _targetScore := 1000, _allCards := [], _playfieldCards := [],
    _stackCards := [], _handCards := [], _maxUndoCount := 10, _currentUndoCount := 0,
    _allowHint := true, _allowUndo := true, _timeLimit := 0, _playerTurn := true,
    _playerScore := 0, _dealerScore := 0, _playerBusted := false, _dealerBusted := false,
    _movesCount := 0, _hintsUsed := 0 }

namespace GameModelGenerator

/-- The 13 cards of one suit, ranks `0..12`, with ids counted from `firstId`
(inner loop of `createCardCollection`). -/
def suitCards (suit : Int) (firstId : Int) : List CardModel :=
  (List.range 13).map (fun (rank : Nat) => CardModel.mk3 suit rank (firstId + rank))

/-- The ordered deck built by the nested loops of `createCardCollection`:
suits `0..3`, ranks `0..12`, ids `1..52`. -/
def orderedDeck : List CardModel :=
  suitCards 0 1 ++ suitCards 1 14 ++ suitCards 2 27 ++ suitCards 3 40

/-- The writes of the tableau loop on the card it deals: area, position and
face come from the placement. -/
def placeOnTableau (card : CardModel) (placement : PlayfieldCard) : CardModel :=
  { card with _cardArea := "playfield", _position := placement.position,
              _isFaceUp := placement.isFaceUp }

/-- The writes of the stock loop on the card it deals. -/
def placeOnStack (card : CardModel) (stackIndex : Int) : CardModel :=
  { card with _cardArea := "stack", _position := Vec2.mk (200 + stackIndex * 15) 400,
              _zOrder := stackIndex, _isFaceUp := false }

/-- The tableau loop of `createCardCollection`: the next deck card takes the
position and face of the next placement, until either runs out.  Returns the
game model and the cards of the deck not yet dealt. -/
def dealPlayfield : List PlayfieldCard → List CardModel → GameModel →
    GameModel × List CardModel
  | placement :: placements, card :: deck, g =>
    dealPlayfield placements deck
      { g with _allCards := g._allCards ++ [placeOnTableau card placement],
               _playfieldCards := g._playfieldCards ++ [g._allCards.length] }
  | _, deck, g => (g, deck)

/-- The stock loop of `createCardCollection`. -/
def dealStack : List CardModel → Int → GameModel → GameModel
  | [], _, g => g
  | card :: deck, stackIndex, g =>
    dealStack deck (stackIndex + 1)
      { g with _allCards := g._allCards ++ [placeOnStack card stackIndex],
               _stackCards := g._stackCards ++ [g._allCards.length] }

/-- The last step of `createCardCollection`: the top stock card becomes the
hand card. -/
def dealHand (g : GameModel) : GameModel :=
  match g._stackCards.getLast? with
  | none => g
  | some topStackCard =>
    let g1 := { g with _stackCards := g._stackCards.dropLast }
    let g2 := g1.modifyCard topStackCard
      (fun c => { c with _cardArea := "hand", _position := Vec2.mk 800 400,
                         _isFaceUp := true })
    { g2 with _handCards := g2._handCards ++ [topStackCard] }

/-- `GameModelGenerator::createCardCollection`.  `shuffle` stands for the call
`std::shuffle(deck.begin(), deck.end(), g)`. -/
def createCardCollection (shuffle : List CardModel → List CardModel)
    (gameModel : GameModel) (levelConfig : LevelConfig) : Bool × GameModel :=
  let deck := shuffle orderedDeck
  let r := dealPlayfield levelConfig._playfieldCards deck gameModel
  let g1 := dealStack r.2 0 r.1
  (true, dealHand g1)

/-- `GameModelGenerator::setupGameRules`. -/
def setupGameRules (gameModel : GameModel) (levelConfig : LevelConfig) : Bool × GameModel :=
  (true, { gameModel with _maxUndoCount := levelConfig._maxUndoCount,
                          _allowHint := levelConfig._allowHint,
                          _allowUndo := levelConfig._allowUndo })

/-- `GameModelGenerator::initializeGameState`. -/
def initializeGameState (gameModel : GameModel) : Bool × GameModel :=
  (true, { gameModel with _gameState := GameState.GAME_STATE_NONE, _gameTime := 0,
                          _score := 0, _currentUndoCount := 0, _playerTurn := true,
                          _playerScore := 0, _dealerScore := 0, _playerBusted := false,
                          _dealerBusted := false, _movesCount := 0, _hintsUsed := 0 })

/-- `GameModelGenerator::initializeGameModel`. -/
def initializeGameModel (shuffle : List CardModel → List CardModel)
    (gameModel : GameModel) (levelConfig : LevelConfig) : Bool × GameModel :=
  let g0 := { gameModel with _levelId := levelConfig._levelId,
                             _targetScore := levelConfig._targetScore,
                             _timeLimit := levelConfig._timeLimit,
                             _maxUndoCount := levelConfig._maxUndoCount,
                             _allowHint := levelConfig._allowHint,
                             _allowUndo := levelConfig._allowUndo }
  let r1 := createCardCollection shuffle g0 levelConfig
  if !r1.1 then (false, r1.2)
  else
    let r2 := setupGameRules r1.2 levelConfig
    if !r2.1 then (false, r2.2)
    else initializeGameState r2.2

/-- `GameModelGenerator::generateGameModel(LevelConfig*)`; `none` is the null
result. -/
def generateGameModel (shuffle : List CardModel → List CardModel)
    (levelConfig : Option LevelConfig) : Option GameModel :=
  match levelConfig with
  | none => none
  | some cfg =>
    if !cfg.isValid then none
    else
      let r := initializeGameModel shuffle GameModel.new cfg
      if r.1 then some r.2 else none

end GameModelGenerator

/-! ## Game orchestrator (GameController.cpp) -/

/-- The part of `GameView` the controller's model updates depend on: the ids
that have an entry in the `_cardViews` map (`getCardView(id) != nullptr`). -/
structure GameView where
  _cardViews : List Int
deriving DecidableEq, Repr

/-- `GameView::getCardView(cardId) != nullptr`. -/
def GameView.hasCardView (v : GameView) (cardId : Int) : Bool :=
  v._cardViews.contains cardId

/-- Orchestrator state, `GameController`; `none` is a null pointer.  The
resource manager, level generator and config loader pointers play no part in
the modelled operations and are left out. -/
structure GameController where
  _gameModel : Option GameModel
  _gameView : Option GameView
  _undoManager : Option UndoManager
  _currentLevelId : Int
  _isInitialized : Bool
  _isGameRunning : Bool
  _handCardZOrder : Int
deriving DecidableEq, Repr

namespace GameController

/-- `GameController::recordUndoAction`; `now` is the clock value that
`addUndoAction` stamps on the entry. -/
def recordUndoAction (c : GameController) (actionType : ActionType) (cardId : Int)
    (fromPosition toPosition : String) (now : Int) : GameController :=
  match c._undoManager, c._gameModel with
  | some undoManager, some g =>
    match (g.getCardById cardId).bind g.card? with
    | none => c
    | some card =>
      let undoModel := { UndoModel.mk4 actionType cardId fromPosition toPosition with
        _positionBefore := card._position, _faceUpBefore := card._isFaceUp,
        _selectedBefore := card._isSelected }
      { c with _undoManager := some (undoManager.addUndoAction undoModel now).2 }
  | _, _ => c

/-- One step of the loops of `checkAndFlipCardsBelow` (`wantFaceUp = false`)
and `flipBackAutoFlippedCard` (`wantFaceUp = true`): `acc` is the pair
`(cardToFlip, maxY)`. -/
def scanStep (g : GameModel) (cardPos : Vec2) (wantFaceUp : Bool)
    (acc : Option CardPtr × Int) (card : CardPtr) : Option CardPtr × Int :=
  match g.card? card with
  | some cm =>
    if cm._position.x = cardPos.x ∧ cm._position.y < cardPos.y ∧ cm._isFaceUp = wantFaceUp then
      if acc.2 < cm._position.y then (some card, cm._position.y) else acc
    else acc
  | none => acc

/-- The search loop over `_playfieldCards`, started with `cardToFlip = nullptr`
and `maxY = 0`. -/
def scanColumn (g : GameModel) (cardPos : Vec2) (wantFaceUp : Bool) : Option CardPtr :=
  (g._playfieldCards.foldl (scanStep g cardPos wantFaceUp) (none, 0)).1

/-- `GameController::checkAndFlipCardsBelow` (effect on the game model). -/
def checkAndFlipCardsBelow (g : GameModel) (cardPos : Vec2) : GameModel :=
  if cardPos = Vec2.ZERO then g
  else
    match scanColumn g cardPos false with
    | some cardToFlip => g.modifyCard cardToFlip (fun c => { c with _isFaceUp := true })
    | none => g

/-- `GameController::flipBackAutoFlippedCard` (effect on the game model). -/
def flipBackAutoFlippedCard (g : GameModel) (cardPos : Vec2) : GameModel :=
  match scanColumn g cardPos true with
  | some cardToFlipBack => g.modifyCard cardToFlipBack (fun c => { c with _isFaceUp := false })
  | none => g

/-- `GameController::checkGameEndCondition` (return value and game model). -/
def checkGameEndCondition (g : GameModel) : Bool × GameModel :=
  if g.isGameFinished then (true, g)
  else if GameRulesService.checkGameWon g then
    (true, { g with _gameState := GameState.GAME_STATE_FINISHED })
  else if GameRulesService.checkGameLost g then
    (true, { g with _gameState := GameState.GAME_STATE_GAME_OVER })
  else (false, g)

/-- The block both handlers run on the card that just entered the hand when a
game view exists: `_handCardZOrder += 10`, and the card takes that z-order if
it has a card view.  Returns the game model and the new counter. -/
def raiseHandCard (view : Option GameView) (g : GameModel) (card : CardPtr) (cardId : Int)
    (handCardZOrder : Int) : GameModel × Int :=
  match view with
  | none => (g, handCardZOrder)
  | some v =>
    let z := handCardZOrder + 10
    if v.hasCardView cardId then (g.modifyCard card (fun c => { c with _zOrder := z }), z)
    else (g, z)

/-- The block of `handleCardMatch` that follows a successful match: if the top
hand card is the matched card, it takes the hand position `(800, 400)` and is
raised.  Returns the game model and the new `_handCardZOrder`. -/
def placeNewHandCard (view : Option GameView) (g : GameModel) (playfieldCardId : Int)
    (handCardZOrder : Int) : GameModel × Int :=
  match g.getTopHandCard with
  | some newHandCard =>
    if g.hasId playfieldCardId newHandCard then
      let g1 := g.modifyCard newHandCard (fun cm => { cm with _position := Vec2.mk 800 400 })
      raiseHandCard view g1 newHandCard playfieldCardId handCardZOrder
    else (g, handCardZOrder)
  | none => (g, handCardZOrder)

/-- `GameController::handleCardMatch`. -/
def handleCardMatch (c : GameController) (playfieldCardId handCardId : Int) (now : Int) :
    Bool × GameController :=
  if !c._isGameRunning then (false, c)
  else
    match c._gameModel with
    | none => (false, c)
    | some g =>
      let c1 := c.recordUndoAction ActionType.ACTION_MOVE_CARD playfieldCardId
        "playfield" "hand" now
      let originalPos :=
        match (g.getCardById playfieldCardId).bind g.card? with
        | some card => card._position
        | none => Vec2.ZERO
      let r := GameRulesService.executeCardMatch g playfieldCardId handCardId
      if r.1 then
        let settled := placeNewHandCard c1._gameView r.2 playfieldCardId c1._handCardZOrder
        let g3 := checkAndFlipCardsBelow settled.1 originalPos
        let g4 := (checkGameEndCondition g3).2
        (true, { c1 with _gameModel := some g4, _handCardZOrder := settled.2 })
      else (false, { c1 with _gameModel := some r.2 })

/-- `GameController::handleStackCardFlip`. -/
def handleStackCardFlip (c : GameController) (stackCardId : Int) (now : Int) :
    Bool × GameController :=
  if !c._isGameRunning then (false, c)
  else
    match c._gameModel with
    | none => (false, c)
    | some g =>
      match g.getCardById stackCardId, g.getTopHandCard with
      | some stackCard, some _ =>
        let c1 := c.recordUndoAction ActionType.ACTION_MOVE_CARD stackCardId
          "stack" "hand" now
        let r := g.moveCardToArea stackCardId "hand" (-1)
        if r.1 then
          let g1 := r.2.modifyCard stackCard
            (fun cm => { cm with _isFaceUp := true, _position := Vec2.mk 800 400 })
          let settled := raiseHandCard c1._gameView g1 stackCard stackCardId c1._handCardZOrder
          let g2 := (checkGameEndCondition settled.1).2
          (true, { c1 with _gameModel := some g2, _handCardZOrder := settled.2 })
        else (false, { c1 with _gameModel := some r.2 })
      | _, _ => (false, c)

/-- `GameController::updateHandCardDisplay` (effect on the game model and on
`_handCardZOrder`).  `viewAtTarget` is the answer of the scene graph to
`handCardView->getPosition() == Vec2(800, 400)`. -/
def updateHandCardDisplay (view : Option GameView) (g : GameModel) (handCardZOrder : Int)
    (viewAtTarget : Bool) : GameModel × Int :=
  match view with
  | none => (g, handCardZOrder)
  | some v =>
    match g.getTopHandCard with
    | none => (g, handCardZOrder)
    | some currentHandCard =>
      match g.card? currentHandCard with
      | none => (g, handCardZOrder)
      | some cm =>
        if v.hasCardView cm._cardId then
          let z := if viewAtTarget then handCardZOrder else handCardZOrder + 10
          (g.modifyCard currentHandCard (fun k => { k with _zOrder := z }), z)
        else (g, handCardZOrder)

/-- `GameController::updateViewAfterUndo` (effect on the game model and on
`_handCardZOrder`).  The z-order written later by the completion callback of
the move animation is not part of the call. -/
def updateViewAfterUndo (view : Option GameView) (g : GameModel) (handCardZOrder : Int)
    (undoModel : UndoModel) (viewAtTarget : Bool) : GameModel × Int :=
  match g.getCardById undoModel._cardId, view with
  | some card, some v =>
    let r1 := updateHandCardDisplay view g handCardZOrder viewAtTarget
    let r2 : GameModel × Int :=
      if v.hasCardView undoModel._cardId then
        (r1.1.modifyCard card (fun k => { k with _zOrder := r1.2 + 10 }), r1.2 + 10)
      else r1
    if undoModel._fromPosition = "playfield" ∧ undoModel._toPosition = "hand" then
      let pos := match r2.1.card? card with
        | some cm => cm._position
        | none => Vec2.ZERO
      (flipBackAutoFlippedCard r2.1 pos, r2.2)
    else r2
  | _, _ => (g, handCardZOrder)

/-- `GameController::handleUndo`. -/
def handleUndo (c : GameController) (viewAtTarget : Bool) : Bool × GameController :=
  if !c._isGameRunning then (false, c)
  else
    match c._gameModel, c._undoManager with
    | some g, some undoManager =>
      if !g.canUndo then (false, c)
      else
        match undoManager.getLastUndoAction with
        | none => (false, c)
        | some undoModel =>
          let r := undoManager.undo g
          if r.1 then
            let u := updateViewAfterUndo c._gameView r.2.2 c._handCardZOrder undoModel
              viewAtTarget
            (true, { c with _gameModel := some u.1, _undoManager := some r.2.1,
                            _handCardZOrder := u.2 })
          else (false, { c with _gameModel := some r.2.2, _undoManager := some r.2.1 })
    | _, _ => (false, c)

/-- The constructor `GameController::GameController`. -/
def new : GameController :=
  { _gameModel := none, _gameView := none, _undoManager := none, _currentLevelId := 0,
    _isInitialized := false, _isGameRunning := false, _handCardZOrder := 100 }

/-- `GameController::initGame`.  The collaborators outside the core enter as
arguments: `resourcesOk` is the outcome of creating the resource manager and
preloading, `levelConfig` the result of `loadLevelConfig(levelId)`, `shuffle`
the deck shuffle, and `view` the result of `GameView::create`. -/
def initGame (c : GameController) (levelId : Int) (resourcesOk : Bool)
    (shuffle : List CardModel → List CardModel) (levelConfig : Option LevelConfig)
    (view : Option GameView) : Bool × GameController :=
  if c._isInitialized then (false, c)
  else if !resourcesOk then (false, c)
  else
    let c1 := { c with _currentLevelId := levelId }
    -- initSubControllers
    let c2 := { c1 with _undoManager := some UndoManager.new }
    -- initGameModel
    match GameModelGenerator.generateGameModel shuffle levelConfig with
    | none => (false, c2)
    | some gameModel =>
      let c3 := { c2 with _gameModel := some gameModel }
      let r := UndoManager.new.init true gameModel._maxUndoCount
      let c4 := { c3 with _undoManager := some r.2 }
      if !r.1 then (false, c4)
      else
        -- initGameView
        match view with
        | none => (false, c4)
        | some v => (true, { c4 with _gameView := some v, _isInitialized := true })

/-- `GameController::startGame`. -/
def startGame (c : GameController) : Bool × GameController :=
  match c._gameModel, c._gameView with
  | some g, some _ =>
    if !c._isInitialized then (false, c)
    else
      (true, { c with _gameModel := some g.startGame, _isGameRunning := true,
                      _handCardZOrder := 100 })
  | _, _ => (false, c)

end GameController

/-! ## Runs of calls -/

/-- A player input dispatched to the orchestrator, with the arguments of the
call (`now` is the clock value stamped on the recorded entry, `viewAtTarget`
the scene-graph answer used by `handleUndo`). -/
inductive PlayerAction where
  | cardMatch (playfieldCardId handCardId now : Int)
  | stackCardFlip (stackCardId now : Int)
  | undo (viewAtTarget : Bool)
deriving DecidableEq, Repr

namespace GameController

/-- The orchestrator after one player input. -/
def dispatch (c : GameController) : PlayerAction → GameController
  | PlayerAction.cardMatch playfieldCardId handCardId now =>
    (c.handleCardMatch playfieldCardId handCardId now).2
  | PlayerAction.stackCardFlip stackCardId now => (c.handleStackCardFlip stackCardId now).2
  | PlayerAction.undo viewAtTarget => (c.handleUndo viewAtTarget).2

/-- The orchestrator after a finite sequence of player inputs. -/
def play (c : GameController) (actions : List PlayerAction) : GameController :=
  actions.foldl dispatch c

/-- The card named by `cardId`, if there is one, is stored in the tableau. -/
def namesTableauCard (c : GameController) (cardId : Int) : Bool :=
  match c._gameModel with
  | some g =>
    match g.getCardById cardId with
    | some p => decide (p ∈ g._playfieldCards)
    | none => true
  | none => true

/-- Every `handleCardMatch` of the sequence is called, at its turn, with a
first id that names a tableau card (or no card at all). -/
def matchesTableauOnly : GameController → List PlayerAction → Bool
  | _, [] => true
  | c, PlayerAction.cardMatch playfieldCardId handCardId now :: rest =>
    c.namesTableauCard playfieldCardId &&
      matchesTableauOnly (c.dispatch (PlayerAction.cardMatch playfieldCardId handCardId now)) rest
  | c, action :: rest => matchesTableauOnly (c.dispatch action) rest

end GameController

/-! ## State invariants -/

namespace GameModel

/-- The concatenation of the tableau, stock and hand sequences. -/
def storedCards (g : GameModel) : List CardPtr :=
  g._playfieldCards ++ g._stackCards ++ g._handCards

/-- The data-model invariant of a game state: card ids are unique and
positive, every card of `_allCards` is stored exactly once in
tableau ++ stock ++ hand, and the area tag of a stored card names the sequence
that stores it. -/
def WellFormed (g : GameModel) : Prop :=
  (g._allCards.map CardModel._cardId).Nodup ∧
  (∀ c ∈ g._allCards, 0 < c._cardId) ∧
  g.storedCards.Perm (List.range g._allCards.length) ∧
  (∀ p ∈ g._playfieldCards, g.areaOf p = "playfield") ∧
  (∀ p ∈ g._stackCards, g.areaOf p = "stack") ∧
  (∀ p ∈ g._handCards, g.areaOf p = "hand")

/-- The part of a game state the invariant speaks about: the three sequences
and, card by card, the id and the area tag. -/
def layout (g : GameModel) :
    List CardPtr × List CardPtr × List CardPtr × List (Int × String) :=
  (g._playfieldCards, g._stackCards, g._handCards,
    g._allCards.map (fun c => (c._cardId, c._cardArea)))

/-- The state in which the card behind `p` has left whatever sequence stored
it and sits at the end of the sequence named `target`, with its area tag set
to `target`. -/
def relocated (g : GameModel) (p : CardPtr) (target : String) : GameModel :=
  { g with
    _allCards := updateCard g._allCards p (fun c => { c with _cardArea := target }),
    _playfieldCards := g._playfieldCards.erase p ++ (if target = "playfield" then [p] else []),
    _stackCards := g._stackCards.erase p ++ (if target = "stack" then [p] else []),
    _handCards := g._handCards.erase p ++ (if target = "hand" then [p] else []) }

/-- The three area names the model knows. -/
def isAreaName (area : String) : Prop :=
  area = "playfield" ∨ area = "stack" ∨ area = "hand"

/-- The two play counters of a game state, `(_score, _movesCount)`. -/
def counters (g : GameModel) : Int × Int := (g._score, g._movesCount)

/-- The card behind `p` is stored exactly once in the sequence named `area`
and in no other sequence. -/
def storedOnlyIn (g : GameModel) (p : CardPtr) (area : String) : Prop :=
  g._playfieldCards.count p = (if area = "playfield" then 1 else 0) ∧
  g._stackCards.count p = (if area = "stack" then 1 else 0) ∧
  g._handCards.count p = (if area = "hand" then 1 else 0)

/-- The four fields of a card that an undo entry is meant to bring back:
`(_cardArea, _position, _isFaceUp, _isSelected)`. -/
def placement (c : CardModel) : String × Vec2 × Bool × Bool :=
  (c._cardArea, c._position, c._isFaceUp, c._isSelected)

instance decidableWellFormed (g : GameModel) : Decidable g.WellFormed := by
  unfold WellFormed
  exact inferInstance

instance decidableStoredOnlyIn (g : GameModel) (p : CardPtr) (area : String) :
    Decidable (g.storedOnlyIn p area) := by
  unfold storedOnlyIn
  exact inferInstance

/-- The card ids of the deck the generator builds, `1 .. 52`. -/
def deckIds : List Int := (List.range 52).map (fun (i : Nat) => (i : Int) + 1)

/-- A well-formed state whose cards carry exactly the ids of the deck. -/
def Complete (g : GameModel) : Prop :=
  g.WellFormed ∧ (g._allCards.map CardModel._cardId).Perm deckIds

/-- How often the card id occurs among the cards stored in
tableau ++ stock ++ hand. -/
def occurrences (g : GameModel) (cardId : Int) : Nat :=
  (g.storedCards.filter (g.hasId cardId)).length

end GameModel


/-- Consecutive calls of `executeCardMatch`, one per pair of ids, each on the
game model left by the previous call and with nothing in between; `none` as
soon as a call returns `false`. -/
def GameRulesService.executeCardMatches : GameModel → List (Int × Int) → Option GameModel
  | g, [] => some g
  | g, ids :: rest =>
    let r := GameRulesService.executeCardMatch g ids.1 ids.2
    if r.1 then GameRulesService.executeCardMatches r.2 rest else none

/-- The invariant of the orchestrator behind the partition property: the game
model is well-formed, its cards carry the ids of the deck, and every recorded
entry names a known area as the origin of its move. -/
def GameController.Consistent (c : GameController) : Prop :=
  (∃ g, c._gameModel = some g ∧ g.Complete) ∧
  (∀ m, c._undoManager = some m → ∀ e ∈ m._undoHistory,
    GameModel.isAreaName e._fromPosition)

/-! ## Top-of-column test (GameController.cpp, HelloWorldScene.cpp) -/

/-- The condition under which the loops of the two top-of-column tests give
up: `otherCard != card && otherCard->_position.x == card->_position.x &&
otherCard->_position.y > card->_position.y`. -/
def GameController.coversInColumn (g : GameModel) (card otherCard : CardPtr) : Bool :=
  match g.card? otherCard, g.card? card with
  | some o, some c =>
    decide (otherCard ≠ card) && decide (o._position.x = c._position.x) &&
      decide (c._position.y < o._position.y)
  | _, _ => false

/-- The loop of `GameController::isTopCardInColumn` over the cards of
`_playfieldCards` still to visit: `return false` at the first card that covers
`card`, `return true` after the loop. -/
def GameController.isTopCardInColumnFrom (g : GameModel) (card : CardPtr) :
    List CardPtr → Bool
  | [] => true
  | otherCard :: rest =>
    if GameController.coversInColumn g card otherCard then false
    else GameController.isTopCardInColumnFrom g card rest

/-- `GameController::isTopCardInColumn`. -/
def GameController.isTopCardInColumn (g : GameModel) (card : CardPtr) : Bool :=
  GameController.isTopCardInColumnFrom g card g._playfieldCards

/-- The loop of the card click callback of `HelloWorld::init`: the flag
`isTopCard` is set to `false` and the loop left (`break`) at the first card
that covers `clickedCard`; the value of the flag after the loop. -/
def HelloWorld.isTopCardFrom (g : GameModel) (clickedCard : CardPtr) (isTopCard : Bool) :
    List CardPtr → Bool
  | [] => isTopCard
  | otherCard :: rest =>
    if GameController.coversInColumn g clickedCard otherCard then false
    else HelloWorld.isTopCardFrom g clickedCard isTopCard rest

/-- The flag `isTopCard` of the card click callback of `HelloWorld::init`,
initialised to `true` before the loop. -/
def HelloWorld.isTopCard (g : GameModel) (clickedCard : CardPtr) : Bool :=
  HelloWorld.isTopCardFrom g clickedCard true g._playfieldCards

/-! ## Runs of history-manager calls -/

/-- A call on an initialised `UndoManager`, with its arguments (`now` is the
clock value `addUndoAction` stamps on the entry). -/
inductive UndoManager.Call where
  | addUndoAction (undoModel : UndoModel) (now : Int)
  | undo
  | redo
  | setMaxUndoCount (maxCount : Int)
  | clearUndoHistory
  | clearRedoHistory
deriving DecidableEq, Repr

/-- The history manager and the game model after one call. -/
def UndoManager.perform (s : UndoManager × GameModel) : UndoManager.Call → UndoManager × GameModel
  | UndoManager.Call.addUndoAction undoModel now => ((s.1.addUndoAction undoModel now).2, s.2)
  | UndoManager.Call.undo => (s.1.undo s.2).2
  | UndoManager.Call.redo => (s.1.redo s.2).2
  | UndoManager.Call.setMaxUndoCount maxCount => (s.1.setMaxUndoCount maxCount, s.2)
  | UndoManager.Call.clearUndoHistory => (s.1.clearUndoHistory, s.2)
  | UndoManager.Call.clearRedoHistory => (s.1.clearRedoHistory, s.2)

/-- The history manager and the game model after a finite sequence of
calls. -/
def UndoManager.performAll (s : UndoManager × GameModel) (calls : List UndoManager.Call) :
    UndoManager × GameModel :=
  calls.foldl UndoManager.perform s

/-- Both stacks hold at most `_maxUndoCount` entries. -/
def UndoManager.Bounded (m : UndoManager) : Prop :=
  (m._undoHistory.length : Int) ≤ m._maxUndoCount ∧
  (m._redoHistory.length : Int) ≤ m._maxUndoCount

instance UndoManager.decidableBounded (m : UndoManager) : Decidable m.Bounded := by
  unfold UndoManager.Bounded
  exact inferInstance

/-- No `setMaxUndoCount` call of the sequence passes a negative bound. -/
def UndoManager.boundsNonneg : List UndoManager.Call → Bool
  | [] => true
  | UndoManager.Call.setMaxUndoCount maxCount :: rest =>
    decide (0 ≤ maxCount) && UndoManager.boundsNonneg rest
  | _ :: rest => UndoManager.boundsNonneg rest

/-! ## Restart, the fallback level and the generator's seed -/

/-- `GameModel::resetGame`. -/
def GameModel.resetGame (g : GameModel) : GameModel :=
  { g with _gameState := GameState.GAME_STATE_NONE, _gameTime := 0, _score := 0,
           _currentUndoCount := 0, _playerTurn := true, _playerScore := 0,
           _dealerScore := 0, _playerBusted := false, _dealerBusted := false,
           _movesCount := 0, _hintsUsed := 0,
           _allCards := g._allCards.map CardModel.reset,
           _playfieldCards := [], _stackCards := [], _handCards := [] }

/-- `GameController::restartGame`. -/
def GameController.restartGame (c : GameController) : GameController :=
  if !c._isInitialized then c
  else
    match c._gameModel with
    | none => c
    | some g =>
      { c with _gameModel := some g.resetGame, _isGameRunning := false,
               _handCardZOrder := 100 }

/-- The constructor `LevelConfig::LevelConfig`. -/
def LevelConfig.new : LevelConfig :=
  { _levelId := 0, _levelName := "", _levelDescription := "", _difficulty := 1,
    _targetScore := 1000, _timeLimit := 0, _initialCardCount := 52, _maxUndoCount := 10,
    _allowHint := true, _allowUndo := true, _star1Score := 500, _star2Score := 1000,
    _star3Score := 1500, _requiredLevelId := 0, _requiredStars := 0,
    _playfieldCards := [], _stackCards := [] }

/-- `LevelConfigLoader::createDefaultLevelConfig`; `toString` stands for
`std::to_string`. -/
def LevelConfigLoader.createDefaultLevelConfig (levelId : Int) : LevelConfig :=
  { LevelConfig.new with
    _levelId := levelId, _levelName := "关卡 " ++ toString levelId,
    _levelDescription := "这是一个默认关卡配置", _difficulty := 1,
    _targetScore := 1000 + levelId * 100, _timeLimit := 0, _initialCardCount := 52,
    _maxUndoCount := 10, _allowHint := true, _allowUndo := true,
    _star1Score := 500 + levelId * 50, _star2Score := 1000 + levelId * 100,
    _star3Score := 1500 + levelId * 150,
    _requiredLevelId := if 1 < levelId then levelId - 1 else 0, _requiredStars := 0 }

/-- The state of a `GameModelGenerator` object: the configured seed
(`unsigned int _randomSeed`). -/
structure GameModelGenerator where
  _randomSeed : Nat
deriving DecidableEq, Repr

/-- `GameModelGenerator::setRandomSeed`. -/
def GameModelGenerator.setRandomSeed (gen : GameModelGenerator) (seed : Nat) :
    GameModelGenerator :=
  { gen with _randomSeed := seed }

/-- `GameModelGenerator::getRandomSeed`. -/
def GameModelGenerator.getRandomSeed (gen : GameModelGenerator) : Nat := gen._randomSeed

/-- `GameModelGenerator::shuffleCards`: `std::shuffle` driven by
`std::mt19937 g(_randomSeed)`.  `engineShuffle e` stands for `std::shuffle`
driven by a `std::mt19937` engine constructed from the value `e`. -/
def GameModelGenerator.shuffleCards (gen : GameModelGenerator)
    (engineShuffle : Nat → List CardModel → List CardModel) (cards : List CardModel) :
    List CardModel :=
  engineShuffle gen._randomSeed cards

/-- A call of `GameModelGenerator::generateGameModel(LevelConfig*)` on a
generator object.  `createCardCollection` constructs its engine as
`std::mt19937 g(rd())` from a fresh `std::random_device rd`; `rd` is the value
the device returns in this call.  No field of the generator is read. -/
def GameModelGenerator.generateGameModelCall (_gen : GameModelGenerator)
    (engineShuffle : Nat → List CardModel → List CardModel) (rd : Nat)
    (levelConfig : Option LevelConfig) : Option GameModel :=
  GameModelGenerator.generateGameModel (engineShuffle rd) levelConfig

/-! ## Cards in the column below a position -/

/-- The card behind `q` is a candidate of the column scans of
`checkAndFlipCardsBelow` (`wantFaceUp = false`) and `flipBackAutoFlippedCard`
(`wantFaceUp = true`) that can beat the initial `maxY = 0`: it has the
x-coordinate of `cardPos`, lies strictly below it at a height above 0 and
shows the wanted face. -/
def GameController.inColumnBelow (g : GameModel) (cardPos : Vec2) (wantFaceUp : Bool)
    (q : CardPtr) : Bool :=
  match g.card? q with
  | some cm =>
    decide (cm._position.x = cardPos.x) && decide (cm._position.y < cardPos.y) &&
      (cm._isFaceUp == wantFaceUp) && decide (0 < cm._position.y)
  | none => false

/-- The height `_position.y` of the card behind `q` (0 for a dangling
pointer). -/
def GameModel.heightOf (g : GameModel) (q : CardPtr) : Int :=
  match g.card? q with
  | some cm => cm._position.y
  | none => 0

/-- The `_isFaceUp` flag read through a card pointer. -/
def GameModel.faceUpOf (g : GameModel) (q : CardPtr) : Option Bool :=
  (g.card? q).map (fun cm => cm._isFaceUp)

/-- The card behind `q` is a tableau card other than the card behind `p` that
lies face-down in the column of `cardPos`, strictly below it, at a height
above 0. -/
def GameController.hiddenBelow (g : GameModel) (p : CardPtr) (cardPos : Vec2)
    (q : CardPtr) : Bool :=
  decide (q ∈ g._playfieldCards) && decide (q ≠ p) &&
    GameController.inColumnBelow g cardPos false q

/-- The card behind `q` is a tableau card other than the card behind `p` that
lies face-down in the column of `cardPos` (same x), strictly below it
(smaller y). -/
def GameController.faceDownBelow (g : GameModel) (p : CardPtr) (cardPos : Vec2)
    (q : CardPtr) : Bool :=
  decide (q ∈ g._playfieldCards) && decide (q ≠ p) &&
    match g.card? q with
    | some cm =>
      decide (cm._position.x = cardPos.x) && decide (cm._position.y < cardPos.y) &&
        !cm._isFaceUp
    | none => false

/-! ## Card identity -/

/-- What makes a card the card it is: `(_cardId, _suit, _rank)`. -/
def CardModel.identity (c : CardModel) : Int × Int × Int := (c._cardId, c._suit, c._rank)

/-! ## Example states -/

namespace Examples

/-- A card of the given id and rank lying in `area` at `position`. -/
def card (cardId rank : Int) (area : String) (position : Vec2) (faceUp : Bool) : CardModel :=
  { CardModel.mk3 0 rank cardId with
    _cardArea := area, _position := position, _isFaceUp := faceUp }

/-- A small game: the Five (id 1) and the Seven (id 2) in the tableau, the Nine
(id 3) in the stock and the Six (id 4) in the hand. -/
def smallGame : GameModel :=
  { GameModel.new with
    _levelId := 1, _gameState := GameState.GAME_STATE_PLAYING,
    _allCards := [card 1 4 "playfield" ⟨100, 300⟩ true, card 2 6 "playfield" ⟨200, 300⟩ true,
                  card 3 8 "stack" ⟨200, 400⟩ false, card 4 5 "hand" ⟨800, 400⟩ true],
    _playfieldCards := [0, 1], _stackCards := [2], _handCards := [3] }

/-- A recorded tableau-to-hand move of the card with the given id. -/
def entry (cardId : Int) : UndoModel :=
  UndoModel.mk4 ActionType.ACTION_MOVE_CARD cardId "playfield" "hand"

/-- An initialised history manager with bound 2 and nothing recorded. -/
def emptyManager : UndoManager :=
  { _gameModel := true, _maxUndoCount := 2, _isInitialized := true,
    _undoHistory := [], _redoHistory := [] }

/-- A history manager with bound 2 whose last undo entry names card 99, which
`smallGame` does not contain. -/
def staleManager : UndoManager :=
  { _gameModel := true, _maxUndoCount := 2, _isInitialized := true,
    _undoHistory := [entry 1, entry 99], _redoHistory := [] }

/-- A running game on `smallGame`: every card has a card view, the history
manager is initialised with bound 10 and nothing is recorded yet. -/
def runningGame : GameController :=
  { _gameModel := some smallGame, _gameView := some ⟨[1, 2, 3, 4]⟩,
    _undoManager := some { emptyManager with _maxUndoCount := 10 },
    _currentLevelId := 1, _isInitialized := true, _isGameRunning := true,
    _handCardZOrder := 100 }

/-- The running example game after the Five (id 1) was matched against the
Six (id 4). -/
def afterMatch : GameController := (runningGame.handleCardMatch 1 4 0).2

/-- The history manager of `afterMatch`. -/
def afterMatchManager : UndoManager := afterMatch._undoManager.getD emptyManager

/-- The game model of `afterMatch`. -/
def afterMatchModel : GameModel := afterMatch._gameModel.getD smallGame

/-- `undo()` called right after the match of `afterMatch`. -/
def matchUndone : Bool × UndoManager × GameModel :=
  afterMatchManager.undo afterMatchModel

/-- `redo()` called right after `matchUndone`. -/
def matchRedone : Bool × UndoManager × GameModel :=
  matchUndone.2.1.redo matchUndone.2.2

/-- The running example game after the Nine (id 3) was flipped from the stock
into the hand. -/
def afterFlip : GameController := (runningGame.handleStackCardFlip 3 0).2

/-- `undo()` called right after the stock flip of `afterFlip`. -/
def flipUndone : Bool × UndoManager × GameModel :=
  (afterFlip._undoManager.getD emptyManager).undo (afterFlip._gameModel.getD smallGame)

/-- `redo()` called right after `flipUndone`. -/
def flipRedone : Bool × UndoManager × GameModel :=
  flipUndone.2.1.redo flipUndone.2.2

/-- A valid level with two tableau placements in one column. -/
def twoCardLevel : LevelConfig :=
  { _levelId := 1, _levelName := "Level 1", _levelDescription := "", _difficulty := 1,
    _targetScore := 1000, _timeLimit := 0, _initialCardCount := 52, _maxUndoCount := 10,
    _allowHint := true, _allowUndo := true, _star1Score := 500, _star2Score := 1000,
    _star3Score := 1500, _requiredLevelId := 0, _requiredStars := 0,
    _playfieldCards := [⟨0, 0, ⟨100, 300⟩, true⟩, ⟨0, 0, ⟨100, 250⟩, false⟩],
    _stackCards := [] }

/-- A game view with a card view for every card of the deck. -/
def fullView : GameView := ⟨GameModel.deckIds⟩

/-- The orchestrator after `initGame` and `startGame` on `twoCardLevel`, the
shuffle leaving the deck in its built order. -/
def startedGame : GameController :=
  ((GameController.new.initGame 1 true id (some twoCardLevel) (some fullView)).2).startGame.2

/-- The history manager after `init(gameModel, 10)` on a fresh manager. -/
def initialisedManager : UndoManager := (UndoManager.new.init true 10).2

/-- One recorded move followed by `setMaxUndoCount(-1)`. -/
def negativeBoundCalls : List UndoManager.Call :=
  [UndoManager.Call.addUndoAction (entry 1) 0, UndoManager.Call.setMaxUndoCount (-1)]

/-- A game with an empty stock: the Five (id 1) lies face-up at `(100, 300)`
under the King (id 2), face-up at `(100, 350)` in the same column; the Six
(id 3) is the hand card. -/
def coveredFive : GameModel :=
  { GameModel.new with
    _levelId := 1, _gameState := GameState.GAME_STATE_PLAYING,
    _allCards := [card 1 4 "playfield" ⟨100, 300⟩ true, card 2 12 "playfield" ⟨100, 350⟩ true,
                  card 3 5 "hand" ⟨800, 400⟩ true],
    _playfieldCards := [0, 1], _stackCards := [], _handCards := [2] }

/-- A game in play whose tableau has been cleared with two matches: score 200
against a target of 1000, the Nine (id 3) still in the stock. -/
def clearedBelowTarget : GameModel :=
  { GameModel.new with
    _levelId := 1, _gameState := GameState.GAME_STATE_PLAYING, _score := 200,
    _movesCount := 2,
    _allCards := [card 1 4 "hand" ⟨800, 400⟩ true, card 2 6 "hand" ⟨800, 400⟩ true,
                  card 3 8 "stack" ⟨200, 400⟩ false, card 4 5 "hand" ⟨800, 400⟩ true],
    _playfieldCards := [], _stackCards := [2], _handCards := [3, 1, 0] }

/-- The state `clearedBelowTarget` after the end-of-game check. -/
def endedBelowTarget : GameModel := (GameController.checkGameEndCondition clearedBelowTarget).2

/-- A lost game, lifecycle `GAME_STATE_GAME_OVER`: the Ace (id 1) and the King
(id 2) are left in the tableau, the Six (id 3) is the hand card and the stock
is empty. -/
def lostGame : GameModel :=
  { coveredFive with
    _gameState := GameState.GAME_STATE_GAME_OVER,
    _allCards := [card 1 0 "playfield" ⟨100, 300⟩ true, card 2 12 "playfield" ⟨100, 350⟩ true,
                  card 3 5 "hand" ⟨800, 400⟩ true] }


/-- A running game on `coveredFive` whose history manager (bound 10) holds no
undo entry and one redo entry. -/
def kingGame : GameController :=
  { _gameModel := some coveredFive, _gameView := some ⟨[1, 2, 3]⟩,
    _undoManager := some { emptyManager with _maxUndoCount := 10, _redoHistory := [entry 1] },
    _currentLevelId := 1, _isInitialized := true, _isGameRunning := true,
    _handCardZOrder := 100 }

/-- The level `twoCardLevel` with `maxUndoCount = 0`. -/
def noUndoLevel : LevelConfig := { twoCardLevel with _maxUndoCount := 0 }

/-- A column of two face-up cards: the King (id 1) at `(100, 300)` under the
Five (id 2) at `(100, 350)`; the Nine (id 3) is in the stock and the Six (id 4)
is the hand card. -/
def faceUpColumn : GameModel :=
  { GameModel.new with
    _levelId := 1, _gameState := GameState.GAME_STATE_PLAYING,
    _allCards := [card 1 12 "playfield" ⟨100, 300⟩ true, card 2 4 "playfield" ⟨100, 350⟩ true,
                  card 3 8 "stack" ⟨200, 400⟩ false, card 4 5 "hand" ⟨800, 400⟩ true],
    _playfieldCards := [0, 1], _stackCards := [2], _handCards := [3] }

/-- A running game on `faceUpColumn`. -/
def faceUpColumnRunning : GameController :=
  { runningGame with _gameModel := some faceUpColumn }

/-- The scenario of tableau cards at `(0, 0)` face-up (the Five, id 1),
`(0, 50)` face-down (the King, id 2) and `(100, 0)` face-up (the Nine, id 3),
with the Ten (id 5) in the stock and the Six (id 4) in the hand. -/
def originScenario : GameModel :=
  { GameModel.new with
    _levelId := 1, _gameState := GameState.GAME_STATE_PLAYING,
    _allCards := [card 1 4 "playfield" ⟨0, 0⟩ true, card 2 12 "playfield" ⟨0, 50⟩ false,
                  card 3 8 "playfield" ⟨100, 0⟩ true, card 4 5 "hand" ⟨800, 400⟩ true,
                  card 5 9 "stack" ⟨200, 400⟩ false],
    _playfieldCards := [0, 1, 2], _stackCards := [4], _handCards := [3] }

/-- A running game on `originScenario`, every card with a card view. -/
def originScenarioRunning : GameController :=
  { runningGame with _gameModel := some originScenario, _gameView := some ⟨[1, 2, 3, 4, 5]⟩ }

/-- The scenario with the matched card above the hidden one: the Five (id 1)
face-up at `(100, 350)`, the King (id 2) face-down at `(100, 300)` and the
Nine (id 3) face-up at `(200, 350)`. -/
def columnScenario : GameModel :=
  { originScenario with
    _allCards := [card 1 4 "playfield" ⟨100, 350⟩ true, card 2 12 "playfield" ⟨100, 300⟩ false,
                  card 3 8 "playfield" ⟨200, 350⟩ true, card 4 5 "hand" ⟨800, 400⟩ true,
                  card 5 9 "stack" ⟨200, 400⟩ false] }

/-- A running game on `columnScenario`, every card with a card view. -/
def columnScenarioRunning : GameController :=
  { originScenarioRunning with _gameModel := some columnScenario }

/-- A stand-in for `std::shuffle` driven by an engine built from `e`: the deck
is left in its order for an even `e` and reversed for an odd one. -/
def twoOrders (e : Nat) (deck : List CardModel) : List CardModel :=
  if e % 2 = 0 then deck else deck.reverse

/-- A history manager with bound 1 whose two stacks are both full. -/
def fullManager : UndoManager :=
  { _gameModel := true, _maxUndoCount := 1, _isInitialized := true,
    _undoHistory := [entry 1], _redoHistory := [entry 2] }

end Examples

/-! ## Properties -/

/-! ### Card lookup -/

namespace GameModel

theorem findCardFrom_some {cardId : Int} :
    ∀ (cards : List CardModel) (base p : Nat), findCardFrom cardId cards base = some p →
      base ≤ p ∧ ∃ c, cards[p - base]? = some c ∧ c._cardId = cardId := by
  intro cards
  induction cards with
  | nil => intro base p h; simp [findCardFrom] at h
  | cons card rest ih =>
    intro base p h
    unfold findCardFrom at h
    split at h
    · rename_i hid
      have hp : base = p := by simpa using h
      subst hp
      exact ⟨le_rfl, card, by simp, hid⟩
    · obtain ⟨hle, c, hc, hcid⟩ := ih (base + 1) p h
      refine ⟨by omega, c, ?_, hcid⟩
      have : p - base = (p - (base + 1)) + 1 := by omega
      rw [this]
      simpa using hc

theorem getCardById_some {g : GameModel} {cardId : Int} {p : CardPtr}
    (h : g.getCardById cardId = some p) :
    ∃ c, g.card? p = some c ∧ c._cardId = cardId := by
  obtain ⟨_, c, hc, hcid⟩ := findCardFrom_some g._allCards 0 p h
  exact ⟨c, by simpa [card?] using hc, hcid⟩

theorem length_updateCard (cards : List CardModel) (p : CardPtr) (f : CardModel → CardModel) :
    (updateCard cards p f).length = cards.length := by
  unfold updateCard
  split <;> simp

theorem getElem?_updateCard_self {cards : List CardModel} {p : CardPtr}
    {f : CardModel → CardModel} {c : CardModel} (h : cards[p]? = some c) :
    (updateCard cards p f)[p]? = some (f c) := by
  have hlt : p < cards.length := by
    rcases Nat.lt_or_ge p cards.length with h1 | h1
    · exact h1
    · rw [List.getElem?_eq_none h1] at h; cases h
  simp [updateCard, h, List.getElem?_set, hlt]

theorem getElem?_updateCard_ne {cards : List CardModel} {p q : CardPtr}
    {f : CardModel → CardModel} (h : q ≠ p) :
    (updateCard cards p f)[q]? = cards[q]? := by
  unfold updateCard
  split
  · simp [List.getElem?_set, Ne.symm h]
  · rfl

theorem card?_modifyCard_self {g : GameModel} {p : CardPtr} {f : CardModel → CardModel}
    {c : CardModel} (h : g.card? p = some c) : (g.modifyCard p f).card? p = some (f c) :=
  getElem?_updateCard_self h

theorem card?_modifyCard_ne {g : GameModel} {p q : CardPtr} {f : CardModel → CardModel}
    (h : q ≠ p) : (g.modifyCard p f).card? q = g.card? q :=
  getElem?_updateCard_ne h

theorem length_modifyCard (g : GameModel) (p : CardPtr) (f : CardModel → CardModel) :
    (g.modifyCard p f)._allCards.length = g._allCards.length :=
  length_updateCard _ _ _

theorem map_updateCard {β : Type} (F : CardModel → β) (cards : List CardModel) (p : CardPtr)
    (f : CardModel → CardModel) (hf : ∀ c, F (f c) = F c) :
    (updateCard cards p f).map F = cards.map F := by
  unfold updateCard
  split
  · rename_i c hc
    apply List.ext_getElem?
    intro i
    simp only [List.getElem?_map, List.getElem?_set]
    by_cases hi : p = i
    · subst hi
      have hlt : p < cards.length := by
        rcases Nat.lt_or_ge p cards.length with h1 | h1
        · exact h1
        · rw [List.getElem?_eq_none h1] at hc; cases hc
      simp [hlt, hc, hf]
    · simp [hi]
  · rfl

theorem findCardFrom_of_nodup {cardId : Int} :
    ∀ (cards : List CardModel) (base q : Nat) (c : CardModel),
      (cards.map CardModel._cardId).Nodup → cards[q]? = some c → c._cardId = cardId →
      findCardFrom cardId cards base = some (base + q) := by
  intro cards
  induction cards with
  | nil => intro base q c _ h; simp at h
  | cons x xs ih =>
    intro base q c hnd hq hc
    unfold findCardFrom
    cases q with
    | zero =>
      simp only [List.getElem?_cons_zero, Option.some.injEq] at hq
      subst hq
      simp [hc]
    | succ q =>
      simp only [List.getElem?_cons_succ] at hq
      simp only [List.map_cons, List.nodup_cons] at hnd
      have hne : x._cardId ≠ cardId := by
        intro hx
        apply hnd.1
        rw [hx, ← hc]
        exact List.mem_map_of_mem _ (List.getElem?_mem hq)
      rw [if_neg hne, ih (base + 1) q c hnd.2 hq hc]
      congr 1
      omega

theorem hasId_iff {g : GameModel} {cardId : Int} {q : CardPtr} :
    g.hasId cardId q = true ↔ ∃ c, g.card? q = some c ∧ c._cardId = cardId := by
  unfold hasId
  cases g.card? q with
  | none => simp
  | some c => simp

theorem hasId_of_getCardById {g : GameModel} {cardId : Int} {p : CardPtr}
    (h : g.getCardById cardId = some p) : g.hasId cardId p = true :=
  hasId_iff.mpr (getCardById_some h)

theorem getCardById_of_hasId {g : GameModel} {cardId : Int} {q : CardPtr}
    (hnd : (g._allCards.map CardModel._cardId).Nodup) (h : g.hasId cardId q = true) :
    g.getCardById cardId = some q := by
  obtain ⟨c, hc, hid⟩ := hasId_iff.mp h
  have := findCardFrom_of_nodup g._allCards 0 q c hnd hc hid
  simpa [getCardById] using this

theorem getCardById_lt {g : GameModel} {cardId : Int} {p : CardPtr}
    (h : g.getCardById cardId = some p) : p < g._allCards.length := by
  obtain ⟨c, hc, _⟩ := getCardById_some h
  unfold card? at hc
  rcases Nat.lt_or_ge p g._allCards.length with h1 | h1
  · exact h1
  · rw [List.getElem?_eq_none h1] at hc; cases hc

theorem hasId_congr {g g1 : GameModel} (cardId : Int) (q : CardPtr)
    (h : g1._allCards.map CardModel._cardId = g._allCards.map CardModel._cardId) :
    g1.hasId cardId q = g.hasId cardId q := by
  have hq : (g1._allCards.map CardModel._cardId)[q]? = (g._allCards.map CardModel._cardId)[q]? := by
    rw [h]
  simp only [List.getElem?_map] at hq
  unfold hasId card?
  cases h1 : g1._allCards[q]? <;> cases h2 : g._allCards[q]? <;> simp_all

theorem areaOf_congr {g g1 : GameModel} (q : CardPtr)
    (h : g1._allCards.map CardModel._cardArea = g._allCards.map CardModel._cardArea) :
    g1.areaOf q = g.areaOf q := by
  have hq : (g1._allCards.map CardModel._cardArea)[q]?
      = (g._allCards.map CardModel._cardArea)[q]? := by rw [h]
  simp only [List.getElem?_map] at hq
  unfold areaOf card?
  cases h1 : g1._allCards[q]? <;> cases h2 : g._allCards[q]? <;> simp_all

theorem layout_ids {g g1 : GameModel} (h : g1.layout = g.layout) :
    g1._allCards.map CardModel._cardId = g._allCards.map CardModel._cardId := by
  have h4 : g1._allCards.map (fun c => (c._cardId, c._cardArea))
      = g._allCards.map (fun c => (c._cardId, c._cardArea)) := by
    simp only [layout, Prod.mk.injEq] at h
    exact h.2.2.2
  have := congrArg (List.map Prod.fst) h4
  simpa [List.map_map, Function.comp_def] using this

theorem layout_areas {g g1 : GameModel} (h : g1.layout = g.layout) :
    g1._allCards.map CardModel._cardArea = g._allCards.map CardModel._cardArea := by
  have h4 : g1._allCards.map (fun c => (c._cardId, c._cardArea))
      = g._allCards.map (fun c => (c._cardId, c._cardArea)) := by
    simp only [layout, Prod.mk.injEq] at h
    exact h.2.2.2
  have := congrArg (List.map Prod.snd) h4
  simpa [List.map_map, Function.comp_def] using this

theorem wellFormed_of_layout {g g1 : GameModel} (h : g1.layout = g.layout)
    (hwf : g.WellFormed) : g1.WellFormed := by
  have hids := layout_ids h
  have hareas := layout_areas h
  have hlen : g1._allCards.length = g._allCards.length := by
    have := congrArg List.length hids
    simpa using this
  simp only [layout, Prod.mk.injEq] at h
  obtain ⟨hpf, hst, hhd, _⟩ := h
  obtain ⟨w1, w2, w3, w4, w5, w6⟩ := hwf
  refine ⟨by rw [hids]; exact w1, ?_, ?_, ?_, ?_, ?_⟩
  · intro c hc
    have hmem : c._cardId ∈ g1._allCards.map CardModel._cardId := List.mem_map_of_mem _ hc
    rw [hids] at hmem
    obtain ⟨c0, hc0, hid0⟩ := List.mem_map.mp hmem
    rw [← hid0]
    exact w2 c0 hc0
  · unfold storedCards
    rw [hpf, hst, hhd, hlen]
    exact w3
  · intro p hp; rw [areaOf_congr p hareas]; exact w4 p (hpf ▸ hp)
  · intro p hp; rw [areaOf_congr p hareas]; exact w5 p (hst ▸ hp)
  · intro p hp; rw [areaOf_congr p hareas]; exact w6 p (hhd ▸ hp)

theorem layout_modifyCard (g : GameModel) (p : CardPtr) (f : CardModel → CardModel)
    (hid : ∀ c, (f c)._cardId = c._cardId) (harea : ∀ c, (f c)._cardArea = c._cardArea) :
    (g.modifyCard p f).layout = g.layout := by
  simp only [layout, modifyCard, Prod.mk.injEq, true_and]
  exact map_updateCard _ _ _ _ (fun c => by simp [hid, harea])

/-! ### Moving a card between areas -/

theorem hasId_eq_beq {g : GameModel} {cardId : Int} {p : CardPtr}
    (hnd : (g._allCards.map CardModel._cardId).Nodup) (hp : g.getCardById cardId = some p) :
    g.hasId cardId = fun q => p == q := by
  funext q
  by_cases hq : g.hasId cardId q = true
  · have := getCardById_of_hasId hnd hq
    rw [hp] at this
    simp only [Option.some.injEq] at this
    simp [hq, this]
  · have hne : p ≠ q := by
      intro h
      subst h
      exact hq (hasId_of_getCardById hp)
    simp [hq, hne]

theorem eraseP_hasId {g : GameModel} {cardId : Int} {p : CardPtr}
    (hnd : (g._allCards.map CardModel._cardId).Nodup) (hp : g.getCardById cardId = some p)
    (l : List CardPtr) : l.eraseP (g.hasId cardId) = l.erase p := by
  rw [hasId_eq_beq hnd hp, List.erase_eq_eraseP]

theorem any_hasId {g : GameModel} {cardId : Int} {p : CardPtr}
    (hnd : (g._allCards.map CardModel._cardId).Nodup) (hp : g.getCardById cardId = some p)
    (l : List CardPtr) : l.any (g.hasId cardId) = decide (p ∈ l) := by
  rw [hasId_eq_beq hnd hp]
  induction l with
  | nil => simp
  | cons x xs ih =>
    simp only [List.any_cons, ih, List.mem_cons]
    by_cases h : p = x <;> simp [h]

theorem WellFormed.nodup {g : GameModel} (h : g.WellFormed) : g.storedCards.Nodup :=
  (h.2.2.1.nodup_iff).mpr (List.nodup_range _)

theorem WellFormed.mem_stored {g : GameModel} (h : g.WellFormed) {p : CardPtr}
    (hp : p < g._allCards.length) : p ∈ g.storedCards :=
  (h.2.2.1.mem_iff).mpr (List.mem_range.mpr hp)

theorem WellFormed.lt_of_mem {g : GameModel} (h : g.WellFormed) {p : CardPtr}
    (hp : p ∈ g.storedCards) : p < g._allCards.length :=
  List.mem_range.mp ((h.2.2.1.mem_iff).mp hp)

theorem WellFormed.count_stored {g : GameModel} (h : g.WellFormed) {p : CardPtr}
    (hp : p < g._allCards.length) :
    g._playfieldCards.count p + g._stackCards.count p + g._handCards.count p = 1 := by
  have := List.count_eq_one_of_mem h.nodup (h.mem_stored hp)
  simp only [storedCards, List.count_append] at this
  omega

theorem WellFormed.count_le_one {g : GameModel} (h : g.WellFormed) (q : CardPtr) :
    g._playfieldCards.count q + g._stackCards.count q + g._handCards.count q ≤ 1 := by
  have := List.nodup_iff_count_le_one.mp h.nodup q
  simp only [storedCards, List.count_append] at this
  omega

theorem areaOf_relocated_self {g : GameModel} {p : CardPtr} (target : String)
    (hp : p < g._allCards.length) : (g.relocated p target).areaOf p = target := by
  obtain ⟨c, hc⟩ : ∃ c, g._allCards[p]? = some c := ⟨_, List.getElem?_eq_getElem hp⟩
  have := getElem?_updateCard_self (f := fun c => { c with _cardArea := target }) hc
  simp [areaOf, card?, relocated, this]

theorem card?_relocated_ne {g : GameModel} {p q : CardPtr} (target : String) (h : q ≠ p) :
    (g.relocated p target).card? q = g.card? q :=
  getElem?_updateCard_ne h

theorem areaOf_relocated_ne {g : GameModel} {p q : CardPtr} (target : String) (h : q ≠ p) :
    (g.relocated p target).areaOf q = g.areaOf q := by
  unfold areaOf
  rw [card?_relocated_ne target h]

theorem ids_relocated (g : GameModel) (p : CardPtr) (target : String) :
    (g.relocated p target)._allCards.map CardModel._cardId
      = g._allCards.map CardModel._cardId :=
  map_updateCard _ _ _ _ (fun _ => rfl)

theorem ids_pos_of_map_eq {a b : List CardModel}
    (h : a.map CardModel._cardId = b.map CardModel._cardId)
    (hb : ∀ c ∈ b, 0 < c._cardId) : ∀ c ∈ a, 0 < c._cardId := by
  intro c hc
  have hmem : c._cardId ∈ a.map CardModel._cardId := List.mem_map_of_mem _ hc
  rw [h] at hmem
  obtain ⟨c0, hc0, hid0⟩ := List.mem_map.mp hmem
  rw [← hid0]
  exact hb c0 hc0

theorem mem_erase_of_count_le_one {l : List CardPtr} {p q : CardPtr}
    (hq : q ∈ l.erase p) (hle : l.count q ≤ 1) : q ∈ l ∧ q ≠ p := by
  refine ⟨List.mem_of_mem_erase hq, ?_⟩
  intro h
  subst h
  have h1 : 0 < (l.erase q).count q := List.count_pos_iff.mpr hq
  have hmem : q ∈ l := List.mem_of_mem_erase hq
  have h2 : (l.erase q).count q = l.count q - 1 := by
    rw [List.count_erase_self]
  omega

theorem wellFormed_relocated {g : GameModel} (hwf : g.WellFormed) {p : CardPtr}
    (hp : p < g._allCards.length) {target : String} (ht : isAreaName target) :
    (g.relocated p target).WellFormed := by
  have hcount := hwf.count_stored hp
  have hlen : (g.relocated p target)._allCards.length = g._allCards.length :=
    length_updateCard _ _ _
  have htag : ∀ (l : List CardPtr) (name : String), (∀ q ∈ l, g.areaOf q = name) →
      (∀ q, l.count q ≤ 1) →
      ∀ q ∈ l.erase p ++ (if target = name then [p] else []),
        (g.relocated p target).areaOf q = name := by
    intro l name hl hc q hq
    rcases List.mem_append.mp hq with h1 | h1
    · obtain ⟨hmem, hne⟩ := mem_erase_of_count_le_one h1 (hc q)
      rw [areaOf_relocated_ne target hne]
      exact hl q hmem
    · by_cases hname : target = name
      · rw [if_pos hname] at h1
        have : q = p := by simpa using h1
        subst this
        rw [areaOf_relocated_self target hp, hname]
      · rw [if_neg hname] at h1
        cases h1
  obtain ⟨w1, w2, w3, w4, w5, w6⟩ := hwf
  have hle := fun q => WellFormed.count_le_one ⟨w1, w2, w3, w4, w5, w6⟩ q
  refine ⟨by rw [ids_relocated]; exact w1,
    ids_pos_of_map_eq (ids_relocated g p target) w2, ?_,
    htag _ _ w4 (fun q => by have := hle q; omega),
    htag _ _ w5 (fun q => by have := hle q; omega),
    htag _ _ w6 (fun q => by have := hle q; omega)⟩
  rw [hlen]
  refine List.Perm.trans ?_ w3
  rw [List.perm_iff_count]
  intro a
  have hpf : p ∈ g._playfieldCards ∨ p ∉ g._playfieldCards := Classical.em _
  simp only [storedCards, relocated, List.count_append, List.count_erase]
  have hmemc : ∀ l : List CardPtr, (p ∈ l ↔ 0 < l.count p) := fun l => List.count_pos_iff.symm
  rcases ht with ht | ht | ht <;> subst ht <;> by_cases hap : a = p
  all_goals first
    | (subst hap; simp; omega)
    | (have hpa : ¬ p = a := fun h => hap h.symm
       simp [hap, hpa])

theorem WellFormed.mem_cases {g : GameModel} (h : g.WellFormed) {p : CardPtr}
    (hp : p < g._allCards.length) :
    (p ∈ g._playfieldCards ∧ p ∉ g._stackCards ∧ p ∉ g._handCards ∧ g.areaOf p = "playfield") ∨
    (p ∉ g._playfieldCards ∧ p ∈ g._stackCards ∧ p ∉ g._handCards ∧ g.areaOf p = "stack") ∨
    (p ∉ g._playfieldCards ∧ p ∉ g._stackCards ∧ p ∈ g._handCards ∧ g.areaOf p = "hand") := by
  have hc := h.count_stored hp
  have h1 : ∀ l : List CardPtr, (p ∈ l ↔ 0 < l.count p) := fun l => List.count_pos_iff.symm
  obtain ⟨_, _, _, w4, w5, w6⟩ := h
  by_cases a : p ∈ g._playfieldCards
  · refine Or.inl ⟨a, ?_, ?_, w4 p a⟩ <;> rw [h1] at a ⊢ <;> omega
  · by_cases b : p ∈ g._stackCards
    · refine Or.inr (Or.inl ⟨a, b, ?_, w5 p b⟩)
      rw [h1] at b ⊢; omega
    · have c : p ∈ g._handCards := by
        rw [h1] at a b ⊢; omega
      exact Or.inr (Or.inr ⟨a, b, c, w6 p c⟩)

theorem removeCardFromArea_eq {g : GameModel} (hwf : g.WellFormed) {cardId : Int} {p : CardPtr}
    (hp : g.getCardById cardId = some p) :
    (g.removeCardFromArea cardId (g.areaOf p)).2 =
      { g with _playfieldCards := g._playfieldCards.erase p,
               _stackCards := g._stackCards.erase p,
               _handCards := g._handCards.erase p } := by
  have hnd := hwf.1
  rcases hwf.mem_cases (getCardById_lt hp) with ⟨a, b, c, d⟩ | ⟨a, b, c, d⟩ | ⟨a, b, c, d⟩
  · rw [d]
    simp [removeCardFromArea, any_hasId hnd hp, eraseP_hasId hnd hp, a,
      List.erase_of_not_mem b, List.erase_of_not_mem c]
  · rw [d]
    simp [removeCardFromArea, any_hasId hnd hp, eraseP_hasId hnd hp, b,
      List.erase_of_not_mem a, List.erase_of_not_mem c]
  · rw [d]
    simp [removeCardFromArea, any_hasId hnd hp, eraseP_hasId hnd hp, c,
      List.erase_of_not_mem a, List.erase_of_not_mem b]

theorem moveCardToArea_eq {g : GameModel} (hwf : g.WellFormed) {cardId : Int} {p : CardPtr}
    (hp : g.getCardById cardId = some p) {target : String} (ht : isAreaName target) :
    g.moveCardToArea cardId target (-1) = (true, g.relocated p target) := by
  unfold moveCardToArea
  rw [hp]
  simp only [removeCardFromArea_eq hwf hp]
  rcases ht with ht | ht | ht <;> subst ht <;>
    simp [relocated, modifyCard, addCardToArea, insertOrPush]

/-! ### Operations that leave the counters or the layout alone -/

theorem counters_modifyCard (g : GameModel) (p : CardPtr) (f : CardModel → CardModel) :
    (g.modifyCard p f).counters = g.counters := rfl

theorem counters_removeCardFromArea (g : GameModel) (cardId : Int) (area : String) :
    (g.removeCardFromArea cardId area).2.counters = g.counters := by
  unfold removeCardFromArea
  split_ifs <;> rfl

theorem counters_addCardToArea (g : GameModel) (card : Option CardPtr) (area : String)
    (index : Int) : (g.addCardToArea card area index).2.counters = g.counters := by
  unfold addCardToArea
  cases card with
  | none => rfl
  | some c => simp only; split_ifs <;> rfl

theorem counters_moveCardToArea (g : GameModel) (cardId : Int) (target : String)
    (index : Int) : (g.moveCardToArea cardId target index).2.counters = g.counters := by
  unfold moveCardToArea
  cases g.getCardById cardId with
  | none => rfl
  | some card =>
    simp only
    rw [counters_addCardToArea]
    split_ifs
    · rw [counters_modifyCard, counters_modifyCard, counters_removeCardFromArea]
    · rw [counters_modifyCard, counters_removeCardFromArea]

end GameModel

namespace GameModel

theorem map_updateCard_congr {β : Type} (F : CardModel → β) (cards : List CardModel)
    (p : CardPtr) (f1 f2 : CardModel → CardModel) (hf : ∀ c, F (f1 c) = F (f2 c)) :
    (updateCard cards p f1).map F = (updateCard cards p f2).map F := by
  unfold updateCard
  cases hc : cards[p]? with
  | none => rfl
  | some c => simp only [List.map_set, hf]

theorem updateCard_updateCard (cards : List CardModel) (p : CardPtr)
    (f1 f2 : CardModel → CardModel) :
    updateCard (updateCard cards p f1) p f2 = updateCard cards p (fun c => f2 (f1 c)) := by
  cases hc : cards[p]? with
  | none =>
    have h1 : updateCard cards p f1 = cards := by simp [updateCard, hc]
    rw [h1]
    simp [updateCard, hc]
  | some c =>
    have h1 := getElem?_updateCard_self (f := f1) hc
    have hlt : p < cards.length := (List.getElem?_eq_some.mp hc).1
    simp only [updateCard, hc] at h1 ⊢
    simp [h1, List.set_set]

end GameModel

/-! ### Effect of undo and of the orchestrator helpers on counters and layout -/

theorem UndoModel.counters_executeUndo (u : UndoModel) (g : GameModel) :
    (u.executeUndo g).2.counters = g.counters := by
  unfold UndoModel.executeUndo
  split
  · rfl
  · cases g.getCardById u._cardId with
    | none => rfl
    | some card =>
      simp only
      cases u._actionType <;> simp only
      all_goals first
        | rfl
        | (split <;> simp only [GameModel.counters_modifyCard,
            GameModel.counters_moveCardToArea])

theorem UndoManager.counters_undo (m : UndoManager) (g : GameModel) :
    (m.undo g).2.2.counters = g.counters := by
  unfold UndoManager.undo
  split
  · rfl
  · cases m._undoHistory.getLast? with
    | none => rfl
    | some e =>
      simp only
      have key : ∀ m1 : UndoManager, (m1.executeUndoAction e g).2.counters = g.counters := by
        intro m1
        unfold UndoManager.executeUndoAction
        split
        · rfl
        · exact UndoModel.counters_executeUndo e g
      split <;> exact key _

namespace GameController

theorem frame_checkAndFlipCardsBelow (g : GameModel) (cardPos : Vec2) :
    (checkAndFlipCardsBelow g cardPos).layout = g.layout ∧
    (checkAndFlipCardsBelow g cardPos).counters = g.counters := by
  unfold checkAndFlipCardsBelow
  split
  · exact ⟨rfl, rfl⟩
  · split
    · exact ⟨GameModel.layout_modifyCard _ _ _ (fun _ => rfl) (fun _ => rfl), rfl⟩
    · exact ⟨rfl, rfl⟩

theorem frame_flipBackAutoFlippedCard (g : GameModel) (cardPos : Vec2) :
    (flipBackAutoFlippedCard g cardPos).layout = g.layout ∧
    (flipBackAutoFlippedCard g cardPos).counters = g.counters := by
  unfold flipBackAutoFlippedCard
  split
  · exact ⟨GameModel.layout_modifyCard _ _ _ (fun _ => rfl) (fun _ => rfl), rfl⟩
  · exact ⟨rfl, rfl⟩

theorem frame_checkGameEndCondition (g : GameModel) :
    (checkGameEndCondition g).2.layout = g.layout ∧
    (checkGameEndCondition g).2.counters = g.counters := by
  unfold checkGameEndCondition
  split_ifs <;> exact ⟨rfl, rfl⟩

theorem frame_raiseHandCard (view : Option GameView) (g : GameModel) (card : CardPtr)
    (cardId z : Int) :
    (raiseHandCard view g card cardId z).1.layout = g.layout ∧
    (raiseHandCard view g card cardId z).1.counters = g.counters := by
  unfold raiseHandCard
  cases view with
  | none => exact ⟨rfl, rfl⟩
  | some v =>
    simp only
    split
    · exact ⟨GameModel.layout_modifyCard _ _ _ (fun _ => rfl) (fun _ => rfl), rfl⟩
    · exact ⟨rfl, rfl⟩

theorem frame_placeNewHandCard (view : Option GameView) (g : GameModel)
    (playfieldCardId z : Int) :
    (placeNewHandCard view g playfieldCardId z).1.layout = g.layout ∧
    (placeNewHandCard view g playfieldCardId z).1.counters = g.counters := by
  unfold placeNewHandCard
  cases g.getTopHandCard with
  | none => exact ⟨rfl, rfl⟩
  | some newHandCard =>
    simp only
    split
    · have h := frame_raiseHandCard view
        (g.modifyCard newHandCard (fun cm => { cm with _position := Vec2.mk 800 400 }))
        newHandCard playfieldCardId z
      refine ⟨h.1.trans ?_, h.2⟩
      exact GameModel.layout_modifyCard _ _ _ (fun _ => rfl) (fun _ => rfl)
    · exact ⟨rfl, rfl⟩

theorem frame_updateHandCardDisplay (view : Option GameView) (g : GameModel) (z : Int)
    (viewAtTarget : Bool) :
    (updateHandCardDisplay view g z viewAtTarget).1.layout = g.layout ∧
    (updateHandCardDisplay view g z viewAtTarget).1.counters = g.counters := by
  unfold updateHandCardDisplay
  cases view with
  | none => exact ⟨rfl, rfl⟩
  | some v =>
    simp only
    cases g.getTopHandCard with
    | none => exact ⟨rfl, rfl⟩
    | some currentHandCard =>
      simp only
      cases g.card? currentHandCard with
      | none => exact ⟨rfl, rfl⟩
      | some cm =>
        simp only
        split
        · exact ⟨GameModel.layout_modifyCard _ _ _ (fun _ => rfl) (fun _ => rfl), rfl⟩
        · exact ⟨rfl, rfl⟩

theorem frame_updateViewAfterUndo (view : Option GameView) (g : GameModel) (z : Int)
    (undoModel : UndoModel) (viewAtTarget : Bool) :
    (updateViewAfterUndo view g z undoModel viewAtTarget).1.layout = g.layout ∧
    (updateViewAfterUndo view g z undoModel viewAtTarget).1.counters = g.counters := by
  unfold updateViewAfterUndo
  cases hcard : g.getCardById undoModel._cardId with
  | none => exact ⟨rfl, rfl⟩
  | some card =>
    cases view with
    | none => exact ⟨rfl, rfl⟩
    | some v =>
      simp only
      have h1 := frame_updateHandCardDisplay (some v) g z viewAtTarget
      have h2 : ∀ x : GameModel, x.layout = g.layout ∧ x.counters = g.counters →
          ∀ pos, (flipBackAutoFlippedCard x pos).layout = g.layout ∧
            (flipBackAutoFlippedCard x pos).counters = g.counters := by
        intro x hx pos
        have := frame_flipBackAutoFlippedCard x pos
        exact ⟨this.1.trans hx.1, this.2.trans hx.2⟩
      have h3 : ∀ zz : Int,
          ((updateHandCardDisplay (some v) g z viewAtTarget).1.modifyCard card
              (fun k => { k with _zOrder := zz })).layout = g.layout ∧
          ((updateHandCardDisplay (some v) g z viewAtTarget).1.modifyCard card
              (fun k => { k with _zOrder := zz })).counters = g.counters := by
        intro zz
        refine ⟨Eq.trans ?_ h1.1, h1.2⟩
        exact GameModel.layout_modifyCard _ _ _ (fun _ => rfl) (fun _ => rfl)
      by_cases hv : v.hasCardView undoModel._cardId = true <;>
        by_cases hf : undoModel._fromPosition = "playfield" ∧ undoModel._toPosition = "hand"
      · simp only [hv, hf, and_self, if_true]
        exact h2 _ (h3 _) _
      · simp only [hv, hf, if_true, if_false]
        exact h3 _
      · simp only [hv, hf, and_self, if_true, if_false]
        exact h2 _ h1 _
      · simp only [hv, hf, if_false]
        exact h1

end GameController

/-! ### Rule evaluator -/

namespace GameRulesService

theorem abs_eq_abs (x : Int) : abs x = |x| := by
  unfold abs
  split
  · rename_i h; rw [abs_of_neg h]
  · rename_i h; rw [abs_of_nonneg (not_lt.mp h)]

/-- C1: for non-null cards `a` and `b`, `canCardsMatch` holds exactly when the
absolute difference of the two ranks is 1; a King (rank 12) against an Ace
(rank 0) does not match, in either order. -/
theorem canCardsMatch_iff_rank_distance_one (a b : CardModel) :
    (canCardsMatch (some a) (some b) = true ↔ |a._rank - b._rank| = 1) ∧
    (a._rank = 12 → b._rank = 0 →
      canCardsMatch (some a) (some b) = false ∧ canCardsMatch (some b) (some a) = false) := by
  refine ⟨?_, ?_⟩
  · simp [canCardsMatch, abs_eq_abs]
  · intro ha hb
    simp [canCardsMatch, abs, ha, hb]

theorem canCardsMatch_king_ace_witness :
    (canCardsMatch (some (CardModel.mk3 3 12 52)) (some (CardModel.mk3 0 0 1)) = true ↔
      |(CardModel.mk3 3 12 52)._rank - (CardModel.mk3 0 0 1)._rank| = 1) ∧
    canCardsMatch (some (CardModel.mk3 3 12 52)) (some (CardModel.mk3 0 0 1)) = false ∧
    canCardsMatch (some (CardModel.mk3 0 0 1)) (some (CardModel.mk3 3 12 52)) = false :=
  ⟨(canCardsMatch_iff_rank_distance_one _ _).1,
   (canCardsMatch_iff_rank_distance_one (CardModel.mk3 3 12 52) (CardModel.mk3 0 0 1)).2
     rfl rfl⟩

/-- C2: when `playfieldCardId` names a card stored in the tableau, `handCardId`
names an existing card and the two match, `executeCardMatch` returns `true`;
afterwards the tableau is the old one with that card erased, the hand is the
old hand followed by that card, the card is face-up with area `"hand"` and
otherwise as before, `_movesCount` grew by 1 and `_score` by 100, and the stock
and every other card are unchanged. -/
theorem executeCardMatch_success (g : GameModel) (playfieldCardId handCardId : Int)
    (p h : CardPtr)
    (hp : g.getCardById playfieldCardId = some p) (hmem : p ∈ g._playfieldCards)
    (hh : g.getCardById handCardId = some h)
    (hmatch : canCardsMatch (g.card? p) (g.card? h) = true) :
    ∃ g1, executeCardMatch g playfieldCardId handCardId = (true, g1) ∧
      g1._playfieldCards = g._playfieldCards.erase p ∧
      (∃ l1 l2, g._playfieldCards = l1 ++ p :: l2 ∧ p ∉ l1 ∧ g1._playfieldCards = l1 ++ l2) ∧
      g1._handCards = g._handCards ++ [p] ∧
      g1.getTopHandCard = some p ∧
      (∃ c, g.card? p = some c ∧
        g1.card? p = some { c with _cardArea := "hand", _isFaceUp := true }) ∧
      g1._movesCount = g._movesCount + 1 ∧
      g1._score = g._score + 100 ∧
      g1._stackCards = g._stackCards ∧
      (∀ q, q ≠ p → g1.card? q = g.card? q) ∧
      g1._allCards.length = g._allCards.length := by
  obtain ⟨c, hc, _⟩ := GameModel.getCardById_some hp
  refine ⟨(executeCardMatch g playfieldCardId handCardId).2, ?_, ?_⟩
  · simp only [executeCardMatch, hp, hh, hmatch]
    rfl
  · simp only [executeCardMatch, hp, hh, hmatch]
    refine ⟨rfl, ?_, rfl, by simp [GameModel.getTopHandCard], ⟨c, hc, ?_⟩, rfl, rfl, rfl,
      ?_, ?_⟩
    · obtain ⟨l1, l2, hnot, hl, herase⟩ := List.exists_erase_eq hmem
      exact ⟨l1, l2, hl, hnot, herase⟩
    · exact GameModel.getElem?_updateCard_self hc
    · intro q hq
      exact GameModel.getElem?_updateCard_ne hq
    · exact GameModel.length_updateCard _ _ _

theorem executeCardMatch_success_witness :
    ∃ g1, executeCardMatch Examples.smallGame 1 4 = (true, g1) ∧
      g1._playfieldCards = Examples.smallGame._playfieldCards.erase 0 ∧
      (∃ l1 l2, Examples.smallGame._playfieldCards = l1 ++ 0 :: l2 ∧ 0 ∉ l1 ∧
        g1._playfieldCards = l1 ++ l2) ∧
      g1._handCards = Examples.smallGame._handCards ++ [0] ∧
      g1.getTopHandCard = some 0 ∧
      (∃ c, Examples.smallGame.card? 0 = some c ∧
        g1.card? 0 = some { c with _cardArea := "hand", _isFaceUp := true }) ∧
      g1._movesCount = Examples.smallGame._movesCount + 1 ∧
      g1._score = Examples.smallGame._score + 100 ∧
      g1._stackCards = Examples.smallGame._stackCards ∧
      (∀ q, q ≠ 0 → g1.card? q = Examples.smallGame.card? q) ∧
      g1._allCards.length = Examples.smallGame._allCards.length :=
  executeCardMatch_success Examples.smallGame 1 4 0 3 (by decide) (by decide) (by decide)
    (by decide)

/-- C3: when either id names no existing card, or the two cards named do not
match, `executeCardMatch` returns `false` and the game model is the one it was
given, field for field. -/
theorem executeCardMatch_failure (g : GameModel) (playfieldCardId handCardId : Int)
    (h : g.getCardById playfieldCardId = none ∨ g.getCardById handCardId = none ∨
      canCardsMatch ((g.getCardById playfieldCardId).bind g.card?)
        ((g.getCardById handCardId).bind g.card?) = false) :
    executeCardMatch g playfieldCardId handCardId = (false, g) := by
  unfold executeCardMatch
  rcases h with h | h | h
  · simp [h]
  · rw [h]
    cases g.getCardById playfieldCardId <;> rfl
  · cases hp : g.getCardById playfieldCardId with
    | none => rfl
    | some p =>
      cases hh : g.getCardById handCardId with
      | none => rfl
      | some q =>
        rw [hp, hh] at h
        simp only [Option.bind] at h
        simp [h]

theorem executeCardMatch_failure_witness :
    (Examples.smallGame.getCardById 2 = some 1 ∧ Examples.smallGame.getCardById 3 = some 2 ∧
      (Examples.smallGame.card? 2).map CardModel._rank = some 8 ∧
      (Examples.smallGame.card? 1).map CardModel._rank = some 6) ∧
    executeCardMatch Examples.smallGame 2 3 = (false, Examples.smallGame) ∧
    executeCardMatch Examples.smallGame 77 4 = (false, Examples.smallGame) :=
  ⟨by decide,
   executeCardMatch_failure Examples.smallGame 2 3 (Or.inr (Or.inr (by decide))),
   executeCardMatch_failure Examples.smallGame 77 4 (Or.inl (by decide))⟩

theorem executeCardMatch_true_score (g : GameModel) (playfieldCardId handCardId : Int)
    (h : (executeCardMatch g playfieldCardId handCardId).1 = true) :
    (executeCardMatch g playfieldCardId handCardId).2._score = g._score + 100 ∧
    (executeCardMatch g playfieldCardId handCardId).2._movesCount = g._movesCount + 1 := by
  unfold executeCardMatch at h ⊢
  cases hp : g.getCardById playfieldCardId with
  | none => rw [hp] at h; cases h
  | some p =>
    cases hh : g.getCardById handCardId with
    | none => rw [hp, hh] at h; cases h
    | some q =>
      rw [hp, hh] at h
      cases hm : canCardsMatch (g.card? p) (g.card? q) with
      | false => simp [hm] at h
      | true => simp only [hm]; exact ⟨rfl, rfl⟩

/-- C5: if `N` consecutive `executeCardMatch` calls all succeed, started on a
game model with score `s`, the score afterwards is `s + 100 * N`. -/
theorem executeCardMatches_score (N : Nat) (g g1 : GameModel) (calls : List (Int × Int))
    (hN : calls.length = N) (hrun : executeCardMatches g calls = some g1) :
    g1._score = g._score + 100 * (N : Int) := by
  subst hN
  induction calls generalizing g with
  | nil =>
    simp only [executeCardMatches, Option.some.injEq] at hrun
    subst hrun
    simp
  | cons ids rest ih =>
    simp only [executeCardMatches] at hrun
    split at hrun
    · rename_i hok
      have hstep := (executeCardMatch_true_score g ids.1 ids.2 hok).1
      have := ih _ hrun
      rw [this, hstep]
      simp only [List.length_cons]
      push_cast
      ring
    · cases hrun

theorem executeCardMatches_score_witness :
    ∃ g1, executeCardMatches Examples.smallGame [(1, 4), (2, 4)] = some g1 ∧
      g1._score = Examples.smallGame._score + 100 * ((2 : Nat) : Int) ∧ g1._score = 200 :=
  ⟨_, rfl,
   executeCardMatches_score 2 Examples.smallGame _ [(1, 4), (2, 4)] rfl rfl, by decide⟩

end GameRulesService

/-! ### History manager -/

namespace UndoManager

theorem evictOldest_eq_drop (max : Nat) (l : List UndoModel) :
    evictOldest max l = l.drop (l.length - max) := by
  induction l with
  | nil => simp [evictOldest]
  | cons e rest ih =>
    unfold evictOldest
    split
    · rename_i h
      rw [ih]
      simp only [List.length_cons] at h ⊢
      have : rest.length + 1 - max = (rest.length - max) + 1 := by omega
      rw [this, List.drop_succ_cons]
    · rename_i h
      simp only [List.length_cons] at h ⊢
      have : rest.length + 1 - max = 0 := by omega
      rw [this, List.drop_zero]

theorem toSize_of_nonneg {n : Int} (h : 0 ≤ n) : toSize n = n.toNat := by
  simp [toSize, h]

/-- C9: `undo()` returns `false` and leaves both stacks and the game model as
they were when the undo stack is empty, and also when the card id of the last
undo entry is not found in the game model (the popped entry is back as the last
element); `redo()` returns `false` and changes nothing when the redo stack is
empty. -/
theorem undo_redo_failure (m : UndoManager) (g : GameModel) :
    (m._undoHistory = [] → m.undo g = (false, m, g)) ∧
    (∀ e, m._undoHistory.getLast? = some e → g.getCardById e._cardId = none →
      m.undo g = (false, m, g)) ∧
    (m._redoHistory = [] → m.redo g = (false, m, g)) := by
  refine ⟨?_, ?_, ?_⟩
  · intro h
    simp [undo, canUndo, h]
  · intro e he hcard
    have hrestore : m._undoHistory.dropLast ++ [e] = m._undoHistory :=
      List.dropLast_append_getLast? e (by simp [he])
    unfold undo
    split
    · rfl
    · have hexec : ∀ m1 : UndoManager, (m1.executeUndoAction e g) = (false, g) := by
        intro m1
        unfold executeUndoAction UndoModel.executeUndo
        split
        · rfl
        · split
          · rfl
          · simp [hcard]
      simp only [he, hexec, hrestore]
      simp
  · intro h
    simp [redo, canRedo, h]

theorem undo_redo_failure_witness :
    (Examples.emptyManager.undo Examples.smallGame
        = (false, Examples.emptyManager, Examples.smallGame)) ∧
    (Examples.staleManager.undo Examples.smallGame
        = (false, Examples.staleManager, Examples.smallGame)) ∧
    (Examples.staleManager.redo Examples.smallGame
        = (false, Examples.staleManager, Examples.smallGame)) :=
  ⟨(undo_redo_failure Examples.emptyManager Examples.smallGame).1 rfl,
   (undo_redo_failure Examples.staleManager Examples.smallGame).2.1 (Examples.entry 99)
     (by decide) (by decide),
   (undo_redo_failure Examples.staleManager Examples.smallGame).2.2 rfl⟩

/-- C10: on an initialised manager with bound `m >= 1`, undo stack `U` and any
redo stack, `addUndoAction(e)` for a valid entry `e` returns `true`; afterwards
the redo stack is empty and the undo stack consists of the last
`min (|U| + 1) m` elements of `U` followed by `e` (stamped with the current
time), in the same order, so that eviction takes the oldest entries. -/
theorem addUndoAction_bounded (m : UndoManager) (e : UndoModel) (now : Int)
    (hinit : m._isInitialized = true) (hmax : 1 ≤ m._maxUndoCount)
    (hvalid : e.isValid = true) :
    ∃ m1, m.addUndoAction e now = (true, m1) ∧
      m1._redoHistory = [] ∧
      m1._undoHistory =
        (m._undoHistory ++ [{ e with _timestamp := now }]).drop
          ((m._undoHistory.length + 1) - min (m._undoHistory.length + 1) m._maxUndoCount.toNat) ∧
      m1._undoHistory.length = min (m._undoHistory.length + 1) m._maxUndoCount.toNat ∧
      m1._undoHistory.getLast? = some { e with _timestamp := now } ∧
      m1._maxUndoCount = m._maxUndoCount ∧ m1._isInitialized = true := by
  have hsize : toSize m._maxUndoCount = m._maxUndoCount.toNat :=
    toSize_of_nonneg (by omega)
  have hpos : 1 ≤ m._maxUndoCount.toNat := by omega
  have hdrop : (m._undoHistory.length + 1) - min (m._undoHistory.length + 1) m._maxUndoCount.toNat
      = (m._undoHistory.length + 1) - m._maxUndoCount.toNat := by omega
  have hrun : m.addUndoAction e now = (true,
      { m with _undoHistory := (m._undoHistory ++ [{ e with _timestamp := now }]).drop
                 ((m._undoHistory.length + 1) - m._maxUndoCount.toNat),
               _redoHistory := [] }) := by
    simp [addUndoAction, hinit, validateUndoAction, hvalid, handleUndoHistoryOverflow,
      clearRedoHistory, hsize, evictOldest_eq_drop]
  refine ⟨_, hrun, rfl, ?_, ?_, ?_, rfl, hinit⟩
  · rw [hdrop]
  · simp only [List.length_drop, List.length_append, List.length_singleton]
    omega
  · show ((m._undoHistory ++ [{ e with _timestamp := now }]).drop
        ((m._undoHistory.length + 1) - m._maxUndoCount.toNat)).getLast? = _
    rw [List.drop_append_of_le_length (by omega)]
    simp

theorem addUndoAction_bounded_witness :
    (∃ m1, ((Examples.emptyManager.addUndoAction (Examples.entry 1) 10).2.addUndoAction
          (Examples.entry 2) 20).2.addUndoAction (Examples.entry 3) 30 = (true, m1) ∧
      m1._redoHistory = [] ∧
      m1._undoHistory =
        ([{ Examples.entry 1 with _timestamp := 10 }, { Examples.entry 2 with _timestamp := 20 }]
          ++ [{ Examples.entry 3 with _timestamp := 30 }]).drop ((2 + 1) - min (2 + 1) 2) ∧
      m1._undoHistory.length = min (2 + 1) 2 ∧
      m1._undoHistory.getLast? = some { Examples.entry 3 with _timestamp := 30 } ∧
      m1._maxUndoCount = 2 ∧ m1._isInitialized = true) ∧
    (((Examples.emptyManager.addUndoAction (Examples.entry 1) 10).2.addUndoAction
        (Examples.entry 2) 20).2.addUndoAction (Examples.entry 3) 30).2._undoHistory
      = [{ Examples.entry 2 with _timestamp := 20 }, { Examples.entry 3 with _timestamp := 30 }] :=
  ⟨addUndoAction_bounded
    ((Examples.emptyManager.addUndoAction (Examples.entry 1) 10).2.addUndoAction
      (Examples.entry 2) 20).2 (Examples.entry 3) 30 (by decide) (by decide) (by decide),
   by decide⟩

end UndoManager

namespace UndoManager

end UndoManager

/-! ### Model generator -/

namespace GameModelGenerator

theorem areaOf_of_append {g g1 : GameModel} {card : CardModel}
    (hall : g1._allCards = g._allCards ++ [card]) {q : CardPtr}
    (hq : q < g._allCards.length) : g1.areaOf q = g.areaOf q := by
  unfold GameModel.areaOf GameModel.card?
  rw [hall, List.getElem?_append_left hq]

theorem areaOf_of_append_new {g g1 : GameModel} {card : CardModel}
    (hall : g1._allCards = g._allCards ++ [card]) :
    g1.areaOf g._allCards.length = card._cardArea := by
  unfold GameModel.areaOf GameModel.card?
  rw [hall, List.getElem?_concat_length]

/-- Appending a fresh card to `_allCards` and its index to the tableau or to
the stock keeps a state well-formed. -/
theorem wellFormed_push {g g1 : GameModel} (card : CardModel) (hwf : g.WellFormed)
    (hall : g1._allCards = g._allCards ++ [card])
    (hfresh : card._cardId ∉ g._allCards.map CardModel._cardId) (hpos : 0 < card._cardId)
    (hvec : (g1._playfieldCards = g._playfieldCards ++ [g._allCards.length] ∧
              g1._stackCards = g._stackCards ∧ card._cardArea = "playfield") ∨
            (g1._playfieldCards = g._playfieldCards ∧
              g1._stackCards = g._stackCards ++ [g._allCards.length] ∧
              card._cardArea = "stack"))
    (hhand : g1._handCards = g._handCards) : g1.WellFormed := by
  have hlt : ∀ q ∈ g.storedCards, q < g._allCards.length := fun q hq => hwf.lt_of_mem hq
  obtain ⟨w1, w2, w3, w4, w5, w6⟩ := hwf
  have hold : ∀ (l : List CardPtr) (name : String), (∀ q ∈ l, g.areaOf q = name) →
      (∀ q ∈ l, q ∈ g.storedCards) → ∀ q ∈ l, g1.areaOf q = name := by
    intro l name hl hsub q hq
    rw [areaOf_of_append hall (hlt q (hsub q hq))]
    exact hl q hq
  have hnew : ∀ (l : List CardPtr) (name : String), (∀ q ∈ l, g.areaOf q = name) →
      (∀ q ∈ l, q ∈ g.storedCards) → card._cardArea = name →
      ∀ q ∈ l ++ [g._allCards.length], g1.areaOf q = name := by
    intro l name hl hsub hname q hq
    rcases List.mem_append.mp hq with h | h
    · exact hold l name hl hsub q h
    · have : q = g._allCards.length := by simpa using h
      rw [this, areaOf_of_append_new hall, hname]
  have spf : ∀ q ∈ g._playfieldCards, q ∈ g.storedCards := fun q hq => by
    simp [GameModel.storedCards, hq]
  have sst : ∀ q ∈ g._stackCards, q ∈ g.storedCards := fun q hq => by
    simp [GameModel.storedCards, hq]
  have shd : ∀ q ∈ g._handCards, q ∈ g.storedCards := fun q hq => by
    simp [GameModel.storedCards, hq]
  have hperm : g1.storedCards.Perm (List.range g1._allCards.length) := by
    have hlen : g1._allCards.length = g._allCards.length + 1 := by simp [hall]
    rw [hlen, List.range_succ]
    refine List.Perm.trans ?_ (List.Perm.append_right _ w3)
    rw [List.perm_iff_count]
    intro a
    rcases hvec with ⟨h1, h2, _⟩ | ⟨h1, h2, _⟩ <;>
      simp only [GameModel.storedCards, h1, h2, hhand, List.count_append] <;> omega
  refine ⟨?_, ?_, hperm, ?_, ?_, ?_⟩
  · rw [hall, List.map_append, List.map_singleton]
    exact (List.perm_append_singleton _ _).nodup_iff.mpr (List.nodup_cons.mpr ⟨hfresh, w1⟩)
  · intro c hc
    rw [hall] at hc
    rcases List.mem_append.mp hc with h | h
    · exact w2 c h
    · have : c = card := by simpa using h
      rw [this]; exact hpos
  · rcases hvec with ⟨h1, _, h3⟩ | ⟨h1, _, _⟩ <;> rw [h1]
    · exact hnew _ _ w4 spf h3
    · exact hold _ _ w4 spf
  · rcases hvec with ⟨_, h2, _⟩ | ⟨_, h2, h3⟩ <;> rw [h2]
    · exact hold _ _ w5 sst
    · exact hnew _ _ w5 sst h3
  · rw [hhand]
    exact hold _ _ w6 shd

theorem dealPlayfield_spec :
    ∀ (placements : List PlayfieldCard) (deck : List CardModel) (g : GameModel),
      g.WellFormed →
      (g._allCards.map CardModel._cardId ++ deck.map CardModel._cardId).Nodup →
      (∀ c ∈ deck, 0 < c._cardId) →
      (dealPlayfield placements deck g).1.WellFormed ∧
      ((dealPlayfield placements deck g).1._allCards.map CardModel._cardId
          ++ (dealPlayfield placements deck g).2.map CardModel._cardId).Nodup ∧
      (∀ c ∈ (dealPlayfield placements deck g).2, 0 < c._cardId) ∧
      (dealPlayfield placements deck g).1._allCards.map CardModel._cardId
          ++ (dealPlayfield placements deck g).2.map CardModel._cardId
        = g._allCards.map CardModel._cardId ++ deck.map CardModel._cardId := by
  intro placements
  induction placements with
  | nil => intro deck g hwf hnd hpos; exact ⟨hwf, hnd, hpos, rfl⟩
  | cons placement rest ih =>
    intro deck g hwf hnd hpos
    cases deck with
    | nil => exact ⟨hwf, hnd, hpos, rfl⟩
    | cons card deck =>
      simp only [dealPlayfield]
      simp only [List.map_cons] at hnd
      have hmid := List.nodup_cons.mp (List.nodup_middle.mp hnd)
      have hfresh : card._cardId ∉ g._allCards.map CardModel._cardId :=
        fun h => hmid.1 (List.mem_append_left _ h)
      have hstep := ih deck
        { g with _allCards := g._allCards ++ [placeOnTableau card placement],
                 _playfieldCards := g._playfieldCards ++ [g._allCards.length] }
        (wellFormed_push (placeOnTableau card placement)
          hwf rfl hfresh (hpos card (List.mem_cons_self _ _))
          (Or.inl ⟨rfl, rfl, rfl⟩) rfl)
        (by simpa using hnd)
        (fun c hc => hpos c (List.mem_cons_of_mem _ hc))
      refine ⟨hstep.1, hstep.2.1, hstep.2.2.1, ?_⟩
      rw [hstep.2.2.2]
      simp [placeOnTableau]

theorem dealStack_spec :
    ∀ (deck : List CardModel) (stackIndex : Int) (g : GameModel),
      g.WellFormed →
      (g._allCards.map CardModel._cardId ++ deck.map CardModel._cardId).Nodup →
      (∀ c ∈ deck, 0 < c._cardId) →
      (dealStack deck stackIndex g).WellFormed ∧
      (dealStack deck stackIndex g)._allCards.map CardModel._cardId
        = g._allCards.map CardModel._cardId ++ deck.map CardModel._cardId := by
  intro deck
  induction deck with
  | nil => intro stackIndex g hwf _ _; exact ⟨hwf, by simp [dealStack]⟩
  | cons card deck ih =>
    intro stackIndex g hwf hnd hpos
    simp only [dealStack]
    simp only [List.map_cons] at hnd
    have hmid := List.nodup_cons.mp (List.nodup_middle.mp hnd)
    have hfresh : card._cardId ∉ g._allCards.map CardModel._cardId :=
      fun h => hmid.1 (List.mem_append_left _ h)
    have hstep := ih (stackIndex + 1)
      { g with _allCards := g._allCards ++ [placeOnStack card stackIndex],
               _stackCards := g._stackCards ++ [g._allCards.length] }
      (wellFormed_push (placeOnStack card stackIndex)
        hwf rfl hfresh (hpos card (List.mem_cons_self _ _))
        (Or.inr ⟨rfl, rfl, rfl⟩) rfl)
      (by simpa using hnd)
      (fun c hc => hpos c (List.mem_cons_of_mem _ hc))
    refine ⟨hstep.1, ?_⟩
    rw [hstep.2]
    simp [placeOnStack]

theorem dealHand_layout {g : GameModel} (hwf : g.WellFormed) {t : CardPtr}
    (ht : g._stackCards.getLast? = some t) :
    (dealHand g).layout = (g.relocated t "hand").layout := by
  have hsplit : g._stackCards.dropLast ++ [t] = g._stackCards :=
    List.dropLast_append_getLast? t (by simp [ht])
  have hmem : t ∈ g._stackCards := by rw [← hsplit]; simp
  have hlt : t < g._allCards.length :=
    hwf.lt_of_mem (by simp [GameModel.storedCards, hmem])
  have hnot : t ∉ g._playfieldCards ∧ t ∉ g._handCards := by
    rcases hwf.mem_cases hlt with ⟨_, b, _⟩ | ⟨a, _, c, _⟩ | ⟨_, b, _⟩
    · exact absurd hmem b
    · exact ⟨a, c⟩
    · exact absurd hmem b
  have hnd : g._stackCards.Nodup := by
    have := hwf.nodup
    simp only [GameModel.storedCards] at this
    exact (List.nodup_append.mp (List.nodup_append.mp this).1).2.1
  have herase : g._stackCards.erase t = g._stackCards.dropLast := by
    have hnd2 := hnd
    rw [← hsplit] at hnd2
    have hnotin : t ∉ g._stackCards.dropLast := by
      intro h
      have := (List.nodup_append.mp hnd2).2.2
      exact this h (List.mem_singleton_self t)
    conv_lhs => rw [← hsplit]
    rw [List.erase_append_right _ hnotin]
    simp
  unfold dealHand
  simp only [ht, GameModel.layout, GameModel.relocated, GameModel.modifyCard,
    List.erase_of_not_mem hnot.1, List.erase_of_not_mem hnot.2, herase, Prod.mk.injEq]
  refine ⟨by simp, by simp, by simp, ?_⟩
  exact GameModel.map_updateCard_congr _ _ _ _ _ (fun _ => rfl)

theorem dealHand_spec {g : GameModel} (hwf : g.WellFormed) :
    (dealHand g).WellFormed ∧
    (dealHand g)._allCards.map CardModel._cardId = g._allCards.map CardModel._cardId := by
  cases ht : g._stackCards.getLast? with
  | none =>
    have : dealHand g = g := by simp [dealHand, ht]
    rw [this]
    exact ⟨hwf, rfl⟩
  | some t =>
    have hlay := dealHand_layout hwf ht
    have hsplit : g._stackCards.dropLast ++ [t] = g._stackCards :=
      List.dropLast_append_getLast? t (by simp [ht])
    have hmem : t ∈ g._stackCards := by rw [← hsplit]; simp
    have hlt : t < g._allCards.length :=
      hwf.lt_of_mem (by simp [GameModel.storedCards, hmem])
    exact ⟨GameModel.wellFormed_of_layout hlay
        (GameModel.wellFormed_relocated hwf hlt (Or.inr (Or.inr rfl))),
      (GameModel.layout_ids hlay).trans (GameModel.ids_relocated g t "hand")⟩

theorem wellFormed_empty {g : GameModel} (h1 : g._allCards = []) (h2 : g._playfieldCards = [])
    (h3 : g._stackCards = []) (h4 : g._handCards = []) : g.WellFormed := by
  unfold GameModel.WellFormed GameModel.storedCards
  rw [h1, h2, h3, h4]
  simp

theorem ids_orderedDeck : orderedDeck.map CardModel._cardId = GameModel.deckIds := by
  decide

theorem deckIds_nodup : GameModel.deckIds.Nodup := by
  decide

theorem deckIds_pos : ∀ x ∈ GameModel.deckIds, (0 : Int) < x := by
  decide

theorem mem_deckIds {x : Int} : x ∈ GameModel.deckIds ↔ 1 ≤ x ∧ x ≤ 52 := by
  unfold GameModel.deckIds
  simp only [List.mem_map, List.mem_range]
  constructor
  · rintro ⟨i, hi, hx⟩
    subst hx
    constructor <;> omega
  · rintro ⟨h1, h2⟩
    refine ⟨(x - 1).toNat, ?_, ?_⟩ <;> omega

theorem createCardCollection_spec {shuffle : List CardModel → List CardModel}
    (hshuffle : (shuffle orderedDeck).Perm orderedDeck) (g0 : GameModel)
    (cfg : LevelConfig) (hwf0 : g0.WellFormed) (hids0 : g0._allCards = []) :
    (createCardCollection shuffle g0 cfg).1 = true ∧
    (createCardCollection shuffle g0 cfg).2.Complete := by
  have hidperm : ((shuffle orderedDeck).map CardModel._cardId).Perm GameModel.deckIds := by
    rw [← ids_orderedDeck]
    exact hshuffle.map _
  have hpos : ∀ c ∈ shuffle orderedDeck, 0 < c._cardId := fun c hc =>
    deckIds_pos _ ((hidperm.mem_iff).mp (List.mem_map_of_mem _ hc))
  have hnd : ((shuffle orderedDeck).map CardModel._cardId).Nodup :=
    (hidperm.nodup_iff).mpr deckIds_nodup
  have hA := dealPlayfield_spec cfg._playfieldCards (shuffle orderedDeck) g0 hwf0
    (by rw [hids0]; simpa using hnd) hpos
  have hB := dealStack_spec (dealPlayfield cfg._playfieldCards (shuffle orderedDeck) g0).2 0
    (dealPlayfield cfg._playfieldCards (shuffle orderedDeck) g0).1 hA.1 hA.2.1 hA.2.2.1
  have hC := dealHand_spec hB.1
  refine ⟨rfl, hC.1, ?_⟩
  have hidsC : (createCardCollection shuffle g0 cfg).2._allCards.map CardModel._cardId
      = (shuffle orderedDeck).map CardModel._cardId := by
    show (dealHand _)._allCards.map CardModel._cardId = _
    rw [hC.2, hB.2, hA.2.2.2, hids0]
    simp
  rw [hidsC]
  exact hidperm

/-- Every game model the generator returns is complete, provided the shuffle
permutes the deck. -/
theorem generateGameModel_complete {shuffle : List CardModel → List CardModel}
    (hshuffle : (shuffle orderedDeck).Perm orderedDeck)
    {levelConfig : Option LevelConfig} {g : GameModel}
    (h : generateGameModel shuffle levelConfig = some g) : g.Complete := by
  unfold generateGameModel at h
  cases levelConfig with
  | none => cases h
  | some cfg =>
    simp only at h
    split at h
    · cases h
    · have hspec := createCardCollection_spec hshuffle
        ({ GameModel.new with
            _levelId := cfg._levelId, _targetScore := cfg._targetScore,
            _timeLimit := cfg._timeLimit, _maxUndoCount := cfg._maxUndoCount,
            _allowHint := cfg._allowHint, _allowUndo := cfg._allowUndo } : GameModel)
        cfg (wellFormed_empty rfl rfl rfl rfl) rfl
      simp only [initializeGameModel, hspec.1, setupGameRules, initializeGameState,
        Bool.not_true, Bool.false_eq_true, if_false, if_true, Option.some.injEq] at h
      subst h
      exact ⟨GameModel.wellFormed_of_layout rfl hspec.2.1, hspec.2.2⟩

end GameModelGenerator

/-! ### Orchestrator -/

namespace GameController

theorem recordUndoAction_fields (c : GameController) (actionType : ActionType) (cardId : Int)
    (fromPosition toPosition : String) (now : Int) :
    (c.recordUndoAction actionType cardId fromPosition toPosition now)._gameModel
      = c._gameModel ∧
    (c.recordUndoAction actionType cardId fromPosition toPosition now)._gameView
      = c._gameView ∧
    (c.recordUndoAction actionType cardId fromPosition toPosition now)._isGameRunning
      = c._isGameRunning ∧
    (c.recordUndoAction actionType cardId fromPosition toPosition now)._handCardZOrder
      = c._handCardZOrder := by
  unfold recordUndoAction
  split
  · split <;> exact ⟨rfl, rfl, rfl, rfl⟩
  · exact ⟨rfl, rfl, rfl, rfl⟩

theorem handleCardMatch_true {c c1 : GameController} {g : GameModel}
    {playfieldCardId handCardId now : Int} (hg : c._gameModel = some g)
    (h : c.handleCardMatch playfieldCardId handCardId now = (true, c1)) :
    (GameRulesService.executeCardMatch g playfieldCardId handCardId).1 = true ∧
    c1._undoManager = (c.recordUndoAction ActionType.ACTION_MOVE_CARD playfieldCardId
      "playfield" "hand" now)._undoManager ∧
    c1._isGameRunning = true ∧ c1._gameView = c._gameView ∧
    ∃ g1, c1._gameModel = some g1 ∧
      g1.layout = (GameRulesService.executeCardMatch g playfieldCardId handCardId).2.layout ∧
      g1.counters
        = (GameRulesService.executeCardMatch g playfieldCardId handCardId).2.counters := by
  unfold handleCardMatch at h
  cases hrun : c._isGameRunning with
  | false => simp [hrun] at h
  | true =>
    simp only [hrun, hg, Bool.not_true, Bool.false_eq_true, if_false] at h
    have hrec := recordUndoAction_fields c ActionType.ACTION_MOVE_CARD playfieldCardId
      "playfield" "hand" now
    cases hexec : (GameRulesService.executeCardMatch g playfieldCardId handCardId).1 with
    | false => simp [hexec] at h
    | true =>
      simp only [hexec, if_true, Prod.mk.injEq, true_and] at h
      subst h
      refine ⟨rfl, rfl, ?_, hrec.2.1, _, rfl, ?_, ?_⟩
      · exact hrec.2.2.1.trans hrun
      · exact (frame_checkGameEndCondition _).1.trans
          ((frame_checkAndFlipCardsBelow _ _).1.trans (frame_placeNewHandCard _ _ _ _).1)
      · exact (frame_checkGameEndCondition _).2.trans
          ((frame_checkAndFlipCardsBelow _ _).2.trans (frame_placeNewHandCard _ _ _ _).2)

theorem handleUndo_true {c c2 : GameController} {g : GameModel} {viewAtTarget : Bool}
    (hg : c._gameModel = some g) (h : c.handleUndo viewAtTarget = (true, c2)) :
    ∃ m, c._undoManager = some m ∧ (m.undo g).1 = true ∧
      c2._undoManager = some (m.undo g).2.1 ∧
      ∃ g2, c2._gameModel = some g2 ∧ g2.layout = (m.undo g).2.2.layout ∧
        g2.counters = (m.undo g).2.2.counters := by
  unfold handleUndo at h
  cases hrun : c._isGameRunning with
  | false => simp [hrun] at h
  | true =>
    cases hm : c._undoManager with
    | none => simp [hrun, hg, hm] at h
    | some m =>
      simp only [hrun, hg, hm, Bool.not_true, Bool.false_eq_true, if_false] at h
      cases hcan : g.canUndo with
      | false => simp [hcan] at h
      | true =>
        simp only [hcan, Bool.not_true, Bool.false_eq_true, if_false] at h
        cases hlast : m.getLastUndoAction with
        | none => simp [hlast] at h
        | some e =>
          simp only [hlast] at h
          cases hundo : (m.undo g).1 with
          | false => simp [hundo] at h
          | true =>
            simp only [hundo, if_true, Prod.mk.injEq, true_and] at h
            subst h
            exact ⟨m, rfl, hundo, rfl, _, rfl, (frame_updateViewAfterUndo _ _ _ _ _).1,
              (frame_updateViewAfterUndo _ _ _ _ _).2⟩

theorem executeCardMatch_layout {g : GameModel} (hwf : g.WellFormed)
    {playfieldCardId handCardId : Int} {p : CardPtr}
    (hp : g.getCardById playfieldCardId = some p) (hmem : p ∈ g._playfieldCards)
    (hexec : (GameRulesService.executeCardMatch g playfieldCardId handCardId).1 = true) :
    (GameRulesService.executeCardMatch g playfieldCardId handCardId).2.layout
      = (g.relocated p "hand").layout := by
  have hst : p ∉ g._stackCards ∧ p ∉ g._handCards := by
    rcases hwf.mem_cases (GameModel.getCardById_lt hp) with ⟨_, b, c, _⟩ | ⟨a, _⟩ | ⟨a, _⟩
    · exact ⟨b, c⟩
    · exact absurd hmem a
    · exact absurd hmem a
  unfold GameRulesService.executeCardMatch at hexec ⊢
  rw [hp] at hexec ⊢
  cases hh : g.getCardById handCardId with
  | none => rw [hh] at hexec; cases hexec
  | some q =>
    rw [hh] at hexec
    cases hm : GameRulesService.canCardsMatch (g.card? p) (g.card? q) with
    | false => simp [hm] at hexec
    | true =>
      simp only [hm, Bool.not_true, Bool.false_eq_true, if_false, GameModel.layout,
        GameModel.relocated, GameModel.modifyCard, List.erase_of_not_mem hst.1,
        List.erase_of_not_mem hst.2, Prod.mk.injEq]
      refine ⟨by simp, by simp, by simp, ?_⟩
      exact GameModel.map_updateCard_congr _ _ _ _ _ (fun _ => rfl)

/-- C8 (code evaluated at the failing input): on the running example game the
stock flip of the Nine succeeds, the undo succeeds and the redo succeeds and
leaves the card as the last element of the hand; but where the flip had made
the card face-up at `(800, 400)`, the redo leaves it face-down at its stock
position `(200, 400)`.  Likewise, after the match of the Five, undo and redo,
the card is the last element of the hand but lies at its tableau position
`(100, 300)`, not at `(800, 400)`. -/
theorem redo_does_not_restore_face_and_position :
    ((Examples.runningGame.handleStackCardFlip 3 0).1 = true ∧
      (Examples.afterFlip._gameModel.bind (fun g => g.card? 2)).map
          (fun c => (c._isFaceUp, c._position)) = some (true, ⟨800, 400⟩) ∧
      Examples.flipUndone.1 = true ∧
      Examples.flipRedone.1 = true ∧
      Examples.flipRedone.2.2._handCards.getLast? = some 2 ∧
      (Examples.flipRedone.2.2.card? 2).map (fun c => (c._isFaceUp, c._position))
        = some (false, ⟨200, 400⟩)) ∧
    ((Examples.runningGame.handleCardMatch 1 4 0).1 = true ∧
      (Examples.afterMatchModel.card? 0).map (fun c => (c._isFaceUp, c._position))
        = some (true, ⟨800, 400⟩) ∧
      Examples.matchUndone.1 = true ∧
      Examples.matchRedone.1 = true ∧
      Examples.matchRedone.2.2._handCards.getLast? = some 0 ∧
      (Examples.matchRedone.2.2.card? 0).map (fun c => (c._isFaceUp, c._position))
        = some (true, ⟨100, 300⟩)) := by
  decide

/-- C4 (as stated, refuted): in the game generated from `twoCardLevel` (built
deck order), the Queen of spades (id 51) is the top stock card and the King of
spades (id 52) the hand card.  `handleCardMatch(51, 52)` succeeds although card
51 is not in the tableau; afterwards id 51 occurs twice in
tableau ++ stock ++ hand, once in the stock and once in the hand. -/
theorem partition_counterexample :
    Examples.startedGame._gameModel.map (fun g => g.occurrences 51) = some 1 ∧
    (Examples.startedGame.handleCardMatch 51 52 0).1 = true ∧
    (Examples.startedGame.play [PlayerAction.cardMatch 51 52 0])._gameModel.map
      (fun g => (g.occurrences 51, g._stackCards.count 50, g._handCards.count 50))
      = some (2, 1, 1) := by
  decide

/-! #### The partition invariant along a game -/

theorem complete_of_layout {g g1 : GameModel} (h : g1.layout = g.layout)
    (hc : g.Complete) : g1.Complete :=
  ⟨GameModel.wellFormed_of_layout h hc.1, (GameModel.layout_ids h) ▸ hc.2⟩

theorem complete_relocated {g : GameModel} (hc : g.Complete) {p : CardPtr}
    (hp : p < g._allCards.length) {target : String} (ht : GameModel.isAreaName target) :
    (g.relocated p target).Complete :=
  ⟨GameModel.wellFormed_relocated hc.1 hp ht, (GameModel.ids_relocated g p target) ▸ hc.2⟩

theorem executeUndo_complete {e : UndoModel} {g : GameModel} (hc : g.Complete)
    (hfrom : GameModel.isAreaName e._fromPosition) : (e.executeUndo g).2.Complete := by
  unfold UndoModel.executeUndo
  split
  · exact hc
  · cases hp : g.getCardById e._cardId with
    | none => exact hc
    | some p =>
      simp only
      have hmod : ∀ (f : CardModel → CardModel), (∀ c, (f c)._cardId = c._cardId) →
          (∀ c, (f c)._cardArea = c._cardArea) → (g.modifyCard p f).Complete :=
        fun f h1 h2 => complete_of_layout (GameModel.layout_modifyCard g p f h1 h2) hc
      cases hE : e._actionType <;> simp only
      · exact hc
      · rw [GameModel.moveCardToArea_eq hc.1 hp hfrom]
        simp only [if_true]
        exact complete_of_layout
          (GameModel.layout_modifyCard _ _ _ (fun _ => rfl) (fun _ => rfl))
          (complete_relocated hc (GameModel.getCardById_lt hp) hfrom)
      · exact hmod _ (fun _ => rfl) (fun _ => rfl)
      · exact hc
      · exact hc
      · exact hmod _ (fun _ => rfl) (fun _ => rfl)
      · exact hmod _ (fun _ => rfl) (fun _ => rfl)

theorem undo_consistent {m : UndoManager} {g : GameModel} (hc : g.Complete)
    (hent : ∀ e ∈ m._undoHistory, GameModel.isAreaName e._fromPosition) :
    (m.undo g).2.2.Complete ∧
    ∀ e ∈ (m.undo g).2.1._undoHistory, GameModel.isAreaName e._fromPosition := by
  unfold UndoManager.undo
  split
  · exact ⟨hc, hent⟩
  · cases hlast : m._undoHistory.getLast? with
    | none => exact ⟨hc, hent⟩
    | some e =>
      simp only
      have hsplit : m._undoHistory.dropLast ++ [e] = m._undoHistory :=
        List.dropLast_append_getLast? e (by simp [hlast])
      have hmem : e ∈ m._undoHistory := by rw [← hsplit]; simp
      have hexec : ∀ m1 : UndoManager, (m1.executeUndoAction e g).2.Complete := by
        intro m1
        unfold UndoManager.executeUndoAction
        split
        · exact hc
        · exact executeUndo_complete hc (hent e hmem)
      split
      · refine ⟨hexec _, ?_⟩
        intro x hx
        exact hent x (List.mem_of_mem_dropLast hx)
      · refine ⟨hexec _, ?_⟩
        intro x hx
        simp only [hsplit] at hx
        exact hent x hx

theorem addUndoAction_entries {m : UndoManager} {E : UndoModel} {now : Int}
    (hent : ∀ e ∈ m._undoHistory, GameModel.isAreaName e._fromPosition)
    (hE : GameModel.isAreaName E._fromPosition) :
    ∀ e ∈ (m.addUndoAction E now).2._undoHistory, GameModel.isAreaName e._fromPosition := by
  unfold UndoManager.addUndoAction
  split_ifs
  · exact hent
  · exact hent
  · intro e he
    simp only [UndoManager.handleUndoHistoryOverflow, UndoManager.clearRedoHistory,
      UndoManager.evictOldest_eq_drop] at he
    have := List.mem_of_mem_drop he
    rcases List.mem_append.mp this with h | h
    · exact hent e h
    · have : e = { E with _timestamp := now } := by simpa using h
      rw [this]
      exact hE

theorem recordUndoAction_entries {c : GameController} (cardId : Int)
    {fromPosition : String} (toPosition : String) (now : Int)
    (hent : ∀ m, c._undoManager = some m → ∀ e ∈ m._undoHistory,
      GameModel.isAreaName e._fromPosition)
    (hfrom : GameModel.isAreaName fromPosition) :
    ∀ m, (c.recordUndoAction ActionType.ACTION_MOVE_CARD cardId fromPosition toPosition
        now)._undoManager = some m →
      ∀ e ∈ m._undoHistory, GameModel.isAreaName e._fromPosition := by
  unfold recordUndoAction
  split
  · rename_i undoManager g hm hg
    split
    · exact hent
    · intro m h
      simp only [Option.some.injEq] at h
      subst h
      exact addUndoAction_entries (hent _ hm) hfrom
  · exact hent

theorem executeCardMatch_false {g : GameModel} {playfieldCardId handCardId : Int}
    (h : (GameRulesService.executeCardMatch g playfieldCardId handCardId).1 = false) :
    (GameRulesService.executeCardMatch g playfieldCardId handCardId).2 = g := by
  unfold GameRulesService.executeCardMatch at h ⊢
  cases hp : g.getCardById playfieldCardId with
  | none => rfl
  | some p =>
    cases hh : g.getCardById handCardId with
    | none => rfl
    | some q =>
      rw [hp, hh] at h
      cases hm : GameRulesService.canCardsMatch (g.card? p) (g.card? q) with
      | false => simp [hm]
      | true => simp [hm] at h

theorem executeCardMatch_true_some {g : GameModel} {playfieldCardId handCardId : Int}
    (h : (GameRulesService.executeCardMatch g playfieldCardId handCardId).1 = true) :
    ∃ p, g.getCardById playfieldCardId = some p := by
  unfold GameRulesService.executeCardMatch at h
  cases hp : g.getCardById playfieldCardId with
  | none => rw [hp] at h; cases h
  | some p => exact ⟨p, rfl⟩

theorem handleCardMatch_consistent {c : GameController} {playfieldCardId handCardId now : Int}
    (hc : c.Consistent) (hn : c.namesTableauCard playfieldCardId = true) :
    (c.handleCardMatch playfieldCardId handCardId now).2.Consistent := by
  obtain ⟨⟨g, hg, hcomp⟩, hent⟩ := hc
  have hrec := recordUndoAction_entries playfieldCardId "hand" now hent (Or.inl rfl)
  unfold handleCardMatch
  cases hrun : c._isGameRunning with
  | false => exact ⟨⟨g, hg, hcomp⟩, hent⟩
  | true =>
    simp only [hg, Bool.not_true, Bool.false_eq_true, if_false]
    cases hexec : (GameRulesService.executeCardMatch g playfieldCardId handCardId).1 with
    | false =>
      simp only [Bool.false_eq_true, if_false]
      refine ⟨⟨g, ?_, hcomp⟩, hrec⟩
      rw [executeCardMatch_false hexec]
    | true =>
      simp only [if_true]
      refine ⟨⟨_, rfl, ?_⟩, hrec⟩
      obtain ⟨p, hp⟩ := executeCardMatch_true_some hexec
      have hmem : p ∈ g._playfieldCards := by
        simpa [namesTableauCard, hg, hp] using hn
      refine complete_of_layout ?_
        (complete_relocated hcomp (GameModel.getCardById_lt hp) (Or.inr (Or.inr rfl)))
      exact (frame_checkGameEndCondition _).1.trans
        ((frame_checkAndFlipCardsBelow _ _).1.trans
          ((frame_placeNewHandCard _ _ _ _).1.trans
            (executeCardMatch_layout hcomp.1 hp hmem hexec)))

theorem handleStackCardFlip_consistent {c : GameController} {stackCardId now : Int}
    (hc : c.Consistent) : (c.handleStackCardFlip stackCardId now).2.Consistent := by
  obtain ⟨⟨g, hg, hcomp⟩, hent⟩ := hc
  have hrec := recordUndoAction_entries stackCardId "hand" now hent (Or.inr (Or.inl rfl))
  unfold handleStackCardFlip
  cases hrun : c._isGameRunning with
  | false => exact ⟨⟨g, hg, hcomp⟩, hent⟩
  | true =>
    simp only [hg, Bool.not_true, Bool.false_eq_true, if_false]
    cases hp : g.getCardById stackCardId with
    | none => exact ⟨⟨g, hg, hcomp⟩, hent⟩
    | some p =>
      cases htop : g.getTopHandCard with
      | none => exact ⟨⟨g, hg, hcomp⟩, hent⟩
      | some t =>
        simp only [GameModel.moveCardToArea_eq hcomp.1 hp (Or.inr (Or.inr rfl)), if_true]
        refine ⟨⟨_, rfl, ?_⟩, hrec⟩
        refine complete_of_layout ?_
          (complete_relocated hcomp (GameModel.getCardById_lt hp) (Or.inr (Or.inr rfl)))
        refine (frame_checkGameEndCondition _).1.trans
          ((frame_raiseHandCard _ _ _ _ _).1.trans ?_)
        exact GameModel.layout_modifyCard _ _ _ (fun _ => rfl) (fun _ => rfl)

theorem handleUndo_consistent {c : GameController} {viewAtTarget : Bool}
    (hc : c.Consistent) : (c.handleUndo viewAtTarget).2.Consistent := by
  obtain ⟨⟨g, hg, hcomp⟩, hent⟩ := hc
  unfold handleUndo
  cases hrun : c._isGameRunning with
  | false => exact ⟨⟨g, hg, hcomp⟩, hent⟩
  | true =>
    cases hm : c._undoManager with
    | none => simp only [hg]; exact ⟨⟨g, hg, hcomp⟩, fun m h => hent m (hm ▸ h)⟩
    | some m =>
      simp only [hg, Bool.not_true, Bool.false_eq_true, if_false]
      have hkeep : c.Consistent := ⟨⟨g, hg, hcomp⟩, hent⟩
      have hu := undo_consistent hcomp (hent m hm)
      split
      · exact hkeep
      · cases hlast : m.getLastUndoAction with
        | none => exact hkeep
        | some e =>
          simp only
          split
          · refine ⟨⟨_, rfl, ?_⟩, ?_⟩
            · exact complete_of_layout (frame_updateViewAfterUndo _ _ _ _ _).1 hu.1
            · intro m2 h2
              simp only [Option.some.injEq] at h2
              subst h2
              exact hu.2
          · refine ⟨⟨_, rfl, hu.1⟩, ?_⟩
            intro m2 h2
            simp only [Option.some.injEq] at h2
            subst h2
            exact hu.2

theorem play_consistent :
    ∀ (actions : List PlayerAction) (c : GameController), c.Consistent →
      c.matchesTableauOnly actions = true → (c.play actions).Consistent := by
  intro actions
  induction actions with
  | nil => intro c hc _; exact hc
  | cons action rest ih =>
    intro c hc hadm
    unfold play
    rw [List.foldl_cons]
    cases action with
    | cardMatch playfieldCardId handCardId now =>
      simp only [matchesTableauOnly, Bool.and_eq_true] at hadm
      exact ih _ (handleCardMatch_consistent hc hadm.1) hadm.2
    | stackCardFlip stackCardId now =>
      simp only [matchesTableauOnly] at hadm
      exact ih _ (handleStackCardFlip_consistent hc) hadm
    | undo viewAtTarget =>
      simp only [matchesTableauOnly] at hadm
      exact ih _ (handleUndo_consistent hc) hadm

theorem init_undoHistory (gameModel : Bool) (maxUndoCount : Int) :
    (UndoManager.new.init gameModel maxUndoCount).2._undoHistory = [] := by
  unfold UndoManager.init
  simp only
  split_ifs <;> rfl

theorem initGame_consistent {c c1 : GameController} {levelId : Int} {resourcesOk : Bool}
    {shuffle : List CardModel → List CardModel}
    (hshuffle : (shuffle GameModelGenerator.orderedDeck).Perm GameModelGenerator.orderedDeck)
    {levelConfig : Option LevelConfig} {view : Option GameView}
    (h : c.initGame levelId resourcesOk shuffle levelConfig view = (true, c1)) :
    c1.Consistent := by
  unfold initGame at h
  split at h
  · cases h
  · split at h
    · cases h
    · cases hgen : GameModelGenerator.generateGameModel shuffle levelConfig with
      | none => simp [hgen] at h
      | some gm =>
        have hcomp := GameModelGenerator.generateGameModel_complete hshuffle hgen
        simp only [hgen] at h
        split at h
        · cases h
        · cases view with
          | none => cases h
          | some v =>
            simp only [Prod.mk.injEq, true_and] at h
            subst h
            refine ⟨⟨gm, rfl, hcomp⟩, ?_⟩
            intro m hm
            simp only [Option.some.injEq] at hm
            subst hm
            rw [init_undoHistory]
            intro e he
            cases he

theorem startGame_consistent {c c0 : GameController} (hc : c.Consistent)
    (h : c.startGame = (true, c0)) : c0.Consistent := by
  obtain ⟨⟨g, hg, hcomp⟩, hent⟩ := hc
  unfold startGame at h
  rw [hg] at h
  cases hv : c._gameView with
  | none => rw [hv] at h; cases h
  | some v =>
    rw [hv] at h
    simp only at h
    split at h
    · cases h
    · simp only [Prod.mk.injEq, true_and] at h
      subst h
      exact ⟨⟨_, rfl, complete_of_layout rfl hcomp⟩, hent⟩

theorem occurrences_of_complete {g : GameModel} (hc : g.Complete) {cardId : Int}
    (h1 : 1 ≤ cardId) (h2 : cardId ≤ 52) : g.occurrences cardId = 1 := by
  have hmem : cardId ∈ g._allCards.map CardModel._cardId :=
    (hc.2.mem_iff).mpr (GameModelGenerator.mem_deckIds.mpr ⟨h1, h2⟩)
  obtain ⟨card, hcard, hid⟩ := List.mem_map.mp hmem
  obtain ⟨p, hp⟩ := List.mem_iff_getElem?.mp hcard
  have hhas : g.hasId cardId p = true := GameModel.hasId_iff.mpr ⟨card, hp, hid⟩
  have hget := GameModel.getCardById_of_hasId hc.1.1 hhas
  have hfun : g.hasId cardId = fun q => q == p := by
    rw [GameModel.hasId_eq_beq hc.1.1 hget]
    funext q
    by_cases hq : p = q
    · subst hq; simp
    · have hq2 : ¬ q = p := fun h => hq h.symm
      simp [hq, hq2]
  unfold GameModel.occurrences
  rw [hfun, ← List.countP_eq_length_filter]
  exact List.count_eq_one_of_mem hc.1.nodup (hc.1.mem_stored (GameModel.getCardById_lt hget))

theorem stored_length_of_complete {g : GameModel} (hc : g.Complete) :
    g.storedCards.length = 52 := by
  have h1 : g.storedCards.length = g._allCards.length := by
    rw [hc.1.2.2.1.length_eq, List.length_range]
  have h2 : g._allCards.length = 52 := by
    have := hc.2.length_eq
    simpa [GameModel.deckIds] using this
  rw [h1, h2]

/-- C4 (amended): start from the state `initGame` builds with the model
generator (the shuffle permuting the deck) and `startGame`; run any finite
sequence of `handleCardMatch`, `handleStackCardFlip` and `handleUndo` calls with
arbitrary integer arguments, except that the first id of each `handleCardMatch`
names, when it names a card at all, a card stored in the tableau.  Then every id
`1 .. 52` occurs exactly once in tableau ++ stock ++ hand, which holds 52 cards,
and the area tag of every stored card names the sequence that stores it. -/
theorem partition_invariant (shuffle : List CardModel → List CardModel)
    (hshuffle : (shuffle GameModelGenerator.orderedDeck).Perm GameModelGenerator.orderedDeck)
    (levelId : Int) (resourcesOk : Bool) (levelConfig : Option LevelConfig)
    (view : Option GameView) (c1 c0 : GameController)
    (hinit : GameController.new.initGame levelId resourcesOk shuffle levelConfig view
      = (true, c1))
    (hstart : c1.startGame = (true, c0))
    (actions : List PlayerAction) (hadm : c0.matchesTableauOnly actions = true) :
    ∃ g, (c0.play actions)._gameModel = some g ∧
      (∀ cardId : Int, 1 ≤ cardId → cardId ≤ 52 → g.occurrences cardId = 1) ∧
      g.storedCards.length = 52 ∧
      (∀ p ∈ g._playfieldCards, g.areaOf p = "playfield") ∧
      (∀ p ∈ g._stackCards, g.areaOf p = "stack") ∧
      (∀ p ∈ g._handCards, g.areaOf p = "hand") := by
  have h0 := startGame_consistent (initGame_consistent hshuffle hinit) hstart
  obtain ⟨⟨g, hg, hcomp⟩, _⟩ := play_consistent actions c0 h0 hadm
  exact ⟨g, hg, fun cardId h1 h2 => occurrences_of_complete hcomp h1 h2,
    stored_length_of_complete hcomp, hcomp.1.2.2.2.1, hcomp.1.2.2.2.2.1, hcomp.1.2.2.2.2.2⟩

theorem partition_invariant_witness :
    ∃ g, (Examples.startedGame.play
        [PlayerAction.stackCardFlip 15 0, PlayerAction.cardMatch 1 15 1,
         PlayerAction.undo false])._gameModel = some g ∧
      (∀ cardId : Int, 1 ≤ cardId → cardId ≤ 52 → g.occurrences cardId = 1) ∧
      g.storedCards.length = 52 ∧
      (∀ p ∈ g._playfieldCards, g.areaOf p = "playfield") ∧
      (∀ p ∈ g._stackCards, g.areaOf p = "stack") ∧
      (∀ p ∈ g._handCards, g.areaOf p = "hand") :=
  partition_invariant id (List.Perm.refl _) 1 true (some Examples.twoCardLevel)
    (some Examples.fullView)
    (GameController.new.initGame 1 true id (some Examples.twoCardLevel)
      (some Examples.fullView)).2
    Examples.startedGame (by decide) (by decide)
    [PlayerAction.stackCardFlip 15 0, PlayerAction.cardMatch 1 15 1, PlayerAction.undo false]
    (by decide)

/-- C7 (as stated, refuted): on the running example game, matching the Five
with the Six succeeds and the `handleUndo` that follows succeeds, yet the
counters are `(100, 1)` afterwards, not the `(0, 0)` they were before. -/
theorem undo_restores_counters_counterexample :
    (Examples.runningGame.handleCardMatch 1 4 0).1 = true ∧
    ((Examples.runningGame.handleCardMatch 1 4 0).2.handleUndo false).1 = true ∧
    Examples.runningGame._gameModel.map GameModel.counters = some (0, 0) ∧
    ((Examples.runningGame.handleCardMatch 1 4 0).2.handleUndo false).2._gameModel.map
      GameModel.counters = some (100, 1) := by
  decide

/-- C7 (amended): when `handleCardMatch` succeeds and the `handleUndo` called
right after it succeeds, `_score` and `_movesCount` still have the values the
match gave them, the old score plus 100 and the old move count plus 1; the
undo reverses neither. -/
theorem undo_keeps_counters (c c1 c2 : GameController) (g : GameModel)
    (playfieldCardId handCardId now : Int) (viewAtTarget : Bool)
    (hg : c._gameModel = some g)
    (hmatch : c.handleCardMatch playfieldCardId handCardId now = (true, c1))
    (hundo : c1.handleUndo viewAtTarget = (true, c2)) :
    ∃ g2, c2._gameModel = some g2 ∧ g2._score = g._score + 100 ∧
      g2._movesCount = g._movesCount + 1 := by
  obtain ⟨hexec, _, _, _, g1, hg1, _, hc1⟩ := handleCardMatch_true hg hmatch
  obtain ⟨m, _, _, _, g2, hg2, _, hc2⟩ := handleUndo_true hg1 hundo
  have hs := GameRulesService.executeCardMatch_true_score g playfieldCardId handCardId hexec
  have hcount : g2.counters = (g._score + 100, g._movesCount + 1) := by
    rw [hc2, UndoManager.counters_undo, hc1]
    simp only [GameModel.counters, hs.1, hs.2]
  simp only [GameModel.counters, Prod.mk.injEq] at hcount
  exact ⟨g2, hg2, hcount.1, hcount.2⟩

theorem undo_keeps_counters_witness :
    ∃ g2, ((Examples.runningGame.handleCardMatch 1 4 0).2.handleUndo false).2._gameModel
        = some g2 ∧
      g2._score = Examples.smallGame._score + 100 ∧
      g2._movesCount = Examples.smallGame._movesCount + 1 :=
  undo_keeps_counters Examples.runningGame (Examples.runningGame.handleCardMatch 1 4 0).2
    ((Examples.runningGame.handleCardMatch 1 4 0).2.handleUndo false).2
    Examples.smallGame 1 4 0 false rfl (by decide) (by decide)

end GameController

/-! ### Stars, lifecycle and the end-of-game check -/

namespace GameModel

/-- C16 (as stated): the four clauses of the claim, read on the score of a
game state, do not all hold: at score 1400, which is none of the three listed
ranges, `calculateStars` returns 1 and not 0. -/
theorem calculateStars_claimed_ranges_counterexample :
    ¬ ∀ g : GameModel,
      (1800 ≤ g._score → g.calculateStars = 3) ∧
      (1400 < g._score ∧ g._score < 1800 → g.calculateStars = 2) ∧
      (1000 ≤ g._score ∧ g._score < 1400 → g.calculateStars = 1) ∧
      (¬ 1800 ≤ g._score ∧ ¬ (1400 < g._score ∧ g._score < 1800) ∧
        ¬ (1000 ≤ g._score ∧ g._score < 1400) → g.calculateStars = 0) := by
  intro h
  have h0 := (h { GameModel.new with _score := 1400 }).2.2.2
  revert h0
  decide

/-- C16 (amended): `calculateStars` returns 3 exactly for scores of at least
1800, 2 exactly for scores above 1400 and below 1800, 1 exactly for scores from
1000 to 1400 inclusive, and 0 exactly for scores below 1000. -/
theorem calculateStars_ranges (g : GameModel) :
    (g.calculateStars = 3 ↔ 1800 ≤ g._score) ∧
    (g.calculateStars = 2 ↔ 1400 < g._score ∧ g._score < 1800) ∧
    (g.calculateStars = 1 ↔ 1000 ≤ g._score ∧ g._score ≤ 1400) ∧
    (g.calculateStars = 0 ↔ g._score < 1000) := by
  unfold calculateStars
  refine ⟨?_, ?_, ?_, ?_⟩ <;> split_ifs <;> constructor <;> intro h <;> omega

theorem calculateStars_ranges_witness :
    ({ GameModel.new with _score := 1400 } : GameModel).calculateStars = 1 :=
  (calculateStars_ranges { GameModel.new with _score := 1400 }).2.2.1.mpr
    ⟨by decide, by decide⟩

/-- C17: whatever the rest of the game state, `calculateStars` returns 0 at
score 999, 1 at 1000, 1 at 1399, 1 at 1400, 2 at 1401 and 3 at 1800. -/
theorem calculateStars_boundaries (g : GameModel) :
    ({ g with _score := 999 } : GameModel).calculateStars = 0 ∧
    ({ g with _score := 1000 } : GameModel).calculateStars = 1 ∧
    ({ g with _score := 1399 } : GameModel).calculateStars = 1 ∧
    ({ g with _score := 1400 } : GameModel).calculateStars = 1 ∧
    ({ g with _score := 1401 } : GameModel).calculateStars = 2 ∧
    ({ g with _score := 1800 } : GameModel).calculateStars = 3 := by
  refine ⟨?_, ?_, ?_, ?_, ?_, ?_⟩ <;> simp [calculateStars]

theorem isGameFinished_iff (g : GameModel) :
    g.isGameFinished = true ↔
      g._gameState = GameState.GAME_STATE_FINISHED ∨
      g._gameState = GameState.GAME_STATE_GAME_OVER := by
  simp [isGameFinished]

end GameModel

namespace GameController

/-- C15: `isGameWon()` holds exactly when the lifecycle is Finished or GameOver
and the score has reached the target, `isGameLost()` exactly when the lifecycle
is Finished or GameOver and the score is below the target; so exactly one of
the two holds in an ended state, neither holds in a state that has not ended,
an ended state with an empty tableau and a score below the target is lost, and
so is the state the end-of-game check makes of a state in play with an empty
tableau and a score below the target. -/
theorem isGameWon_isGameLost_spec (g : GameModel) :
    (g.isGameWon = true ↔
      (g._gameState = GameState.GAME_STATE_FINISHED ∨
        g._gameState = GameState.GAME_STATE_GAME_OVER) ∧ g._targetScore ≤ g._score) ∧
    (g.isGameLost = true ↔
      (g._gameState = GameState.GAME_STATE_FINISHED ∨
        g._gameState = GameState.GAME_STATE_GAME_OVER) ∧ g._score < g._targetScore) ∧
    (g.isGameFinished = true → (g.isGameWon = true ↔ g.isGameLost = false)) ∧
    (g.isGameFinished = false → g.isGameWon = false ∧ g.isGameLost = false) ∧
    (g.isGameFinished = true → g._playfieldCards = [] → g._score < g._targetScore →
      g.isGameLost = true ∧ g.isGameWon = false) ∧
    (g.isGameFinished = false → g._playfieldCards = [] → g._score < g._targetScore →
      (checkGameEndCondition g).2.isGameLost = true ∧
      (checkGameEndCondition g).2.isGameWon = false) := by
  have hwon : g.isGameWon = true ↔
      (g._gameState = GameState.GAME_STATE_FINISHED ∨
        g._gameState = GameState.GAME_STATE_GAME_OVER) ∧ g._targetScore ≤ g._score := by
    simp [GameModel.isGameWon]
  have hlost : g.isGameLost = true ↔
      (g._gameState = GameState.GAME_STATE_FINISHED ∨
        g._gameState = GameState.GAME_STATE_GAME_OVER) ∧ g._score < g._targetScore := by
    simp [GameModel.isGameLost]
    tauto
  have hfin := GameModel.isGameFinished_iff g
  refine ⟨hwon, hlost, ?_, ?_, ?_, ?_⟩
  · intro h
    have hs := hfin.mp h
    rw [← Bool.not_eq_true, hwon, hlost]
    constructor
    · rintro ⟨_, h1⟩ ⟨_, h2⟩
      omega
    · intro h1
      exact ⟨hs, by by_contra h2; exact h1 ⟨hs, by omega⟩⟩
  · intro h
    have hs : ¬ (g._gameState = GameState.GAME_STATE_FINISHED ∨
        g._gameState = GameState.GAME_STATE_GAME_OVER) := by
      rw [← hfin, h]; simp
    rw [← Bool.not_eq_true, ← Bool.not_eq_true, hwon, hlost]
    exact ⟨fun h1 => hs h1.1, fun h1 => hs h1.1⟩
  · intro h _ hlt
    have hs := hfin.mp h
    rw [← Bool.not_eq_true, hwon, hlost]
    exact ⟨⟨hs, hlt⟩, fun h1 => by omega⟩
  · intro h hempty hlt
    simp [checkGameEndCondition, h, GameRulesService.checkGameWon, hempty,
      GameModel.isGameLost, GameModel.isGameWon, hlt]

theorem isGameWon_isGameLost_spec_witness :
    Examples.endedBelowTarget.isGameLost = true ∧
    Examples.endedBelowTarget.isGameWon = false :=
  (isGameWon_isGameLost_spec Examples.clearedBelowTarget).2.2.2.2.2
    (by decide) (by decide) (by decide)

end GameController

namespace GameController

/-- C14 (as stated): the end-of-game check run on a state in play whose tableau
is empty and whose score, 200, is below the target, 1000, sets the lifecycle to
Finished and not to GameOver. -/
theorem checkGameEndCondition_counterexample :
    Examples.clearedBelowTarget.isGameFinished = false ∧
    Examples.clearedBelowTarget._playfieldCards = [] ∧
    Examples.clearedBelowTarget._score < Examples.clearedBelowTarget._targetScore ∧
    (checkGameEndCondition Examples.clearedBelowTarget).2._gameState
      = GameState.GAME_STATE_FINISHED ∧
    (checkGameEndCondition Examples.clearedBelowTarget).2._gameState
      ≠ GameState.GAME_STATE_GAME_OVER := by
  decide

/-- C14 (amended): on a state whose lifecycle is neither Finished nor GameOver
the end-of-game check sets the lifecycle to Finished exactly when the tableau
is empty, whatever the score, and to GameOver exactly when the tableau is not
empty and `checkGameLost` holds; it returns `true` exactly in these two cases
and writes no other field; when neither `checkGameWon` nor `checkGameLost`
holds it returns `false` and leaves the state as it was. -/
theorem checkGameEndCondition_spec (g : GameModel) (h : g.isGameFinished = false) :
    ((checkGameEndCondition g).2._gameState = GameState.GAME_STATE_FINISHED ↔
      g._playfieldCards = []) ∧
    ((checkGameEndCondition g).2._gameState = GameState.GAME_STATE_GAME_OVER ↔
      g._playfieldCards ≠ [] ∧ GameRulesService.checkGameLost g = true) ∧
    ((checkGameEndCondition g).1 = true ↔
      g._playfieldCards = [] ∨ GameRulesService.checkGameLost g = true) ∧
    ({ (checkGameEndCondition g).2 with _gameState := g._gameState } : GameModel) = g ∧
    (GameRulesService.checkGameWon g = false → GameRulesService.checkGameLost g = false →
      checkGameEndCondition g = (false, g)) := by
  have hs : ¬ (g._gameState = GameState.GAME_STATE_FINISHED ∨
      g._gameState = GameState.GAME_STATE_GAME_OVER) := by
    rw [← GameModel.isGameFinished_iff, h]; simp
  have hwon : GameRulesService.checkGameWon g = true ↔ g._playfieldCards = [] := by
    simp [GameRulesService.checkGameWon]
  by_cases hw : GameRulesService.checkGameWon g = true
  · have he := hwon.mp hw
    have hE : checkGameEndCondition g
        = (true, { g with _gameState := GameState.GAME_STATE_FINISHED }) := by
      simp [checkGameEndCondition, h, hw]
    rw [hE]
    refine ⟨by simp [he], by simp [he], by simp [he], rfl, ?_⟩
    intro h1
    rw [hw] at h1
    cases h1
  · have he : g._playfieldCards ≠ [] := fun he => hw (hwon.mpr he)
    by_cases hl : GameRulesService.checkGameLost g = true
    · have hE : checkGameEndCondition g
          = (true, { g with _gameState := GameState.GAME_STATE_GAME_OVER }) := by
        simp [checkGameEndCondition, h, hw, hl]
      rw [hE]
      refine ⟨by simp [he], by simp [he, hl], by simp [hl], rfl, ?_⟩
      intro _ h1
      rw [hl] at h1
      cases h1
    · have hE : checkGameEndCondition g = (false, g) := by
        simp [checkGameEndCondition, h, hw, hl]
      rw [hE]
      refine ⟨?_, ?_, by simp [he, hl], rfl, fun _ _ => rfl⟩
      · exact ⟨fun h1 => absurd (Or.inl h1) hs, fun h1 => absurd h1 he⟩
      · exact ⟨fun h1 => absurd (Or.inr h1) hs, fun h1 => absurd h1.2 hl⟩

theorem checkGameEndCondition_spec_witness :
    (checkGameEndCondition Examples.clearedBelowTarget).2._gameState
      = GameState.GAME_STATE_FINISHED :=
  (checkGameEndCondition_spec Examples.clearedBelowTarget (by decide)).1.mpr (by decide)

/-- C18 (as stated): `startGame` turns a Finished state into a Playing one,
and `endGame` turns a GameOver state into a Finished one. -/
theorem terminal_states_counterexample :
    Examples.endedBelowTarget._gameState = GameState.GAME_STATE_FINISHED ∧
    Examples.endedBelowTarget.startGame._gameState = GameState.GAME_STATE_PLAYING ∧
    Examples.lostGame._gameState = GameState.GAME_STATE_GAME_OVER ∧
    Examples.lostGame.startGame._gameState = GameState.GAME_STATE_PLAYING ∧
    Examples.lostGame.endGame._gameState = GameState.GAME_STATE_FINISHED := by
  decide

/-- C18 (amended): in a state whose lifecycle is Finished or GameOver,
`pauseGame`, `resumeGame` and the end-of-game check leave the whole state as it
was (the check returns `true`); `endGame` sets the lifecycle to Finished, which
keeps Finished and turns GameOver into Finished, and `startGame` sets it to
Playing. -/
theorem terminal_states (g : GameModel) (h : g.isGameFinished = true) :
    g.pauseGame = g ∧ g.resumeGame = g ∧ checkGameEndCondition g = (true, g) ∧
    g.endGame._gameState = GameState.GAME_STATE_FINISHED ∧
    (g._gameState = GameState.GAME_STATE_FINISHED → g.endGame = g) ∧
    g.startGame._gameState = GameState.GAME_STATE_PLAYING := by
  have hs := (GameModel.isGameFinished_iff g).mp h
  refine ⟨?_, ?_, ?_, rfl, ?_, rfl⟩
  · unfold GameModel.pauseGame
    rcases hs with hs | hs <;> simp [hs]
  · unfold GameModel.resumeGame
    rcases hs with hs | hs <;> simp [hs]
  · simp [checkGameEndCondition, h]
  · intro hf
    unfold GameModel.endGame
    rw [← hf]

theorem terminal_states_witness :
    Examples.lostGame.pauseGame = Examples.lostGame ∧
    Examples.lostGame.resumeGame = Examples.lostGame ∧
    checkGameEndCondition Examples.lostGame = (true, Examples.lostGame) ∧
    Examples.lostGame.endGame._gameState = GameState.GAME_STATE_FINISHED ∧
    (Examples.lostGame._gameState = GameState.GAME_STATE_FINISHED →
      Examples.lostGame.endGame = Examples.lostGame) ∧
    Examples.lostGame.startGame._gameState = GameState.GAME_STATE_PLAYING :=
  terminal_states Examples.lostGame (by decide)

end GameController

/-! ### Card validity, the history bound, the loss check and the top-of-column test -/

namespace CardModel

/-- C19: `isValid()` holds exactly when the id is positive, the suit is HEARTS
(2) or SPADES (3) and the rank is within 0..12; the Ace of clubs with id 1, the
first card the generator builds, is therefore not valid, and only 26 of the 52
cards of the generator's deck are. -/
theorem isValid_rejects_clubs_and_diamonds :
    (∀ c : CardModel, c.isValid = true ↔
      0 < c._cardId ∧ 2 ≤ c._suit ∧ c._suit ≤ 3 ∧ 0 ≤ c._rank ∧ c._rank ≤ 12) ∧
    GameModelGenerator.orderedDeck.head? = some (CardModel.mk3 0 0 1) ∧
    (CardModel.mk3 0 0 1).isValid = false ∧
    (CardModel.mk3 1 12 26).isValid = false ∧
    GameModelGenerator.orderedDeck.length = 52 ∧
    (GameModelGenerator.orderedDeck.filter isValid).length = 26 ∧
    (∀ c ∈ GameModelGenerator.orderedDeck,
      0 < c._cardId ∧ 0 ≤ c._suit ∧ c._suit ≤ 3 ∧ 0 ≤ c._rank ∧ c._rank ≤ 12) := by
  refine ⟨?_, by decide, by decide, by decide, by decide, by decide, by decide⟩
  intro c
  simp [isValid, and_assoc]

end CardModel

namespace UndoManager

theorem length_evictOldest (max : Nat) (l : List UndoModel) :
    (evictOldest max l).length ≤ max ∧ (evictOldest max l).length ≤ l.length := by
  rw [evictOldest_eq_drop, List.length_drop]
  omega

theorem bounded_evict (m : UndoManager) (h0 : 0 ≤ m._maxUndoCount) (l : List UndoModel) :
    ((evictOldest (toSize m._maxUndoCount) l).length : Int) ≤ m._maxUndoCount := by
  have h := (length_evictOldest (toSize m._maxUndoCount) l).1
  rw [toSize_of_nonneg h0] at h ⊢
  have h1 := Int.toNat_of_nonneg h0
  omega

theorem length_dropLast_getLast? (l : List UndoModel) (e : UndoModel)
    (h : l.getLast? = some e) : l.dropLast.length + 1 = l.length := by
  have hsplit : l.dropLast ++ [e] = l := List.dropLast_append_getLast? e (by simp [h])
  conv_rhs => rw [← hsplit]
  simp

theorem perform_bounded (m : UndoManager) (g : GameModel) (call : Call)
    (h0 : 0 ≤ m._maxUndoCount) (hb : m.Bounded) (hcall : boundsNonneg [call] = true) :
    0 ≤ (perform (m, g) call).1._maxUndoCount ∧ (perform (m, g) call).1.Bounded := by
  obtain ⟨hu, hr⟩ := hb
  cases call with
  | addUndoAction undoModel now =>
    simp only [perform, addUndoAction]
    split_ifs
    · exact ⟨h0, hu, hr⟩
    · exact ⟨h0, hu, hr⟩
    · refine ⟨h0, ?_, ?_⟩
      · exact bounded_evict m h0 _
      · simpa [clearRedoHistory, handleUndoHistoryOverflow] using h0
  | undo =>
    simp only [perform, undo]
    split_ifs
    · exact ⟨h0, hu, hr⟩
    · cases hl : m._undoHistory.getLast? with
      | none => exact ⟨h0, hu, hr⟩
      | some e =>
        have hlen := length_dropLast_getLast? _ _ hl
        simp only
        split_ifs
        · refine ⟨h0, ?_, ?_⟩
          · simp only [handleRedoHistoryOverflow]
            omega
          · exact bounded_evict m h0 _
        · refine ⟨h0, ?_, hr⟩
          simp only [List.length_append, List.length_singleton]
          omega
  | redo =>
    simp only [perform, redo]
    split_ifs
    · exact ⟨h0, hu, hr⟩
    · cases hl : m._redoHistory.getLast? with
      | none => exact ⟨h0, hu, hr⟩
      | some e =>
        have hlen := length_dropLast_getLast? _ _ hl
        simp only
        split_ifs
        · refine ⟨h0, ?_, ?_⟩
          · exact bounded_evict m h0 _
          · simp only [handleUndoHistoryOverflow]
            omega
        · refine ⟨h0, hu, ?_⟩
          simp only [List.length_append, List.length_singleton]
          omega
  | setMaxUndoCount maxCount =>
    have hn : 0 ≤ maxCount := by simpa [boundsNonneg] using hcall
    refine ⟨hn, ?_, ?_⟩
    · exact bounded_evict { m with _maxUndoCount := maxCount } hn _
    · exact bounded_evict { m with _maxUndoCount := maxCount } hn _
  | clearUndoHistory => exact ⟨h0, by simpa [perform, clearUndoHistory] using h0, hr⟩
  | clearRedoHistory => exact ⟨h0, hu, by simpa [perform, clearRedoHistory] using h0⟩

theorem boundsNonneg_cons (call : Call) (rest : List Call)
    (h : boundsNonneg (call :: rest) = true) :
    boundsNonneg [call] = true ∧ boundsNonneg rest = true := by
  cases call <;> simp_all [boundsNonneg]

/-- After a successful `init`, every sequence of `addUndoAction`, `undo`,
`redo`, `setMaxUndoCount`, `clearUndoHistory` and `clearRedoHistory` calls in
which no `setMaxUndoCount` passes a negative bound leaves both stacks with at
most `_maxUndoCount` entries. -/
theorem performAll_bounded (calls : List Call) :
    ∀ (m : UndoManager) (g : GameModel), 0 ≤ m._maxUndoCount → m.Bounded →
      boundsNonneg calls = true → (performAll (m, g) calls).1.Bounded := by
  induction calls with
  | nil => intro m g _ hb _; exact hb
  | cons call rest ih =>
    intro m g h0 hb hcalls
    obtain ⟨h1, h2⟩ := boundsNonneg_cons call rest hcalls
    have hstep := perform_bounded m g call h0 hb h1
    exact ih (perform (m, g) call).1 (perform (m, g) call).2 hstep.1 hstep.2 h2

theorem init_bounded (m m1 : UndoManager) (gameModel : Bool) (maxUndoCount : Int)
    (hempty : m._undoHistory = [] ∧ m._redoHistory = [])
    (h : m.init gameModel maxUndoCount = (true, m1)) :
    0 ≤ m1._maxUndoCount ∧ m1.Bounded := by
  unfold init at h
  simp only at h
  split_ifs at h with h1 h2
  · cases h
  · cases h
  · simp only [Prod.mk.injEq, true_and] at h
    subst h
    have hpos : 0 < maxUndoCount := by
      simp only [validateManagerState, Bool.not_eq_true, Bool.and_eq_false_imp] at h2
      by_contra hneg
      simp_all
    exact ⟨le_of_lt hpos, by simp [Bounded, hempty.1, le_of_lt hpos],
      by simp [Bounded, hempty.2, le_of_lt hpos]⟩

end UndoManager

namespace UndoManager

/-- C11: after a successful `init` with bound 10, one `addUndoAction` and
`setMaxUndoCount(-1)`, the bound is -1 and the undo stack still holds the
recorded entry: its length, 1, exceeds the current `maxUndoCount`. -/
theorem setMaxUndoCount_negative_keeps_entries :
    (UndoManager.new.init true 10).1 = true ∧
    (performAll (Examples.initialisedManager, Examples.smallGame)
      Examples.negativeBoundCalls).1._maxUndoCount = -1 ∧
    (performAll (Examples.initialisedManager, Examples.smallGame)
      Examples.negativeBoundCalls).1._undoHistory.length = 1 ∧
    ¬ (performAll (Examples.initialisedManager, Examples.smallGame)
      Examples.negativeBoundCalls).1.Bounded := by
  decide

end UndoManager

namespace GameRulesService

/-- C13: in the state `coveredFive` the stock is empty and no tableau card is
at once face-up, top of its column and a match for the hand card (the only
match, the Five, lies under the King), yet `checkGameLost` returns `false`:
`hasAvailableMoves` counts the covered Five. -/
theorem checkGameLost_ignores_covering :
    Examples.coveredFive._stackCards = [] ∧
    Examples.coveredFive._handCards.getLast? = some 2 ∧
    (Examples.coveredFive._playfieldCards.any (fun p =>
      matchesHand Examples.coveredFive 2 p &&
        GameController.isTopCardInColumn Examples.coveredFive p)) = false ∧
    hasAvailableMoves Examples.coveredFive = true ∧
    checkGameLost Examples.coveredFive = false := by
  decide

end GameRulesService

namespace GameController

theorem isTopCardInColumnFrom_iff (g : GameModel) (card : CardPtr) (l : List CardPtr) :
    isTopCardInColumnFrom g card l = true ↔ ∀ q ∈ l, coversInColumn g card q = false := by
  induction l with
  | nil => simp [isTopCardInColumnFrom]
  | cons q rest ih =>
    unfold isTopCardInColumnFrom
    by_cases hq : coversInColumn g card q = true
    · simp [hq]
    · simp only [hq, Bool.false_eq_true, if_false, ih, List.mem_cons, forall_eq_or_imp]
      simp [hq]

theorem isTopCardFrom_eq (g : GameModel) (card : CardPtr) (l : List CardPtr) :
    HelloWorld.isTopCardFrom g card true l = isTopCardInColumnFrom g card l := by
  induction l with
  | nil => rfl
  | cons q rest ih =>
    unfold HelloWorld.isTopCardFrom isTopCardInColumnFrom
    rw [ih]

theorem coversInColumn_iff (g : GameModel) (card q : CardPtr) (c : CardModel)
    (hc : g.card? card = some c) :
    coversInColumn g card q = true ↔
      q ≠ card ∧ ∃ o, g.card? q = some o ∧ o._position.x = c._position.x ∧
        c._position.y < o._position.y := by
  unfold coversInColumn
  rw [hc]
  cases ho : g.card? q with
  | none => simp
  | some o => simp [and_assoc]

theorem coversInColumn_congr (g g2 : GameModel) (card q : CardPtr)
    (hpos : ∀ p, (g2.card? p).map CardModel._position = (g.card? p).map CardModel._position) :
    coversInColumn g2 card q = coversInColumn g card q := by
  have h1 := hpos q
  have h2 := hpos card
  unfold coversInColumn
  cases ho : g.card? q <;> cases ho2 : g2.card? q <;> cases hc : g.card? card <;>
    cases hc2 : g2.card? card <;> simp_all

/-- C12: for a card `c` behind the pointer `card`, `isTopCardInColumn` returns
`true` exactly when no other card of the tableau has the x-coordinate of `c`
and a strictly greater y-coordinate; the flag computed by the scene's click
handler has the same value; and the result is the same in any two states with
the same tableau sequence and the same card positions. -/
theorem isTopCardInColumn_iff (g : GameModel) (card : CardPtr) (c : CardModel)
    (hc : g.card? card = some c) :
    (isTopCardInColumn g card = true ↔
      ¬ ∃ q ∈ g._playfieldCards, q ≠ card ∧ ∃ o, g.card? q = some o ∧
        o._position.x = c._position.x ∧ c._position.y < o._position.y) ∧
    HelloWorld.isTopCard g card = isTopCardInColumn g card ∧
    (∀ g2 : GameModel, g2._playfieldCards = g._playfieldCards →
      (∀ p, (g2.card? p).map CardModel._position = (g.card? p).map CardModel._position) →
      isTopCardInColumn g2 card = isTopCardInColumn g card) := by
  refine ⟨?_, isTopCardFrom_eq g card _, ?_⟩
  · unfold isTopCardInColumn
    rw [isTopCardInColumnFrom_iff]
    constructor
    · rintro h ⟨q, hq, hcov⟩
      have := h q hq
      rw [← Bool.not_eq_true, coversInColumn_iff g card q c hc] at this
      exact this hcov
    · intro h q hq
      rw [← Bool.not_eq_true, coversInColumn_iff g card q c hc]
      exact fun hcov => h ⟨q, hq, hcov⟩
  · intro g2 hpf hpos
    have h1 : ∀ l, isTopCardInColumnFrom g2 card l = isTopCardInColumnFrom g card l := by
      intro l
      induction l with
      | nil => rfl
      | cons q rest ih =>
        unfold isTopCardInColumnFrom
        rw [ih, coversInColumn_congr g g2 card q hpos]
    unfold isTopCardInColumn
    rw [hpf, h1]

theorem isTopCardInColumn_iff_witness :
    ¬ ∃ q ∈ Examples.coveredFive._playfieldCards, q ≠ 1 ∧
      ∃ o, Examples.coveredFive.card? q = some o ∧
        o._position.x = (Examples.card 2 12 "playfield" ⟨100, 350⟩ true)._position.x ∧
        (Examples.card 2 12 "playfield" ⟨100, 350⟩ true)._position.y < o._position.y :=
  (isTopCardInColumn_iff Examples.coveredFive 1
    (Examples.card 2 12 "playfield" ⟨100, 350⟩ true) (by decide)).1.mp (by decide)

end GameController

/-! ### The generated deal -/

namespace GameModelGenerator

/-- The tableau loop in closed form. -/
theorem dealPlayfield_eq :
    ∀ (placements : List PlayfieldCard) (deck : List CardModel) (g : GameModel),
      (dealPlayfield placements deck g).1._allCards
        = g._allCards ++ List.zipWith placeOnTableau deck placements ∧
      (dealPlayfield placements deck g).1._playfieldCards
        = g._playfieldCards ++
          List.range' g._allCards.length (min deck.length placements.length) ∧
      (dealPlayfield placements deck g).1._stackCards = g._stackCards ∧
      (dealPlayfield placements deck g).1._handCards = g._handCards ∧
      (dealPlayfield placements deck g).2 = deck.drop placements.length := by
  intro placements
  induction placements with
  | nil => intro deck g; simp [dealPlayfield]
  | cons placement rest ih =>
    intro deck g
    cases deck with
    | nil => simp [dealPlayfield]
    | cons card deck =>
      simp only [dealPlayfield]
      obtain ⟨h1, h2, h3, h4, h5⟩ := ih deck
        { g with _allCards := g._allCards ++ [placeOnTableau card placement],
                 _playfieldCards := g._playfieldCards ++ [g._allCards.length] }
      refine ⟨?_, ?_, h3, h4, ?_⟩
      · rw [h1]; simp
      · rw [h2]
        simp only [List.length_append, List.length_singleton, List.length_cons,
          List.append_assoc, List.singleton_append, Nat.succ_min_succ, List.range'_succ,
          List.length_nil, Nat.zero_add]
      · rw [h5]; simp

/-- The stock loop: what it appends to `_allCards` and to `_stackCards`. -/
theorem dealStack_eq :
    ∀ (deck : List CardModel) (stackIndex : Int) (g : GameModel),
      ∃ added : List CardModel,
        (dealStack deck stackIndex g)._allCards = g._allCards ++ added ∧
        added.map CardModel.identity = deck.map CardModel.identity ∧
        (∀ c ∈ added, c._isFaceUp = false ∧ c._cardArea = "stack") ∧
        (dealStack deck stackIndex g)._stackCards
          = g._stackCards ++ List.range' g._allCards.length deck.length ∧
        (dealStack deck stackIndex g)._playfieldCards = g._playfieldCards ∧
        (dealStack deck stackIndex g)._handCards = g._handCards := by
  intro deck
  induction deck with
  | nil => intro stackIndex g; exact ⟨[], by simp [dealStack]⟩
  | cons card deck ih =>
    intro stackIndex g
    simp only [dealStack]
    obtain ⟨added, h1, h2, h3, h4, h5, h6⟩ := ih (stackIndex + 1)
      { g with _allCards := g._allCards ++ [placeOnStack card stackIndex],
               _stackCards := g._stackCards ++ [g._allCards.length] }
    refine ⟨placeOnStack card stackIndex :: added, ?_, ?_, ?_, ?_, h5, h6⟩
    · rw [h1]; simp
    · simp only [List.map_cons, h2]
      rfl
    · intro c hc
      rcases List.mem_cons.mp hc with h | h
      · rw [h]; exact ⟨rfl, rfl⟩
      · exact h3 c h
    · rw [h4]
      simp only [List.length_append, List.length_singleton, List.length_cons,
        List.append_assoc, List.singleton_append, List.range'_succ, List.length_nil,
        Nat.zero_add]

theorem identity_zipWith_placeOnTableau :
    ∀ (deck : List CardModel) (placements : List PlayfieldCard),
      (List.zipWith placeOnTableau deck placements).map CardModel.identity
        = (deck.take placements.length).map CardModel.identity := by
  intro deck
  induction deck with
  | nil => intro placements; simp
  | cons card deck ih =>
    intro placements
    cases placements with
    | nil => simp
    | cons placement rest =>
      simp only [List.zipWith_cons_cons, List.map_cons, List.length_cons, List.take_succ_cons, ih]
      rfl

theorem pairs_orderedDeck :
    ∀ suit ∈ [(0 : Int), 1, 2, 3], ∀ rank ∈ [(0 : Int), 1, 2, 3, 4, 5, 6, 7, 8, 9, 10, 11, 12],
      orderedDeck.countP (fun c => decide (c._suit = suit ∧ c._rank = rank)) = 1 := by
  decide

theorem countP_of_identity (l1 l2 : List CardModel)
    (h : l1.map CardModel.identity = l2.map CardModel.identity) (suit rank : Int) :
    l1.countP (fun c => decide (c._suit = suit ∧ c._rank = rank))
      = l2.countP (fun c => decide (c._suit = suit ∧ c._rank = rank)) := by
  have h1 : ∀ l : List CardModel,
      l.countP (fun c => decide (c._suit = suit ∧ c._rank = rank))
        = (l.map CardModel.identity).countP
            (fun t => decide (t.2.1 = suit ∧ t.2.2 = rank)) := by
    intro l
    rw [List.countP_map]
    rfl
  rw [h1 l1, h1 l2, h]


/-- The card collection the generator deals from an empty game model, when the
level has at most 51 tableau placements. -/
theorem createCardCollection_deal {shuffle : List CardModel → List CardModel}
    (hshuffle : (shuffle orderedDeck).Perm orderedDeck) (g0 : GameModel) (cfg : LevelConfig)
    (hN : cfg._playfieldCards.length ≤ 51)
    (h0 : g0._allCards = [] ∧ g0._playfieldCards = [] ∧ g0._stackCards = [] ∧
      g0._handCards = []) :
    (createCardCollection shuffle g0 cfg).2._allCards.map CardModel.identity
      = (shuffle orderedDeck).map CardModel.identity ∧
    (createCardCollection shuffle g0 cfg).2._playfieldCards
      = List.range cfg._playfieldCards.length ∧
    (createCardCollection shuffle g0 cfg).2._stackCards
      = List.range' cfg._playfieldCards.length (51 - cfg._playfieldCards.length) ∧
    (createCardCollection shuffle g0 cfg).2._handCards = [51] ∧
    (∀ (i : Nat) (placement : PlayfieldCard), cfg._playfieldCards[i]? = some placement →
      ∃ c, (createCardCollection shuffle g0 cfg).2._allCards[i]? = some c ∧
        c._position = placement.position ∧ c._isFaceUp = placement.isFaceUp ∧
        c._cardArea = "playfield") ∧
    (∀ i : Nat, cfg._playfieldCards.length ≤ i → i < 51 →
      ∃ c, (createCardCollection shuffle g0 cfg).2._allCards[i]? = some c ∧
        c._isFaceUp = false ∧ c._cardArea = "stack") ∧
    (∃ c, (createCardCollection shuffle g0 cfg).2._allCards[51]? = some c ∧
      c._isFaceUp = true ∧ c._position = Vec2.mk 800 400 ∧ c._cardArea = "hand") := by
  obtain ⟨e1, e2, e3, e4⟩ := h0
  have hlen : (shuffle orderedDeck).length = 52 := hshuffle.length_eq.trans (by decide)
  obtain ⟨a1, a2, a3, a4, a5⟩ := dealPlayfield_eq cfg._playfieldCards (shuffle orderedDeck) g0
  obtain ⟨added, b1, b2, b3, b4, b5, b6⟩ :=
    dealStack_eq (dealPlayfield cfg._playfieldCards (shuffle orderedDeck) g0).2 0
      (dealPlayfield cfg._playfieldCards (shuffle orderedDeck) g0).1
  generalize hg1 : dealStack (dealPlayfield cfg._playfieldCards (shuffle orderedDeck) g0).2 0
      (dealPlayfield cfg._playfieldCards (shuffle orderedDeck) g0).1 = g1 at b1 b4 b5 b6
  have hcc : (createCardCollection shuffle g0 cfg).2 = dealHand g1 := by
    rw [← hg1]; rfl
  generalize hT : List.zipWith placeOnTableau (shuffle orderedDeck) cfg._playfieldCards = T at a1
  generalize hn : cfg._playfieldCards.length = n at *
  have hTlen : T.length = n := by
    rw [← hT, List.length_zipWith, hlen, hn]; omega
  have haddedlen : added.length = 52 - n := by
    have := congrArg List.length b2
    rw [List.length_map, List.length_map, a5, List.length_drop, hlen] at this
    exact this
  rw [a1, e1, List.nil_append] at b1
  rw [a1, e1, List.nil_append, hTlen, a3, e3, List.nil_append, a5, List.length_drop, hlen] at b4
  rw [a2, e2, e1, hlen, List.nil_append] at b5
  rw [a4, e4] at b6
  have hmin : min 52 n = n := by omega
  rw [hmin] at b5
  have hstack : g1._stackCards = List.range' n (51 - n) ++ [51] := by
    rw [b4]
    have h1 : 52 - n = (51 - n) + 1 := by omega
    rw [h1, List.range'_concat]
    have h2 : n + 1 * (51 - n) = 51 := by omega
    rw [h2]
  have hdeal : dealHand g1 =
      { g1 with _stackCards := List.range' n (51 - n),
                _allCards := GameModel.updateCard g1._allCards 51
                  (fun c => { c with _cardArea := "hand", _position := Vec2.mk 800 400,
                                     _isFaceUp := true }),
                _handCards := [51] } := by
    unfold dealHand
    rw [hstack]
    simp [GameModel.modifyCard, b6]
  rw [hcc, hdeal]
  simp only
  have hget_lt : ∀ i, i < n → (T ++ added)[i]? = T[i]? := fun i hi =>
    List.getElem?_append_left (by omega)
  have hget_ge : ∀ i, n ≤ i → i < 52 → ∃ c, (T ++ added)[i]? = some c ∧ c ∈ added := by
    intro i h1 h2
    have hi : i - n < added.length := by omega
    refine ⟨added[i - n], ?_, List.getElem_mem _⟩
    rw [List.getElem?_append_right (by omega), hTlen, List.getElem?_eq_getElem hi]
  refine ⟨?_, b5.trans (List.range_eq_range' n).symm, trivial, trivial, ?_, ?_, ?_⟩
  · rw [b1, GameModel.map_updateCard CardModel.identity _ 51
        (fun c => { c with _cardArea := "hand", _position := Vec2.mk 800 400,
                           _isFaceUp := true }) (fun _ => rfl), List.map_append,
      b2, ← hT, identity_zipWith_placeOnTableau, a5, ← List.map_append, hn, List.take_append_drop]
  · intro i placement hp
    have hi : i < n := by
      rcases Nat.lt_or_ge i n with h | h
      · exact h
      · rw [List.getElem?_eq_none (by omega)] at hp; cases hp
    have hd : i < (shuffle orderedDeck).length := by omega
    refine ⟨placeOnTableau ((shuffle orderedDeck)[i]) placement, ?_, rfl, rfl, rfl⟩
    rw [b1, GameModel.getElem?_updateCard_ne (show i ≠ 51 by omega), hget_lt i hi, ← hT]
    rw [List.getElem?_zipWith, List.getElem?_eq_getElem hd, hp]
  · intro i h1 h2
    obtain ⟨c, hc, hmem⟩ := hget_ge i h1 (by omega)
    refine ⟨c, ?_, b3 c hmem⟩
    rw [b1, GameModel.getElem?_updateCard_ne (show i ≠ 51 by omega), hc]
  · obtain ⟨c, hc, _⟩ := hget_ge 51 (by omega) (by omega)
    refine ⟨{ c with _cardArea := "hand", _position := Vec2.mk 800 400, _isFaceUp := true },
      ?_, rfl, rfl, rfl⟩
    rw [b1]
    exact GameModel.getElem?_updateCard_self hc


theorem generateGameModel_eq (shuffle : List CardModel → List CardModel) (cfg : LevelConfig)
    (hvalid : cfg.isValid = true) :
    ∃ g0 : GameModel,
      (g0._allCards = [] ∧ g0._playfieldCards = [] ∧ g0._stackCards = [] ∧
        g0._handCards = []) ∧
      ∃ g : GameModel, generateGameModel shuffle (some cfg) = some g ∧
        g._allCards = (createCardCollection shuffle g0 cfg).2._allCards ∧
        g._playfieldCards = (createCardCollection shuffle g0 cfg).2._playfieldCards ∧
        g._stackCards = (createCardCollection shuffle g0 cfg).2._stackCards ∧
        g._handCards = (createCardCollection shuffle g0 cfg).2._handCards := by
  refine ⟨({ GameModel.new with
      _levelId := cfg._levelId, _targetScore := cfg._targetScore,
      _timeLimit := cfg._timeLimit, _maxUndoCount := cfg._maxUndoCount,
      _allowHint := cfg._allowHint, _allowUndo := cfg._allowUndo } : GameModel),
    ⟨rfl, rfl, rfl, rfl⟩, ?_⟩
  simp only [generateGameModel, hvalid, initializeGameModel, setupGameRules,
    initializeGameState, createCardCollection, Bool.not_true, Bool.false_eq_true, if_false,
    if_true]
  exact ⟨_, rfl, rfl, rfl, rfl, rfl⟩

/-- C20: for a valid level config with `N <= 51` tableau placements and a
shuffle that permutes the deck, the generator returns a game state of 52 cards
that are, pointer by pointer, the cards of the shuffled deck; their ids are
distinct and are the numbers 1..52, and every (suit, rank) pair with suit in
0..3 and rank in 0..12 occurs exactly once.  The tableau is the pointers
`0 .. N-1`, the i-th with the position and face of the i-th placement; the
stock is the pointers `N .. 50` in deck order, all face-down; the hand is the
single pointer 51, the last card of the shuffled deck, face-up at `(800, 400)`.
The area tags agree and the state is well-formed, so each card is stored in
exactly one partition. -/
theorem generateGameModel_deal (shuffle : List CardModel → List CardModel) (cfg : LevelConfig)
    (hvalid : cfg.isValid = true) (hN : cfg._playfieldCards.length ≤ 51)
    (hshuffle : (shuffle orderedDeck).Perm orderedDeck) :
    ∃ g : GameModel, generateGameModel shuffle (some cfg) = some g ∧
      g._allCards.length = 52 ∧
      g._allCards.map CardModel.identity = (shuffle orderedDeck).map CardModel.identity ∧
      (g._allCards.map CardModel._cardId).Nodup ∧
      (∀ cardId : Int, cardId ∈ g._allCards.map CardModel._cardId ↔
        1 ≤ cardId ∧ cardId ≤ 52) ∧
      (∀ suit rank : Int, 0 ≤ suit → suit ≤ 3 → 0 ≤ rank → rank ≤ 12 →
        g._allCards.countP (fun c => decide (c._suit = suit ∧ c._rank = rank)) = 1) ∧
      g.WellFormed ∧
      g._playfieldCards = List.range cfg._playfieldCards.length ∧
      g._stackCards
        = List.range' cfg._playfieldCards.length (51 - cfg._playfieldCards.length) ∧
      g._handCards = [51] ∧
      (∀ (i : Nat) (placement : PlayfieldCard), cfg._playfieldCards[i]? = some placement →
        ∃ c, g.card? i = some c ∧ c._position = placement.position ∧
          c._isFaceUp = placement.isFaceUp ∧ c._cardArea = "playfield") ∧
      (∀ i : Nat, cfg._playfieldCards.length ≤ i → i < 51 →
        ∃ c, g.card? i = some c ∧ c._isFaceUp = false ∧ c._cardArea = "stack") ∧
      (∃ c, g.card? 51 = some c ∧ c._isFaceUp = true ∧ c._position = Vec2.mk 800 400 ∧
        c._cardArea = "hand") := by
  obtain ⟨g0, h0, g, hg, hall, hpf, hst, hhd⟩ := generateGameModel_eq shuffle cfg hvalid
  obtain ⟨d1, d2, d3, d4, d5, d6, d7⟩ := createCardCollection_deal hshuffle g0 cfg hN h0
  have hcomplete := generateGameModel_complete hshuffle hg
  have hident : g._allCards.map CardModel.identity
      = (shuffle orderedDeck).map CardModel.identity := by rw [hall, d1]
  refine ⟨g, hg, ?_, hident, hcomplete.2.nodup_iff.mpr deckIds_nodup, ?_, ?_, hcomplete.1,
    hpf.trans d2, hst.trans d3, hhd.trans d4, ?_, ?_, ?_⟩
  · have := congrArg List.length hident
    simpa [hshuffle.length_eq, show orderedDeck.length = 52 by decide] using this
  · intro cardId
    rw [hcomplete.2.mem_iff]
    exact mem_deckIds
  · intro suit rank h1 h2 h3 h4
    rw [countP_of_identity _ _ hident suit rank]
    have hs : suit ∈ [(0 : Int), 1, 2, 3] := by
      simp only [List.mem_cons, List.mem_singleton, List.not_mem_nil, or_false]
      omega
    have hr : rank ∈ [(0 : Int), 1, 2, 3, 4, 5, 6, 7, 8, 9, 10, 11, 12] := by
      simp only [List.mem_cons, List.mem_singleton, List.not_mem_nil, or_false]
      omega
    exact (hshuffle.countP_eq _).trans (pairs_orderedDeck suit hs rank hr)
  · intro i placement hp
    unfold GameModel.card?
    rw [hall]
    exact d5 i placement hp
  · intro i h1 h2
    unfold GameModel.card?
    rw [hall]
    exact d6 i h1 h2
  · unfold GameModel.card?
    rw [hall]
    exact d7

theorem generateGameModel_deal_witness :
    ∃ g : GameModel, generateGameModel id (some Examples.twoCardLevel) = some g ∧
      g._allCards.length = 52 ∧
      g._allCards.map CardModel.identity = orderedDeck.map CardModel.identity ∧
      g._playfieldCards = [0, 1] ∧
      g._stackCards = List.range' 2 49 ∧
      g._handCards = [51] :=
  have h := generateGameModel_deal id Examples.twoCardLevel (by decide) (by decide)
    (List.Perm.refl _)
  h.imp fun _ hg => ⟨hg.1, hg.2.1, hg.2.2.1, hg.2.2.2.2.2.2.2.1, hg.2.2.2.2.2.2.2.2.1,
    hg.2.2.2.2.2.2.2.2.2.1⟩

end GameModelGenerator

/-! ### Failure paths, restart and the seed -/

namespace GameModel

/-- C27: `moveCardToArea(1, "discard", -1)` on `smallGame` returns `false`, yet
the Five (id 1, pointer 0) is gone from the tableau, is in no other sequence
and carries the area tag `"discard"`. -/
theorem moveCardToArea_failure_not_atomic :
    (Examples.smallGame.moveCardToArea 1 "discard" (-1)).1 = false ∧
    Examples.smallGame._playfieldCards = [0, 1] ∧
    Examples.smallGame.areaOf 0 = "playfield" ∧
    (Examples.smallGame.moveCardToArea 1 "discard" (-1)).2._playfieldCards = [1] ∧
    (Examples.smallGame.moveCardToArea 1 "discard" (-1)).2._stackCards = [2] ∧
    (Examples.smallGame.moveCardToArea 1 "discard" (-1)).2._handCards = [3] ∧
    (Examples.smallGame.moveCardToArea 1 "discard" (-1)).2.areaOf 0 = "discard" := by
  decide

end GameModel

namespace GameController

/-- C30: the level `noUndoLevel` (`maxUndoCount = 0`) passes
`LevelConfig::isValid` and the generator builds a game model from it whose
`_maxUndoCount` is 0, but `UndoManager::init` rejects that bound and `initGame`
returns `false`. -/
theorem initGame_fails_on_valid_config :
    Examples.noUndoLevel.isValid = true ∧
    ((GameModelGenerator.generateGameModel id (some Examples.noUndoLevel)).map
      (fun g => g._maxUndoCount)) = some 0 ∧
    (UndoManager.new.init true 0).1 = false ∧
    (GameController.new.initGame 1 true id (some Examples.noUndoLevel)
      (some Examples.fullView)).1 = false ∧
    (GameController.new.initGame 1 true id (some Examples.twoCardLevel)
      (some Examples.fullView)).1 = true := by
  decide

/-- C26: after `restartGame` on the started example game the lifecycle is None
and score, move count and hints are 0, but the tableau, the stock and the hand
are all empty while the 52 cards are still owned by the model: no card of the
deck is stored in any partition. -/
theorem restartGame_leaves_no_card_stored :
    (Examples.startedGame._gameModel.map (fun g => g.storedCards.length)) = some 52 ∧
    (Examples.startedGame.restartGame._gameModel.map (fun g =>
      (g._gameState, g._score, g._movesCount, g._hintsUsed)))
        = some (GameState.GAME_STATE_NONE, 0, 0, 0) ∧
    (Examples.startedGame.restartGame._gameModel.map (fun g => g._allCards.length))
      = some 52 ∧
    (Examples.startedGame.restartGame._gameModel.map (fun g =>
      (g._playfieldCards, g._stackCards, g._handCards))) = some ([], [], []) ∧
    (Examples.startedGame.restartGame._gameModel.map (fun g => g.occurrences 1)) = some 0 := by
  decide

/-- C24: on the running game `kingGame` the call `handleCardMatch(2, 3)` (the
King against the Six) returns `false` and leaves the game model as it was, but
the undo stack, empty before, now holds the entry of the move that did not
happen, and the redo entry is gone. -/
theorem handleCardMatch_failure_touches_history :
    (Examples.kingGame.handleCardMatch 2 3 0).1 = false ∧
    (Examples.kingGame.handleCardMatch 2 3 0).2._gameModel = Examples.kingGame._gameModel ∧
    (Examples.kingGame._undoManager.map (fun m => (m._undoHistory.length, m._redoHistory.length)))
      = some (0, 1) ∧
    ((Examples.kingGame.handleCardMatch 2 3 0).2._undoManager.map
      (fun m => (m._undoHistory.map (fun e => e._cardId), m._redoHistory.length)))
      = some ([2], 0) := by
  decide

end GameController

namespace GameModelGenerator

/-- C21: the generated game state does not depend on the seed set with
`setRandomSeed` but on the value `std::random_device` returns: for a valid
config with at most 51 placements, two calls on a generator with the same seed
give different game states whenever the engines built from the two device
values shuffle the deck into two different orders, and a call gives the same
state whatever seed was set. -/
theorem generateGameModel_ignores_seed (gen : GameModelGenerator) (seed : Nat)
    (engineShuffle : Nat → List CardModel → List CardModel) (rd1 rd2 : Nat)
    (cfg : LevelConfig) (hvalid : cfg.isValid = true)
    (hN : cfg._playfieldCards.length ≤ 51)
    (h1 : (engineShuffle rd1 orderedDeck).Perm orderedDeck)
    (h2 : (engineShuffle rd2 orderedDeck).Perm orderedDeck)
    (hdiff : (engineShuffle rd1 orderedDeck).map CardModel.identity
      ≠ (engineShuffle rd2 orderedDeck).map CardModel.identity) :
    (gen.setRandomSeed seed).generateGameModelCall engineShuffle rd1 (some cfg)
      ≠ (gen.setRandomSeed seed).generateGameModelCall engineShuffle rd2 (some cfg) ∧
    (∀ seed2 : Nat,
      (gen.setRandomSeed seed2).generateGameModelCall engineShuffle rd1 (some cfg)
        = (gen.setRandomSeed seed).generateGameModelCall engineShuffle rd1 (some cfg)) := by
  refine ⟨?_, fun _ => rfl⟩
  obtain ⟨g0, h0, g, hg, hall, _⟩ := generateGameModel_eq (engineShuffle rd1) cfg hvalid
  obtain ⟨g0b, h0b, gb, hgb, hallb, _⟩ := generateGameModel_eq (engineShuffle rd2) cfg hvalid
  have d1 := (createCardCollection_deal h1 g0 cfg hN h0).1
  have d2 := (createCardCollection_deal h2 g0b cfg hN h0b).1
  intro heq
  unfold GameModelGenerator.generateGameModelCall at heq
  rw [hg, hgb] at heq
  have hgg : g = gb := Option.some.inj heq
  apply hdiff
  rw [← d1, ← d2, ← hall, ← hallb, hgg]

theorem generateGameModel_ignores_seed_witness :
    (GameModelGenerator.setRandomSeed ⟨0⟩ 42).generateGameModelCall Examples.twoOrders 0
        (some Examples.twoCardLevel)
      ≠ (GameModelGenerator.setRandomSeed ⟨0⟩ 42).generateGameModelCall Examples.twoOrders 1
        (some Examples.twoCardLevel) :=
  (generateGameModel_ignores_seed ⟨0⟩ 42 Examples.twoOrders 0 1 Examples.twoCardLevel
    (by decide) (by decide) (List.Perm.refl _) (List.reverse_perm _) (by decide)).1

end GameModelGenerator

/-! ### The fallback level -/

theorem LevelConfigLoader.levelName_nonempty (t : String) : ("关卡 " ++ t).isEmpty = false := by
  rw [Bool.eq_false_iff]
  intro h
  have h1 : "关卡 " ++ t = "" := by simpa [String.isEmpty_iff] using h
  have h2 := congrArg String.length h1
  rw [String.length_append] at h2
  have h3 : "关卡 ".length = 3 := by decide
  have h4 : "".length = 0 := by decide
  omega

namespace GameModelGenerator

theorem dealHand_playfieldCards (g : GameModel) :
    (dealHand g)._playfieldCards = g._playfieldCards := by
  unfold dealHand
  split <;> rfl

theorem createCardCollection_no_placements (shuffle : List CardModel → List CardModel)
    (g0 : GameModel) (cfg : LevelConfig) (hcfg : cfg._playfieldCards = [])
    (h0 : g0._playfieldCards = []) :
    (createCardCollection shuffle g0 cfg).2._playfieldCards = [] := by
  obtain ⟨_, _, _, _, _, b5, _⟩ :=
    dealStack_eq (dealPlayfield cfg._playfieldCards (shuffle orderedDeck) g0).2 0
      (dealPlayfield cfg._playfieldCards (shuffle orderedDeck) g0).1
  show (dealHand _)._playfieldCards = []
  rw [dealHand_playfieldCards, b5, hcfg]
  simpa [dealPlayfield] using h0

/-- C28: for every `levelId >= 1` the default level config passes
`LevelConfig::isValid`, with target score `1000 + 100 * levelId`, 52 initial
cards and `maxUndoCount` 10; but it has no tableau placement, so whatever the
shuffle the generated game has an empty tableau: once the game is started
`checkGameWon` holds and the first end-of-game check returns `true` and sets the
lifecycle to Finished. -/
theorem default_level_ends_at_first_check (levelId : Int) (hid : 1 ≤ levelId)
    (shuffle : List CardModel → List CardModel) :
    (LevelConfigLoader.createDefaultLevelConfig levelId).isValid = true ∧
    (LevelConfigLoader.createDefaultLevelConfig levelId)._targetScore
      = 1000 + 100 * levelId ∧
    (LevelConfigLoader.createDefaultLevelConfig levelId)._initialCardCount = 52 ∧
    (LevelConfigLoader.createDefaultLevelConfig levelId)._maxUndoCount = 10 ∧
    ∃ g : GameModel,
      generateGameModel shuffle (some (LevelConfigLoader.createDefaultLevelConfig levelId))
        = some g ∧
      g._playfieldCards = [] ∧
      g.startGame._gameState = GameState.GAME_STATE_PLAYING ∧
      GameRulesService.checkGameWon g.startGame = true ∧
      (GameController.checkGameEndCondition g.startGame).1 = true ∧
      (GameController.checkGameEndCondition g.startGame).2._gameState
        = GameState.GAME_STATE_FINISHED := by
  have hvalid : (LevelConfigLoader.createDefaultLevelConfig levelId).isValid = true := by
    simp only [LevelConfig.isValid, LevelConfigLoader.createDefaultLevelConfig,
      LevelConfigLoader.levelName_nonempty, Bool.not_false, Bool.and_true, Bool.and_eq_true,
      decide_eq_true_eq]
    refine ⟨⟨⟨⟨⟨?_, ?_⟩, ?_⟩, ?_⟩, ?_⟩, ?_⟩ <;> omega
  refine ⟨hvalid, ?_, rfl, rfl, ?_⟩
  · simp only [LevelConfigLoader.createDefaultLevelConfig]
    ring
  · obtain ⟨g0, h0, g, hg, _, hpf, _⟩ := generateGameModel_eq shuffle _ hvalid
    have hempty : g._playfieldCards = [] := by
      rw [hpf]
      exact createCardCollection_no_placements shuffle g0 _ rfl h0.2.1
    refine ⟨g, hg, hempty, rfl, ?_, ?_, ?_⟩
    · simp [GameRulesService.checkGameWon, GameModel.startGame, hempty]
    · simp [GameController.checkGameEndCondition, GameModel.isGameFinished,
        GameModel.startGame, GameRulesService.checkGameWon, hempty]
    · simp [GameController.checkGameEndCondition, GameModel.isGameFinished,
        GameModel.startGame, GameRulesService.checkGameWon, hempty]

theorem default_level_ends_at_first_check_witness :
    (LevelConfigLoader.createDefaultLevelConfig 1).isValid = true ∧
    ∃ g : GameModel,
      generateGameModel id (some (LevelConfigLoader.createDefaultLevelConfig 1)) = some g ∧
      (GameController.checkGameEndCondition g.startGame).1 = true :=
  have h := default_level_ends_at_first_check 1 (by decide) id
  ⟨h.1, h.2.2.2.2.imp fun _ hg => ⟨hg.1, hg.2.2.2.2.1⟩⟩

end GameModelGenerator

/-! ### Undo followed by redo -/

namespace UndoManager

theorem evictOldest_of_le (m : UndoManager) (l : List UndoModel)
    (h : (l.length : Int) ≤ m._maxUndoCount) :
    evictOldest (toSize m._maxUndoCount) l = l := by
  have h0 : 0 ≤ m._maxUndoCount := le_trans (Int.ofNat_nonneg _) h
  rw [evictOldest_eq_drop, toSize_of_nonneg h0]
  have h1 := Int.toNat_of_nonneg h0
  have : l.length - m._maxUndoCount.toNat = 0 := by omega
  rw [this, List.drop_zero]

theorem evictOldest_of_full (m : UndoManager) (l : List UndoModel) (e : UndoModel)
    (hpos : 0 < m._maxUndoCount) (h : (l.length : Int) = m._maxUndoCount) :
    evictOldest (toSize m._maxUndoCount) (l ++ [e]) = l.tail ++ [e] := by
  have h0 : 0 ≤ m._maxUndoCount := le_of_lt hpos
  rw [evictOldest_eq_drop, toSize_of_nonneg h0]
  have h1 := Int.toNat_of_nonneg h0
  have : (l ++ [e]).length - m._maxUndoCount.toNat = 1 := by
    simp only [List.length_append, List.length_singleton]
    omega
  rw [this]
  cases l with
  | nil => simp at h; omega
  | cons x xs => simp

/-- What a successful `undo()` does to the two stacks. -/
theorem undo_true_stacks {m m1 : UndoManager} {g g1 : GameModel}
    (h : m.undo g = (true, m1, g1)) :
    ∃ e, m._undoHistory = m1._undoHistory ++ [e] ∧
      m1._redoHistory = evictOldest (toSize m._maxUndoCount) (m._redoHistory ++ [e]) ∧
      m1._maxUndoCount = m._maxUndoCount ∧ m1._isInitialized = m._isInitialized ∧
      m1._gameModel = m._gameModel := by
  unfold undo at h
  split_ifs at h with hcan
  · cases h
  · cases hl : m._undoHistory.getLast? with
    | none => rw [hl] at h; cases h
    | some e =>
      rw [hl] at h
      simp only at h
      split_ifs at h with hr
      · simp only [Prod.mk.injEq, true_and] at h
        obtain ⟨h1, _⟩ := h
        subst h1
        exact ⟨e, (List.dropLast_append_getLast? e (by simp [hl])).symm, rfl, rfl, rfl, rfl⟩
      · cases h

/-- What a successful `redo()` does to the two stacks. -/
theorem redo_true_stacks {m m1 : UndoManager} {g g1 : GameModel}
    (h : m.redo g = (true, m1, g1)) :
    ∃ e, m._redoHistory = m1._redoHistory ++ [e] ∧
      m1._undoHistory = evictOldest (toSize m._maxUndoCount) (m._undoHistory ++ [e]) ∧
      m1._maxUndoCount = m._maxUndoCount := by
  unfold redo at h
  split_ifs at h with hcan
  · cases h
  · cases hl : m._redoHistory.getLast? with
    | none => rw [hl] at h; cases h
    | some e =>
      rw [hl] at h
      simp only at h
      split_ifs at h with hr
      · simp only [Prod.mk.injEq, true_and] at h
        obtain ⟨h1, _⟩ := h
        subst h1
        exact ⟨e, (List.dropLast_append_getLast? e (by simp [hl])).symm, rfl, rfl⟩
      · cases h

/-- C29 (as stated): on the manager `fullManager`, whose two stacks each hold
one entry under the bound 1, `undo()` and the following `redo()` both succeed,
the undo stack is back to what it was, but the redo stack, `[entry 2]` before,
is empty. -/
theorem undo_redo_round_trip_counterexample :
    Examples.fullManager.Bounded ∧ Examples.fullManager._isInitialized = true ∧
    (Examples.fullManager.undo Examples.smallGame).1 = true ∧
    ((Examples.fullManager.undo Examples.smallGame).2.1.redo
      (Examples.fullManager.undo Examples.smallGame).2.2).1 = true ∧
    ((Examples.fullManager.undo Examples.smallGame).2.1.redo
      (Examples.fullManager.undo Examples.smallGame).2.2).2.1._undoHistory
        = Examples.fullManager._undoHistory ∧
    Examples.fullManager._redoHistory = [Examples.entry 2] ∧
    ((Examples.fullManager.undo Examples.smallGame).2.1.redo
      (Examples.fullManager.undo Examples.smallGame).2.2).2.1._redoHistory = [] := by
  decide

/-- C29 (amended): on a manager whose stacks each hold at most `maxUndoCount`
entries, a successful `undo()` removes the last entry `e` of the undo stack and
leaves `e` as the last element of the redo stack: the redo stack is the old one
followed by `e` when it held fewer than `maxUndoCount` entries, and the old one
without its oldest entry followed by `e` when it was full.  When the redo stack
held fewer than `maxUndoCount` entries and the following `redo()` succeeds,
both stacks are exactly the sequences they were before the undo. -/
theorem undo_redo_round_trip (m m1 : UndoManager) (g g1 : GameModel)
    (hU : (m._undoHistory.length : Int) ≤ m._maxUndoCount)
    (hR : (m._redoHistory.length : Int) ≤ m._maxUndoCount)
    (hundo : m.undo g = (true, m1, g1)) :
    (∃ e, m._undoHistory = m1._undoHistory ++ [e] ∧
      m1._redoHistory.getLast? = some e ∧
      ((m._redoHistory.length : Int) < m._maxUndoCount →
        m1._redoHistory = m._redoHistory ++ [e]) ∧
      ((m._redoHistory.length : Int) = m._maxUndoCount →
        m1._redoHistory = m._redoHistory.tail ++ [e])) ∧
    ((m._redoHistory.length : Int) < m._maxUndoCount →
      ∀ (m2 : UndoManager) (g2 : GameModel), m1.redo g1 = (true, m2, g2) →
        m2._undoHistory = m._undoHistory ∧ m2._redoHistory = m._redoHistory) := by
  obtain ⟨e, hu, hr, hmax, _, _⟩ := undo_true_stacks hundo
  have hlenU : m._undoHistory.length = m1._undoHistory.length + 1 := by
    rw [hu]; simp
  have hpos : 0 < m._maxUndoCount := by omega
  have hlt : (m._redoHistory.length : Int) < m._maxUndoCount →
      m1._redoHistory = m._redoHistory ++ [e] := by
    intro h
    rw [hr]
    apply evictOldest_of_le
    simp only [List.length_append, List.length_singleton]
    omega
  have heq : (m._redoHistory.length : Int) = m._maxUndoCount →
      m1._redoHistory = m._redoHistory.tail ++ [e] := by
    intro h
    rw [hr]
    exact evictOldest_of_full m _ e hpos h
  refine ⟨⟨e, hu, ?_, hlt, heq⟩, ?_⟩
  · rcases lt_or_eq_of_le hR with h | h
    · rw [hlt h]; simp
    · rw [heq h]; simp
  · intro h m2 g2 hredo
    obtain ⟨e2, hr2, hu2, _⟩ := redo_true_stacks hredo
    rw [hlt h] at hr2
    have hlast := congrArg List.getLast? hr2
    simp only [List.getLast?_append, List.getLast?_singleton, Option.or_some] at hlast
    have he : e = e2 := by simpa using hlast
    subst he
    have hR2 : m2._redoHistory = m._redoHistory := (List.append_cancel_right hr2).symm
    refine ⟨?_, hR2⟩
    rw [hu2, ← hu, hmax]
    exact evictOldest_of_le m _ hU

theorem undo_redo_round_trip_witness :
    ((Examples.afterMatchManager.undo Examples.afterMatchModel).2.1.redo
      (Examples.afterMatchManager.undo Examples.afterMatchModel).2.2).2.1._undoHistory
        = Examples.afterMatchManager._undoHistory ∧
    ((Examples.afterMatchManager.undo Examples.afterMatchModel).2.1.redo
      (Examples.afterMatchManager.undo Examples.afterMatchModel).2.2).2.1._redoHistory
        = Examples.afterMatchManager._redoHistory :=
  (undo_redo_round_trip Examples.afterMatchManager
    (Examples.afterMatchManager.undo Examples.afterMatchModel).2.1
    Examples.afterMatchModel (Examples.afterMatchManager.undo Examples.afterMatchModel).2.2
    (by decide) (by decide) (by decide)).2 (by decide)
    ((Examples.afterMatchManager.undo Examples.afterMatchModel).2.1.redo
      (Examples.afterMatchManager.undo Examples.afterMatchModel).2.2).2.1
    ((Examples.afterMatchManager.undo Examples.afterMatchModel).2.1.redo
      (Examples.afterMatchManager.undo Examples.afterMatchModel).2.2).2.2
    (by decide)

end UndoManager

/-! ### The stock flip -/

namespace GameController

theorem allCards_checkGameEndCondition (g : GameModel) :
    (checkGameEndCondition g).2._allCards = g._allCards := by
  unfold checkGameEndCondition
  split_ifs <;> rfl

end GameController

/-! ### The reveal after a match and its undo -/

namespace GameController

theorem inColumnBelow_iff (g : GameModel) (cardPos : Vec2) (wantFaceUp : Bool) (q : CardPtr) :
    inColumnBelow g cardPos wantFaceUp q = true ↔
      ∃ cm, g.card? q = some cm ∧ cm._position.x = cardPos.x ∧
        cm._position.y < cardPos.y ∧ cm._isFaceUp = wantFaceUp ∧ 0 < cm._position.y := by
  unfold inColumnBelow
  cases g.card? q with
  | none => simp
  | some cm => simp [and_assoc]

/-- What the column scan has found after the cards of `l`: the running
maximum is not negative, the card kept is a candidate of `l` at that height,
no candidate of `l` lies higher, and nothing is kept only if `l` has no
candidate. -/
theorem scan_spec (g : GameModel) (cardPos : Vec2) (wantFaceUp : Bool) (l : List CardPtr) :
    0 ≤ (l.foldl (scanStep g cardPos wantFaceUp) (none, 0)).2 ∧
    ((l.foldl (scanStep g cardPos wantFaceUp) (none, 0)).1 = none →
      ∀ r ∈ l, inColumnBelow g cardPos wantFaceUp r = false) ∧
    (∀ q, (l.foldl (scanStep g cardPos wantFaceUp) (none, 0)).1 = some q →
      q ∈ l ∧ inColumnBelow g cardPos wantFaceUp q = true ∧
        g.heightOf q = (l.foldl (scanStep g cardPos wantFaceUp) (none, 0)).2) ∧
    (∀ r ∈ l, inColumnBelow g cardPos wantFaceUp r = true →
      g.heightOf r ≤ (l.foldl (scanStep g cardPos wantFaceUp) (none, 0)).2) ∧
    ((l.foldl (scanStep g cardPos wantFaceUp) (none, 0)).1 = none →
      (l.foldl (scanStep g cardPos wantFaceUp) (none, 0)).2 = 0) := by
  induction l using List.reverseRecOn with
  | nil => simp
  | append_singleton l x ih =>
    rw [List.foldl_append, List.foldl_cons, List.foldl_nil]
    generalize l.foldl (scanStep g cardPos wantFaceUp) (none, 0) = acc at ih ⊢
    obtain ⟨i1, i2, i3, i4, i5⟩ := ih
    have keep : scanStep g cardPos wantFaceUp acc x = acc →
        (inColumnBelow g cardPos wantFaceUp x = true → g.heightOf x ≤ acc.2 ∧ acc.1 ≠ none) →
        0 ≤ (scanStep g cardPos wantFaceUp acc x).2 ∧
        ((scanStep g cardPos wantFaceUp acc x).1 = none →
          ∀ r ∈ l ++ [x], inColumnBelow g cardPos wantFaceUp r = false) ∧
        (∀ q, (scanStep g cardPos wantFaceUp acc x).1 = some q →
          q ∈ l ++ [x] ∧ inColumnBelow g cardPos wantFaceUp q = true ∧
            g.heightOf q = (scanStep g cardPos wantFaceUp acc x).2) ∧
        (∀ r ∈ l ++ [x], inColumnBelow g cardPos wantFaceUp r = true →
          g.heightOf r ≤ (scanStep g cardPos wantFaceUp acc x).2) ∧
        ((scanStep g cardPos wantFaceUp acc x).1 = none →
          (scanStep g cardPos wantFaceUp acc x).2 = 0) := by
      intro hstep hx
      rw [hstep]
      refine ⟨i1, ?_, ?_, ?_, i5⟩
      · intro hnone r hr
        rcases List.mem_append.mp hr with h | h
        · exact i2 hnone r h
        · have hrx : r = x := by simpa using h
          subst hrx
          by_contra hc
          exact (hx (by simpa using hc)).2 hnone
      · intro q hq
        obtain ⟨a, b, c⟩ := i3 q hq
        exact ⟨List.mem_append_left _ a, b, c⟩
      · intro r hr hcand
        rcases List.mem_append.mp hr with h | h
        · exact i4 r h hcand
        · have hrx : r = x := by simpa using h
          subst hrx
          exact (hx hcand).1
    cases hxc : g.card? x with
    | none =>
      apply keep
      · simp [scanStep, hxc]
      · intro hc
        simp [inColumnBelow, hxc] at hc
    | some cm =>
      have hh : g.heightOf x = cm._position.y := by simp [GameModel.heightOf, hxc]
      by_cases hcond : cm._position.x = cardPos.x ∧ cm._position.y < cardPos.y ∧
          cm._isFaceUp = wantFaceUp
      · by_cases hlt : acc.2 < cm._position.y
        · have hstep : scanStep g cardPos wantFaceUp acc x = (some x, cm._position.y) := by
            simp [scanStep, hxc, hcond, hlt]
          have hcand : inColumnBelow g cardPos wantFaceUp x = true :=
            (inColumnBelow_iff g cardPos wantFaceUp x).mpr
              ⟨cm, hxc, hcond.1, hcond.2.1, hcond.2.2, by omega⟩
          rw [hstep]
          refine ⟨by simp only; omega, ?_, ?_, ?_, ?_⟩
          · intro hnone; cases hnone
          · intro q hq
            simp only [Option.some.injEq] at hq
            subst hq
            exact ⟨by simp, hcand, hh⟩
          · intro r hr hc
            rcases List.mem_append.mp hr with h | h
            · have := i4 r h hc
              simp only
              omega
            · have hrx : r = x := by simpa using h
              subst hrx
              simp only
              omega
          · intro hnone; cases hnone
        · apply keep
          · simp [scanStep, hxc, hcond, hlt]
          · intro hc
            obtain ⟨cm2, h2, _, _, _, hpos⟩ := (inColumnBelow_iff g cardPos wantFaceUp x).mp hc
            rw [hxc] at h2
            cases h2
            refine ⟨by omega, ?_⟩
            intro hnone
            have := i5 hnone
            omega
      · apply keep
        · simp [scanStep, hxc, hcond]
        · intro hc
          obtain ⟨cm2, h2, a, b, c2, _⟩ := (inColumnBelow_iff g cardPos wantFaceUp x).mp hc
          rw [hxc] at h2
          cases h2
          exact absurd ⟨a, b, c2⟩ hcond


theorem scanColumn_spec (g : GameModel) (cardPos : Vec2) (wantFaceUp : Bool) :
    (scanColumn g cardPos wantFaceUp = none →
      ∀ r ∈ g._playfieldCards, inColumnBelow g cardPos wantFaceUp r = false) ∧
    (∀ q, scanColumn g cardPos wantFaceUp = some q →
      q ∈ g._playfieldCards ∧ inColumnBelow g cardPos wantFaceUp q = true ∧
        ∀ r ∈ g._playfieldCards, inColumnBelow g cardPos wantFaceUp r = true →
          g.heightOf r ≤ g.heightOf q) := by
  obtain ⟨_, i2, i3, i4, _⟩ := scan_spec g cardPos wantFaceUp g._playfieldCards
  refine ⟨i2, ?_⟩
  intro q hq
  obtain ⟨a, b, c⟩ := i3 q hq
  refine ⟨a, b, ?_⟩
  intro r hr hc
  rw [c]
  exact i4 r hr hc

theorem faceUpOf_modifyCard_ne (g : GameModel) {p q : CardPtr} (f : CardModel → CardModel)
    (h : q ≠ p) : (g.modifyCard p f).faceUpOf q = g.faceUpOf q := by
  unfold GameModel.faceUpOf
  rw [GameModel.card?_modifyCard_ne h]

theorem faceUpOf_checkGameEndCondition (g : GameModel) (q : CardPtr) :
    (checkGameEndCondition g).2.faceUpOf q = g.faceUpOf q := by
  unfold GameModel.faceUpOf GameModel.card?
  rw [allCards_checkGameEndCondition]

theorem playfieldCards_checkGameEndCondition (g : GameModel) :
    (checkGameEndCondition g).2._playfieldCards = g._playfieldCards := by
  unfold checkGameEndCondition
  split_ifs <;> rfl

/-- What `checkAndFlipCardsBelow` does to the `_isFaceUp` flags of the
tableau. -/
theorem checkAndFlipCardsBelow_spec (g : GameModel) (cardPos : Vec2) :
    (checkAndFlipCardsBelow g cardPos)._playfieldCards = g._playfieldCards ∧
    (cardPos = Vec2.ZERO → checkAndFlipCardsBelow g cardPos = g) ∧
    (cardPos ≠ Vec2.ZERO →
      (∀ r ∈ g._playfieldCards, inColumnBelow g cardPos false r = false) →
      checkAndFlipCardsBelow g cardPos = g) ∧
    (cardPos ≠ Vec2.ZERO →
      (∃ r ∈ g._playfieldCards, inColumnBelow g cardPos false r = true) →
      ∃ q ∈ g._playfieldCards, inColumnBelow g cardPos false q = true ∧
        (∀ r ∈ g._playfieldCards, inColumnBelow g cardPos false r = true →
          g.heightOf r ≤ g.heightOf q) ∧
        (checkAndFlipCardsBelow g cardPos).faceUpOf q = some true ∧
        ∀ r, r ≠ q → (checkAndFlipCardsBelow g cardPos).faceUpOf r = g.faceUpOf r) := by
  obtain ⟨s1, s2⟩ := scanColumn_spec g cardPos false
  refine ⟨?_, ?_, ?_, ?_⟩
  · unfold checkAndFlipCardsBelow
    split_ifs
    · rfl
    · split <;> rfl
  · intro h
    simp [checkAndFlipCardsBelow, h]
  · intro h hnone
    unfold checkAndFlipCardsBelow
    rw [if_neg h]
    cases hs : scanColumn g cardPos false with
    | none => rfl
    | some q =>
      obtain ⟨a, b, _⟩ := s2 q hs
      rw [hnone q a] at b
      cases b
  · rintro h ⟨r, hr, hc⟩
    cases hs : scanColumn g cardPos false with
    | none =>
      rw [s1 hs r hr] at hc
      cases hc
    | some q =>
      obtain ⟨a, b, c⟩ := s2 q hs
      have hflip : checkAndFlipCardsBelow g cardPos
          = g.modifyCard q (fun c => { c with _isFaceUp := true }) := by
        unfold checkAndFlipCardsBelow
        rw [if_neg h, hs]
      obtain ⟨cm, hcm, _⟩ := (inColumnBelow_iff g cardPos false q).mp b
      refine ⟨q, a, b, c, ?_, ?_⟩
      · rw [hflip]
        unfold GameModel.faceUpOf
        rw [GameModel.card?_modifyCard_self hcm]
        rfl
      · intro r hr
        rw [hflip]
        exact faceUpOf_modifyCard_ne g _ hr

theorem card?_raiseHandCard_ne (view : Option GameView) (g : GameModel) (card : CardPtr)
    (cardId z : Int) {q : CardPtr} (h : q ≠ card) :
    (raiseHandCard view g card cardId z).1.card? q = g.card? q := by
  unfold raiseHandCard
  cases view with
  | none => rfl
  | some v =>
    simp only
    split
    · exact GameModel.card?_modifyCard_ne h
    · rfl

theorem playfieldCards_raiseHandCard (view : Option GameView) (g : GameModel) (card : CardPtr)
    (cardId z : Int) :
    (raiseHandCard view g card cardId z).1._playfieldCards = g._playfieldCards := by
  unfold raiseHandCard
  cases view with
  | none => rfl
  | some v =>
    simp only
    split <;> rfl

theorem executeCardMatch_others {g : GameModel} {playfieldCardId handCardId : Int}
    {p : CardPtr} (hp : g.getCardById playfieldCardId = some p)
    (hexec : (GameRulesService.executeCardMatch g playfieldCardId handCardId).1 = true) :
    (GameRulesService.executeCardMatch g playfieldCardId handCardId).2._playfieldCards
      = g._playfieldCards.erase p ∧
    (GameRulesService.executeCardMatch g playfieldCardId handCardId).2.getTopHandCard
      = some p ∧
    ∀ r, r ≠ p →
      (GameRulesService.executeCardMatch g playfieldCardId handCardId).2.card? r
        = g.card? r := by
  unfold GameRulesService.executeCardMatch at hexec ⊢
  rw [hp] at hexec ⊢
  cases hh : g.getCardById handCardId with
  | none => rw [hh] at hexec; cases hexec
  | some q =>
    rw [hh] at hexec
    cases hm : GameRulesService.canCardsMatch (g.card? p) (g.card? q) with
    | false => simp [hm] at hexec
    | true =>
      simp only [hm, Bool.not_true, Bool.false_eq_true, if_false]
      refine ⟨rfl, by simp [GameModel.getTopHandCard, GameModel.modifyCard], ?_⟩
      intro r hr
      exact GameModel.getElem?_updateCard_ne hr

theorem placeNewHandCard_others (view : Option GameView) (g : GameModel)
    (playfieldCardId z : Int) {p : CardPtr} (htop : g.getTopHandCard = some p) :
    (placeNewHandCard view g playfieldCardId z).1._playfieldCards = g._playfieldCards ∧
    ∀ r, r ≠ p → (placeNewHandCard view g playfieldCardId z).1.card? r = g.card? r := by
  unfold placeNewHandCard
  rw [htop]
  simp only
  split
  · refine ⟨by rw [playfieldCards_raiseHandCard]; rfl, ?_⟩
    intro r hr
    rw [card?_raiseHandCard_ne _ _ _ _ _ hr]
    exact GameModel.card?_modifyCard_ne hr
  · exact ⟨rfl, fun _ _ => rfl⟩

/-- The state a successful `executeCardMatch` followed by `placeNewHandCard`
leaves: the tableau without the matched card, every other card as it was. -/
theorem match_settled {g : GameModel} {playfieldCardId handCardId : Int} {p : CardPtr}
    (hp : g.getCardById playfieldCardId = some p)
    (hexec : (GameRulesService.executeCardMatch g playfieldCardId handCardId).1 = true)
    (view : Option GameView) (z : Int) :
    (placeNewHandCard view (GameRulesService.executeCardMatch g playfieldCardId handCardId).2
      playfieldCardId z).1._playfieldCards = g._playfieldCards.erase p ∧
    ∀ r, r ≠ p →
      (placeNewHandCard view (GameRulesService.executeCardMatch g playfieldCardId handCardId).2
        playfieldCardId z).1.card? r = g.card? r := by
  obtain ⟨e1, e2, e3⟩ := executeCardMatch_others hp hexec
  obtain ⟨n1, n2⟩ := placeNewHandCard_others view _ playfieldCardId z e2
  exact ⟨n1.trans e1, fun r hr => (n2 r hr).trans (e3 r hr)⟩

/-- The game model a successful `handleCardMatch` leaves behind. -/
theorem handleCardMatch_model {c c1 : GameController} {g : GameModel}
    {playfieldCardId handCardId now : Int} (hg : c._gameModel = some g)
    (h : c.handleCardMatch playfieldCardId handCardId now = (true, c1)) :
    (GameRulesService.executeCardMatch g playfieldCardId handCardId).1 = true ∧
    ∃ view z, c1._gameModel = some (checkGameEndCondition
      (checkAndFlipCardsBelow
        (placeNewHandCard view
          (GameRulesService.executeCardMatch g playfieldCardId handCardId).2
          playfieldCardId z).1
        (match (g.getCardById playfieldCardId).bind g.card? with
          | some card => card._position
          | none => Vec2.ZERO))).2 := by
  unfold handleCardMatch at h
  cases hrun : c._isGameRunning with
  | false => simp [hrun] at h
  | true =>
    simp only [hrun, hg, Bool.not_true, Bool.false_eq_true, if_false] at h
    cases hexec : (GameRulesService.executeCardMatch g playfieldCardId handCardId).1 with
    | false => simp [hexec] at h
    | true =>
      simp only [hexec, if_true, Prod.mk.injEq, true_and] at h
      subst h
      exact ⟨rfl, _, _, rfl⟩

theorem hiddenBelow_iff {g g2 : GameModel} {p : CardPtr} (cardPos : Vec2)
    (hnd : g._playfieldCards.Nodup)
    (hpf : g2._playfieldCards = g._playfieldCards.erase p)
    (hcards : ∀ r, r ≠ p → g2.card? r = g.card? r) (q : CardPtr) :
    hiddenBelow g p cardPos q = true ↔
      q ∈ g2._playfieldCards ∧ inColumnBelow g2 cardPos false q = true := by
  unfold hiddenBelow
  rw [hpf, hnd.mem_erase_iff]
  simp only [Bool.and_eq_true, decide_eq_true_eq, ne_eq]
  constructor
  · rintro ⟨⟨h1, h2⟩, h3⟩
    refine ⟨⟨h2, h1⟩, ?_⟩
    unfold inColumnBelow at h3 ⊢
    rw [hcards q h2]
    exact h3
  · rintro ⟨⟨h2, h1⟩, h3⟩
    refine ⟨⟨h1, h2⟩, ?_⟩
    unfold inColumnBelow at h3 ⊢
    rw [hcards q h2] at h3
    exact h3

/-- C23 (as stated): in the scenario of tableau cards at `(0, 0)` face-up,
`(0, 50)` face-down and `(100, 0)` face-up, matching the `(0, 0)` card
succeeds and leaves the `(0, 50)` card face-down. -/
theorem handleCardMatch_origin_counterexample :
    (Examples.originScenarioRunning.handleCardMatch 1 4 0).1 = true ∧
    Examples.originScenario.faceUpOf 1 = some false ∧
    ((Examples.originScenarioRunning.handleCardMatch 1 4 0).2._gameModel.map
      (fun g => (g._playfieldCards, g.faceUpOf 1, g.faceUpOf 2)))
        = some ([1, 2], some false, some true) := by
  decide

/-- The `_isFaceUp` flags of the tableau after a successful `handleCardMatch`
on the card behind `p`, in terms of the candidates of the column scan (the
face-down cards of the column below at a height above the initial
`maxY = 0`): nothing changes when the position is `(0, 0)` or there is no
candidate, and otherwise a highest candidate, and no other remaining tableau
card, is turned face-up. -/
theorem handleCardMatch_reveal_scan (c c1 : GameController) (g : GameModel)
    (playfieldCardId handCardId now : Int) (p : CardPtr) (cp : CardModel)
    (hg : c._gameModel = some g) (hwf : g.WellFormed)
    (hp : g.getCardById playfieldCardId = some p) (hcp : g.card? p = some cp)
    (h : c.handleCardMatch playfieldCardId handCardId now = (true, c1)) :
    ∃ g1, c1._gameModel = some g1 ∧
      g1._playfieldCards = g._playfieldCards.erase p ∧
      (cp._position = Vec2.ZERO →
        ∀ r ∈ g1._playfieldCards, g1.faceUpOf r = g.faceUpOf r) ∧
      (cp._position ≠ Vec2.ZERO → (∀ q, hiddenBelow g p cp._position q = false) →
        ∀ r ∈ g1._playfieldCards, g1.faceUpOf r = g.faceUpOf r) ∧
      (cp._position ≠ Vec2.ZERO → (∃ q, hiddenBelow g p cp._position q = true) →
        ∃ q, hiddenBelow g p cp._position q = true ∧
          (∀ r, hiddenBelow g p cp._position r = true → g.heightOf r ≤ g.heightOf q) ∧
          g.faceUpOf q = some false ∧ g1.faceUpOf q = some true ∧
          ∀ r ∈ g1._playfieldCards, r ≠ q → g1.faceUpOf r = g.faceUpOf r) := by
  obtain ⟨hexec, view, z, hg1⟩ := handleCardMatch_model hg h
  have hpos : (match (g.getCardById playfieldCardId).bind g.card? with
      | some card => card._position
      | none => Vec2.ZERO) = cp._position := by
    simp [hp, hcp]
  rw [hpos] at hg1
  obtain ⟨hpf, hcards⟩ := match_settled hp hexec view z
  generalize (placeNewHandCard view
    (GameRulesService.executeCardMatch g playfieldCardId handCardId).2
    playfieldCardId z).1 = g2 at hg1 hpf hcards
  have hnd : g._playfieldCards.Nodup := by
    have := hwf.nodup
    simp only [GameModel.storedCards] at this
    exact (List.nodup_append.mp (List.nodup_append.mp this).1).1
  have hne : ∀ r ∈ g2._playfieldCards, r ≠ p := by
    intro r hr
    rw [hpf, hnd.mem_erase_iff] at hr
    exact hr.1
  have hface : ∀ r, r ≠ p → g2.faceUpOf r = g.faceUpOf r := by
    intro r hr
    unfold GameModel.faceUpOf
    rw [hcards r hr]
  have hheight : ∀ r, r ≠ p → g2.heightOf r = g.heightOf r := by
    intro r hr
    unfold GameModel.heightOf
    rw [hcards r hr]
  obtain ⟨f1, f2, f3, f4⟩ := checkAndFlipCardsBelow_spec g2 cp._position
  refine ⟨_, hg1, ?_, ?_, ?_, ?_⟩
  · rw [playfieldCards_checkGameEndCondition, f1, hpf]
  · intro hz r hr
    rw [playfieldCards_checkGameEndCondition, f1] at hr
    rw [faceUpOf_checkGameEndCondition, f2 hz]
    exact hface r (hne r hr)
  · intro hz hnone r hr
    rw [playfieldCards_checkGameEndCondition, f1] at hr
    have hnone2 : ∀ r ∈ g2._playfieldCards, inColumnBelow g2 cp._position false r = false := by
      intro r hr2
      by_contra hc
      have := (hiddenBelow_iff cp._position hnd hpf hcards r).mpr ⟨hr2, by simpa using hc⟩
      rw [hnone r] at this
      cases this
    rw [faceUpOf_checkGameEndCondition, f3 hz hnone2]
    exact hface r (hne r hr)
  · rintro hz ⟨q0, hq0⟩
    obtain ⟨hq0mem, hq0c⟩ := (hiddenBelow_iff cp._position hnd hpf hcards q0).mp hq0
    obtain ⟨q, hq, hqc, hmax, hup, hothers⟩ := f4 hz ⟨q0, hq0mem, hq0c⟩
    have hqp : q ≠ p := hne q hq
    refine ⟨q, (hiddenBelow_iff cp._position hnd hpf hcards q).mpr ⟨hq, hqc⟩, ?_, ?_, ?_, ?_⟩
    · intro r hr
      obtain ⟨hrmem, hrc⟩ := (hiddenBelow_iff cp._position hnd hpf hcards r).mp hr
      rw [← hheight r (hne r hrmem), ← hheight q hqp]
      exact hmax r hrmem hrc
    · obtain ⟨cm, hcm, _, _, hdown, _⟩ := (inColumnBelow_iff g2 cp._position false q).mp hqc
      rw [← hface q hqp]
      unfold GameModel.faceUpOf
      rw [hcm]
      simp [hdown]
    · rw [faceUpOf_checkGameEndCondition]
      exact hup
    · intro r hr hrq
      rw [playfieldCards_checkGameEndCondition, f1] at hr
      rw [faceUpOf_checkGameEndCondition, hothers r hrq]
      exact hface r (hne r hr)

theorem faceDownBelow_eq_hiddenBelow (g : GameModel) (p : CardPtr) (cardPos : Vec2)
    (hpos : ∀ q ∈ g._playfieldCards, 0 < g.heightOf q) (q : CardPtr) :
    faceDownBelow g p cardPos q = hiddenBelow g p cardPos q := by
  unfold faceDownBelow hiddenBelow inColumnBelow
  by_cases hq : q ∈ g._playfieldCards
  · have hh := hpos q hq
    unfold GameModel.heightOf at hh
    cases hc : g.card? q with
    | none => simp
    | some cm =>
      rw [hc] at hh
      simp only at hh
      cases hf : cm._isFaceUp <;> simp [hq, hh, hf]
  · simp [hq]

/-- C23 (amended): let every tableau card of a well-formed game lie at a
height `y > 0`, and let a successful `handleCardMatch` match the tableau card
behind `p`, lying at position `pos`.  The tableau is afterwards the old one
without `p`.  If no other tableau card lies face-down in the column of `pos`
(same x) strictly below it (smaller y), no remaining tableau card changes its
`_isFaceUp` flag.  Otherwise exactly one remaining tableau card changes its
flag: a nearest one (of greatest y) among those face-down cards, which becomes
face-up. -/
theorem handleCardMatch_reveals_nearest (c c1 : GameController) (g : GameModel)
    (playfieldCardId handCardId now : Int) (p : CardPtr) (cp : CardModel)
    (hg : c._gameModel = some g) (hwf : g.WellFormed)
    (hp : g.getCardById playfieldCardId = some p) (hmem : p ∈ g._playfieldCards)
    (hcp : g.card? p = some cp)
    (hheights : ∀ q ∈ g._playfieldCards, 0 < g.heightOf q)
    (h : c.handleCardMatch playfieldCardId handCardId now = (true, c1)) :
    ∃ g1, c1._gameModel = some g1 ∧
      g1._playfieldCards = g._playfieldCards.erase p ∧
      ((∀ q, faceDownBelow g p cp._position q = false) →
        ∀ r ∈ g1._playfieldCards, g1.faceUpOf r = g.faceUpOf r) ∧
      ((∃ q, faceDownBelow g p cp._position q = true) →
        ∃ q, faceDownBelow g p cp._position q = true ∧
          (∀ r, faceDownBelow g p cp._position r = true → g.heightOf r ≤ g.heightOf q) ∧
          g.faceUpOf q = some false ∧ g1.faceUpOf q = some true ∧
          ∀ r ∈ g1._playfieldCards, r ≠ q → g1.faceUpOf r = g.faceUpOf r) := by
  have hnz : cp._position ≠ Vec2.ZERO := by
    have hh := hheights p hmem
    unfold GameModel.heightOf at hh
    rw [hcp] at hh
    simp only at hh
    intro hz
    rw [hz] at hh
    exact absurd hh (by decide)
  have heq := faceDownBelow_eq_hiddenBelow g p cp._position hheights
  obtain ⟨g1, hg1, hpf, _, hnone, hsome⟩ :=
    handleCardMatch_reveal_scan c c1 g playfieldCardId handCardId now p cp hg hwf hp hcp h
  refine ⟨g1, hg1, hpf, ?_, ?_⟩
  · intro hno
    exact hnone hnz (fun q => (heq q).symm.trans (hno q))
  · rintro ⟨q0, hq0⟩
    obtain ⟨q, a, b, c2, d, e⟩ := hsome hnz ⟨q0, (heq q0).symm.trans hq0⟩
    exact ⟨q, (heq q).trans a, fun r hr => b r ((heq r).symm.trans hr), c2, d, e⟩

theorem handleCardMatch_reveals_nearest_witness :
    ∃ g1, (Examples.columnScenarioRunning.handleCardMatch 1 4 0).2._gameModel = some g1 ∧
      ∃ q, faceDownBelow Examples.columnScenario 0 ⟨100, 350⟩ q = true ∧
        Examples.columnScenario.faceUpOf q = some false ∧ g1.faceUpOf q = some true ∧
        ∀ r ∈ g1._playfieldCards, r ≠ q → g1.faceUpOf r = Examples.columnScenario.faceUpOf r :=
  have h := handleCardMatch_reveals_nearest Examples.columnScenarioRunning
    (Examples.columnScenarioRunning.handleCardMatch 1 4 0).2 Examples.columnScenario 1 4 0 0
    (Examples.card 1 4 "playfield" ⟨100, 350⟩ true) rfl (by decide) (by decide) (by decide)
    (by decide) (by decide) (by decide)
  h.imp fun _ hg1 =>
    ⟨hg1.1, (hg1.2.2.2 ⟨1, by decide⟩).imp
      fun _ hq => ⟨hq.1, hq.2.2.1, hq.2.2.2.1, hq.2.2.2.2⟩⟩

end GameController

namespace GameController

/-- C25: on the running game `faceUpColumnRunning` the King (pointer 0) lies
face-up under the Five.  `handleCardMatch(2, 4)` on the Five succeeds and
reveals nothing (the King stays face-up); the `handleUndo` that follows
succeeds, puts the Five back and turns the King face-down, although the match
had not revealed it. -/
theorem undo_hides_card_not_revealed :
    Examples.faceUpColumn.faceUpOf 0 = some true ∧
    (Examples.faceUpColumnRunning.handleCardMatch 2 4 0).1 = true ∧
    ((Examples.faceUpColumnRunning.handleCardMatch 2 4 0).2._gameModel.map
      (fun g => (g._playfieldCards, g.faceUpOf 0))) = some ([0], some true) ∧
    ((Examples.faceUpColumnRunning.handleCardMatch 2 4 0).2.handleUndo false).1 = true ∧
    (((Examples.faceUpColumnRunning.handleCardMatch 2 4 0).2.handleUndo false).2._gameModel.map
      (fun g => (g._playfieldCards, g.faceUpOf 0, g.faceUpOf 1)))
        = some ([0, 1], some false, some true) := by
  decide

end GameController

end CardGame
